import Mathlib

/-!
ReloadMatic: the background script `reloadmatic.js`.

A shallow embedding of the scheduling core of the add-on's background script.

Modelling conventions.

* JavaScript numbers are exact rationals (`ℚ`): periods, delays, clock values
  and scroll offsets.  Rounding of IEEE doubles is not modelled.
* The two global `Map` objects (`state`, `urlMemory`) and the set of armed
  alarms of the browser's timer service are insertion-ordered association
  lists keyed by strings.
* A tab record is a mutable JavaScript object that the handlers reach through
  the `state` map.  Here a record is addressed by the key it is stored under,
  and every assignment `obj.f = v` is a write to the record under that key.
* Every call into the browser that the script makes (alarms, messages, popup
  windows, reloads, history, storage) is appended to `World.log`, in program
  order.
* A promise chain is run to completion in program order before the next event
  is handled; every browser call is taken to resolve, except `browser.tabs.get`
  which rejects for a tab that does not exist.
* `refreshMenu` asks the browser for the active tab of the current window; the
  query is taken to return one tab.  Its only effect on the records is that of
  `menuSetActiveTab`, which fetches the record of that tab with `getTabProps`.
  The redrawing of the menu entries, `CurrentWindowId` and `reloadAllTabs`,
  its only reader, are not part of the model.
-/

namespace ReloadMatic

/-! ## String-keyed maps -/

/-- JavaScript `Map.prototype.get`: the value stored under `k`, if any. -/
def mapGet {α : Type} : List (String × α) → String → Option α
  | [], _ => none
  | (k', v) :: m, k => if k' = k then some v else mapGet m k

/-- JavaScript `Map.prototype.has`. -/
def mapHas {α : Type} (m : List (String × α)) (k : String) : Bool :=
  (mapGet m k).isSome

/-- JavaScript `Map.prototype.set`: replaces the value in place, or appends a new entry. -/
def mapSet {α : Type} : List (String × α) → String → α → List (String × α)
  | [], k, v => [(k, v)]
  | (k', v') :: m, k, v => if k' = k then (k, v) :: m else (k', v') :: mapSet m k v

/-- JavaScript `Map.prototype.delete`. -/
def mapDelete {α : Type} : List (String × α) → String → List (String × α)
  | [], _ => []
  | (k', v') :: m, k => if k' = k then mapDelete m k else (k', v') :: mapDelete m k

/-! ## Data model -/

/-- Configuration format version. -/
def CONFIG_VERSION : Nat := 1

/-- Conversion factor from seconds to minutes. -/
def TIME_FACTOR : ℚ := 1 / 60

/-- The value of `browser.tabs.TAB_ID_NONE`. -/
def TAB_ID_NONE : Int := -1

/-- Form payload of a request: field names with their submitted values. -/
abbrev FormData := List (String × List String)

/-- The `formData` property of a tab record: it is not a property of a freshly
created record, and once assigned it holds `null` or a form payload. -/
inductive FormField where
  | absent
  | null
  | data (d : FormData)
  deriving DecidableEq, Repr

/-- The record of `Settings.defaults`. -/
structure Defaults where
  randomize : Bool
  onlyOnError : Bool
  smart : Bool
  stickyReload : Bool
  nocache : Bool
  deriving DecidableEq, Repr

/-- The global `Settings` object. -/
structure Settings where
  defaults : Defaults
  pinSetsRemember : Bool
  neverConfirmPost : Bool
  deriving DecidableEq, Repr

/-- The hard-coded settings of `LoadSettingsAsync`, used when none are stored. -/
def fallbackSettings : Settings :=
  { defaults :=
      { randomize := false, onlyOnError := false, smart := true,
        stickyReload := false, nocache := false }
    pinSetsRemember := true
    neverConfirmPost := false }

/-- The object that describes all add-on related properties of a browser tab. -/
structure TabProps where
  -- user settings
  randomize : Bool
  loadError : Bool
  smart : Bool
  onlyOnError : Bool
  stickyReload : Bool
  nocache : Bool
  remember : Bool
  period : ℚ
  -- internal state
  alarmName : String
  keepRefreshing : Bool
  freezeUntil : ℚ
  tabId : Int
  reqMethod : String
  postConfirmed : Bool
  scrollX : Option ℚ
  scrollY : Option ℚ
  url : String
  reloadByAddon : Bool
  formData : FormField
  deriving DecidableEq, Repr

/-- A tab record in JSON form, as produced by `JSON.stringify` and as kept in
`urlMemory` and in the upgrade snapshot: every property may be missing. For
`formData`, `some none` is the JSON value `null`. -/
structure Snapshot where
  randomize : Option Bool
  loadError : Option Bool
  smart : Option Bool
  onlyOnError : Option Bool
  stickyReload : Option Bool
  nocache : Option Bool
  remember : Option Bool
  period : Option ℚ
  alarmName : Option String
  keepRefreshing : Option Bool
  freezeUntil : Option ℚ
  tabId : Option Int
  reqMethod : Option String
  postConfirmed : Option Bool
  scrollX : Option ℚ
  scrollY : Option ℚ
  url : Option String
  reloadByAddon : Option Bool
  formData : Option (Option FormData)
  deriving DecidableEq, Repr

/-- Messages sent to the content script of a tab. -/
inductive Message where
  | timerDisabled
  | timerEnabled
  | reload (postData : FormField)
  | scroll (scrollX scrollY : Option ℚ)
  | setTabId (tabId : Int)
  deriving DecidableEq, Repr

/-- The popup windows the script opens. -/
inductive Popup where
  | postConfirm (tabId : Int) (period : ℚ)
  | customInterval (tabId : Int)
  deriving DecidableEq, Repr

/-- Calls into the browser, in the order the script makes them. -/
inductive Effect where
  | alarmsClear (name : String)
  | alarmsCreate (name : String) (delayInMinutes : ℚ)
  | sendMessage (tabId : Int) (msg : Message)
  | windowsCreate (popup : Popup)
  | tabsReload (tabId : Int) (bypassCache : Bool)
  | historyDeleteRange (startTime endTime : ℚ)
  | storageSetUrlMemory (entries : List (String × Snapshot))
  | sessionsSetTabValue (tabId : Int) (value : TabProps)
  deriving DecidableEq, Repr

/-- What `browser.tabs.get` reports about a tab. -/
structure Tab where
  url : String
  incognito : Bool
  deriving DecidableEq, Repr

/-- The browser as the script observes it while one event is handled. -/
structure Env where
  /-- Result of `browser.tabs.get`; `none` when the promise rejects. -/
  tabs : Int → Option Tab
  /-- Result of `Date.now()`. -/
  now : ℚ
  /-- Successive results of `Math.random()`. -/
  random : Nat → ℚ
  /-- The `authority + path` of `parseUri(url)`; the library is not part of the script. -/
  normUrl : String → String
  /-- The `lastVisitTime` of the first item of `browser.history.search`, if any. -/
  lastVisit : String → Option ℚ
  /-- Ids of all open tabs, as returned by an unfiltered `browser.tabs.query`. -/
  allTabs : List Int
  /-- Id of the active tab of a window, if the window has one. -/
  activeTab : Int → Option Int
  /-- Id of the active tab of the current window. -/
  currentTab : Int
  /-- Whether `browser.sessions.setTabValue` exists. -/
  session57Available : Bool

/-- The script's global variables, the armed alarms of the timer service and the
log of browser calls. -/
structure World where
  Settings : Settings
  state : List (String × TabProps)
  urlMemory : List (String × Snapshot)
  /-- Armed one-shot alarms: name and `delayInMinutes`. -/
  timers : List (String × ℚ)
  log : List Effect
  /-- Number of values already taken from `Math.random()`. -/
  draws : Nat
  deriving DecidableEq, Repr

/-- The world right after the script is loaded with the given settings. -/
def initialWorld (s : Settings) : World :=
  { Settings := s, state := [], urlMemory := [],
    timers := [], log := [], draws := 0 }

/-- Append one browser call to the log. -/
def emit (w : World) (e : Effect) : World :=
  { w with log := w.log ++ [e] }

/-- Browser call `browser.alarms.clear(name)`. -/
def alarmsClear (w : World) (name : String) : World :=
  { w with timers := mapDelete w.timers name, log := w.log ++ [Effect.alarmsClear name] }

/-- Browser call `browser.alarms.create(name, delayInMinutes)`. -/
def alarmsCreate (w : World) (name : String) (delayInMinutes : ℚ) : World :=
  { w with timers := mapSet w.timers name delayInMinutes,
           log := w.log ++ [Effect.alarmsCreate name delayInMinutes] }

/-- Write a record back under its key in `state`. -/
def setObj (w : World) (key : String) (obj : TabProps) : World :=
  { w with state := mapSet w.state key obj }

/-! ## The script -/

/-- Source `objKey`. -/
def objKey (tabId : Int) : String :=
  "tab-" ++ toString tabId ++ "-alarm"

/-- Source `newTabProps`: a default-initialised record, with the default user
options of `Settings.defaults` applied on top. -/
def newTabProps (s : Settings) (tabId : Int) : TabProps :=
  { randomize := s.defaults.randomize
    loadError := false
    smart := s.defaults.smart
    onlyOnError := s.defaults.onlyOnError
    stickyReload := s.defaults.stickyReload
    nocache := s.defaults.nocache
    remember := false
    period := -1
    alarmName := objKey tabId
    keepRefreshing := false
    freezeUntil := 0
    tabId := tabId
    reqMethod := "GET"
    postConfirmed := false
    scrollX := none
    scrollY := none
    url := ""
    reloadByAddon := false
    formData := FormField.absent }

/-- Source `getTabProps`: the record of a tab, created on demand. Returns the
world (with the new entry, if one was made) and the record. -/
def getTabProps (w : World) (tabId : Int) : World × TabProps :=
  let alarm_name := objKey tabId
  match mapGet w.state alarm_name with
  | some obj => (w, obj)
  | none =>
    let obj := newTabProps w.Settings tabId
    ({ w with state := mapSet w.state alarm_name obj }, obj)

/-- Source `browser.tabs.onRemoved` listener. -/
def onRemoved (w : World) (tabId : Int) : World :=
  let key := objKey tabId
  let w := alarmsClear w key
  { w with state := mapDelete w.state key }

/-- Lines 94-96 of `restartAlarm`: the period drawn when "Randomize" is on,
for the value `r` returned by `Math.random()`. -/
def randomizedPeriod (period r : ℚ) : ℚ :=
  let min := period * 0.5
  let max := period * 1.5
  r * (max - min + 1) + min

/-- Source `restartAlarm`, for the record stored under `key`. -/
def restartAlarm (env : Env) (w : World) (key : String) : World :=
  match mapGet w.state key with
  | none => w
  | some obj =>
    let w := alarmsClear w obj.alarmName
    if obj.period < 0 then
      let w := setObj w key { obj with postConfirmed := false }
      emit w (Effect.sendMessage obj.tabId Message.timerDisabled)
    else
      let drawn : ℚ × World :=
        if obj.randomize then
          (randomizedPeriod obj.period (env.random w.draws), { w with draws := w.draws + 1 })
        else
          (obj.period, w)
      let w := alarmsCreate drawn.2 obj.alarmName (drawn.1 * TIME_FACTOR)
      emit w (Effect.sendMessage obj.tabId Message.timerEnabled)

/-- Source `refreshMenu` with `menuSetActiveTab`: the record of the active tab
of the current window is fetched, and so created when the tab has none. -/
def refreshMenu (env : Env) (w : World) : World :=
  (getTabProps w env.currentTab).1

/-- Source `applyTabProps`: refresh the menu, restart the alarm, then save the
record with the session when the session API exists. -/
def applyTabProps (env : Env) (w : World) (key : String) : World :=
  let w := refreshMenu env w
  let w := restartAlarm env w key
  if env.session57Available then
    match mapGet w.state key with
    | none => w
    | some obj => emit w (Effect.sessionsSetTabValue obj.tabId obj)
  else w

/-- Source `clone`, that is `JSON.parse(JSON.stringify(obj))`, of a tab record:
properties whose value is `undefined` are left out. -/
def clone (obj : TabProps) : Snapshot :=
  { randomize := some obj.randomize
    loadError := some obj.loadError
    smart := some obj.smart
    onlyOnError := some obj.onlyOnError
    stickyReload := some obj.stickyReload
    nocache := some obj.nocache
    remember := some obj.remember
    period := some obj.period
    alarmName := some obj.alarmName
    keepRefreshing := some obj.keepRefreshing
    freezeUntil := some obj.freezeUntil
    tabId := some obj.tabId
    reqMethod := some obj.reqMethod
    postConfirmed := some obj.postConfirmed
    scrollX := obj.scrollX
    scrollY := obj.scrollY
    url := some obj.url
    reloadByAddon := some obj.reloadByAddon
    formData :=
      match obj.formData with
      | FormField.absent => none
      | FormField.null => some none
      | FormField.data d => some (some d) }

/-- Source `migratePropObj`. The old record is given in JSON form (cloning it,
the first line of the source, is the identity there). `tmp` is the old record
with `tabId` and `alarmName` overwritten by the new record's; every property of
the new record that `tmp` also has is assigned from `tmp`. `formData` is a
property of the new record only once it has been assigned. -/
def migratePropObj (newObj : TabProps) (oldObj : Snapshot) : TabProps :=
  let tmp : Snapshot :=
    { oldObj with tabId := some newObj.tabId, alarmName := some newObj.alarmName }
  { randomize := tmp.randomize.getD newObj.randomize
    loadError := tmp.loadError.getD newObj.loadError
    smart := tmp.smart.getD newObj.smart
    onlyOnError := tmp.onlyOnError.getD newObj.onlyOnError
    stickyReload := tmp.stickyReload.getD newObj.stickyReload
    nocache := tmp.nocache.getD newObj.nocache
    remember := tmp.remember.getD newObj.remember
    period := tmp.period.getD newObj.period
    alarmName := tmp.alarmName.getD newObj.alarmName
    keepRefreshing := tmp.keepRefreshing.getD newObj.keepRefreshing
    freezeUntil := tmp.freezeUntil.getD newObj.freezeUntil
    tabId := tmp.tabId.getD newObj.tabId
    reqMethod := tmp.reqMethod.getD newObj.reqMethod
    postConfirmed := tmp.postConfirmed.getD newObj.postConfirmed
    scrollX := match tmp.scrollX with
      | some x => some x
      | none => newObj.scrollX
    scrollY := match tmp.scrollY with
      | some y => some y
      | none => newObj.scrollY
    url := tmp.url.getD newObj.url
    reloadByAddon := tmp.reloadByAddon.getD newObj.reloadByAddon
    formData :=
      match newObj.formData, tmp.formData with
      | FormField.absent, _ => FormField.absent
      | f, none => f
      | _, some none => FormField.null
      | _, some (some d) => FormField.data d }

/-- Source `rememberSet`, for the record stored under `key`. -/
def rememberSet (env : Env) (w : World) (key : String) : World :=
  match mapGet w.state key with
  | none => w
  | some obj =>
    match env.tabs obj.tabId with
    | none => w
    | some tab =>
      if tab.incognito then w
      else
        let url := env.normUrl tab.url
        let w : World :=
          if obj.remember then
            { w with urlMemory := mapSet w.urlMemory url (clone obj) }
          else
            { w with urlMemory := mapDelete w.urlMemory url }
        emit w (Effect.storageSetUrlMemory w.urlMemory)

/-- Source `rememberGet`, for the record stored under `key`. -/
def rememberGet (env : Env) (w : World) (key : String) : World :=
  match mapGet w.state key with
  | none => w
  | some obj =>
    match env.tabs obj.tabId with
    | none => w
    | some tab =>
      let url := env.normUrl tab.url
      match mapGet w.urlMemory url with
      | some saved =>
        let w := setObj w key (migratePropObj obj saved)
        applyTabProps env w key
      | none => w

/-- Source `setTabPeriod`, for the record stored under `key`. Nothing happens
when the tab does not exist any more. -/
def setTabPeriod (env : Env) (w : World) (key : String) (period : ℚ) : World :=
  match mapGet w.state key with
  | none => w
  | some obj =>
    match env.tabs obj.tabId with
    | none => w
    | some _ =>
      if obj.reqMethod ≠ "GET" ∧ period ≠ -1 ∧ obj.postConfirmed = false
          ∧ w.Settings.neverConfirmPost = false then
        emit w (Effect.windowsCreate (Popup.postConfirm obj.tabId period))
      else if period = -2 then
        emit w (Effect.windowsCreate (Popup.customInterval obj.tabId))
      else
        let w := setObj w key { obj with period := period }
        let w := applyTabProps env w key
        rememberSet env w key

/-- Source `reloadTab`, for the record stored under `key`. -/
def reloadTab (env : Env) (w : World) (key : String) (forceNocache : Bool) : World :=
  match mapGet w.state key with
  | none => w
  | some obj =>
    let obj := { obj with reloadByAddon := true }
    let w := setObj w key obj
    if obj.reqMethod ≠ "GET" ∧ (obj.postConfirmed = true ∨ w.Settings.neverConfirmPost = true) then
      let w :=
        match env.lastVisit obj.url with
        | some visitTime => emit w (Effect.historyDeleteRange (visitTime - 1) (visitTime + 1))
        | none => w
      let w := setObj w key { obj with keepRefreshing := true }
      emit w (Effect.sendMessage obj.tabId (Message.reload obj.formData))
    else
      emit w (Effect.tabsReload obj.tabId (forceNocache || obj.nocache))

/-- Apply an assignment to the record stored under `key`. -/
def modifyObj (w : World) (key : String) (f : TabProps → TabProps) : World :=
  match mapGet w.state key with
  | none => w
  | some obj => setObj w key (f obj)

/-- Errors a listener can end with. -/
inductive JsError where
  /-- A property of `undefined` was read. -/
  | typeError
  deriving DecidableEq, Repr

/-- Source `browser.webRequest.onBeforeRequest` listener. `requestBody` is
`none` when the request has no body and `some none` when the body has no
`formData`; in the latter case `clone(undefined)` throws and the listener stops
after having recorded the request method. -/
def onBeforeRequest (env : Env) (w : World) (tabId : Int) (method : String)
    (requestBody : Option (Option FormData)) : World :=
  let w := (getTabProps w tabId).1
  let key := objKey tabId
  let w := modifyObj w key fun obj => { obj with reqMethod := method }
  let assigned : Option FormField :=
    if method ≠ "GET" then
      match requestBody with
      | some (some d) => some (FormField.data d)
      | some none => none
      | none => some FormField.null
    else some FormField.null
  match assigned with
  | none => w
  | some f =>
    let w := modifyObj w key fun obj => { obj with formData := f }
    match mapGet w.state key with
    | none => w
    | some obj =>
      if obj.reqMethod ≠ "GET" ∧ obj.postConfirmed = false
          ∧ w.Settings.neverConfirmPost = false then
        let w := setObj w key { obj with period := -1 }
        applyTabProps env w key
      else w

/-- Source `browser.alarms.onAlarm` listener, for the alarm named `name`. The
record is read with `state.get`, so it is `undefined` when the map has no entry,
and reading `obj.onlyOnError` then throws. -/
def onAlarm (env : Env) (w : World) (name : String) : Except JsError World :=
  match mapGet w.state name with
  | none => Except.error JsError.typeError
  | some obj =>
    if obj.onlyOnError = false ∨ obj.loadError = true then
      let now := env.now
      if obj.smart = true ∧ obj.freezeUntil > now then
        let deltaInSeconds := (obj.freezeUntil - now) / 1000
        Except.ok (alarmsCreate w obj.alarmName (deltaInSeconds * TIME_FACTOR))
      else
        Except.ok (reloadTab env w name false)
    else Except.ok w

/-- Source `sendContentTabId`. -/
def sendContentTabId (w : World) (tabId : Int) : World :=
  emit w (Effect.sendMessage tabId (Message.setTabId tabId))

/-- Source `browser.tabs.onUpdated` listener; `status` and `pinned` are the
properties of `changeInfo`, `none` when not in it. -/
def onUpdated (env : Env) (w : World) (tabId : Int) (status : Option String)
    (pinned : Option Bool) : World :=
  if tabId = TAB_ID_NONE then w
  else
    let w := (getTabProps w tabId).1
    let key := objKey tabId
    let w := sendContentTabId w tabId
    let w :=
      match status, mapGet w.state key with
      | some s, some obj =>
        if s = "complete" then
          let w :=
            if obj.reloadByAddon = true ∧ obj.scrollX ≠ none then
              emit w (Effect.sendMessage tabId (Message.scroll obj.scrollX obj.scrollY))
            else w
          let w := setObj w key { obj with reloadByAddon := false }
          restartAlarm env w key
        else
          alarmsClear w obj.alarmName
      | _, _ => w
    match pinned with
    | some p =>
      if w.Settings.pinSetsRemember then
        let w := modifyObj w key fun obj => { obj with remember := p }
        let w := rememberSet env w key
        refreshMenu env w
      else w
    | none => w

/-- Lines 465-470 of the `onCommitted` listener: if the URL changed, forget the
scroll position in the tab and record the new URL. -/
def noteUrl (url : String) (o : TabProps) : TabProps :=
  if o.url ≠ url then { o with scrollX := none, scrollY := none, url := url } else o

/-- Source `browser.webNavigation.onCommitted` listener. The assignments of the
listener body come first; the promise chain (`applyTabProps`, `rememberGet`)
runs after the body has returned. -/
def onCommitted (env : Env) (w : World) (frameId : Int) (tabId : Int)
    (transitionType : String) (url : String) : World :=
  if frameId = 0 then
    let (w, obj) := getTabProps w tabId
    let key := objKey tabId
    let reloading := !(transitionType != "auto_subframe" && transitionType != "reload")
    let cancelTimer := !reloading && !obj.keepRefreshing && !obj.stickyReload
    let w := if !reloading then modifyObj w key fun o => { o with remember := false } else w
    let w := if cancelTimer then modifyObj w key fun o => { o with period := -1 } else w
    let w := modifyObj w key (noteUrl url)
    if cancelTimer then
      let w := applyTabProps env w key
      rememberGet env w key
    else
      rememberGet env w key
  else w

/-- Source `browser.webNavigation.onCompleted` listener. -/
def onCompleted (w : World) (frameId : Int) (tabId : Int) : World :=
  if frameId = 0 then
    let w := (getTabProps w tabId).1
    modifyObj w (objKey tabId) fun obj => { obj with keepRefreshing := false }
  else w

/-- Source `freezeReload`. -/
def freezeReload (env : Env) (w : World) (tabId : Int) (duration : ℚ) : World :=
  let w := (getTabProps w tabId).1
  modifyObj w (objKey tabId) fun obj => { obj with freezeUntil := env.now + duration }

/-- Messages the background script receives from pages. -/
inductive RuntimeMessage where
  | activity (tabId : Int)
  | setTabInterval (tabId : Int) (period : ℚ)
  | scroll (tabId : Int) (arg1 arg2 : Option ℚ)
  | other
  deriving DecidableEq, Repr

/-- Source `browser.runtime.onMessage` listener. -/
def onMessage (env : Env) (w : World) (message : RuntimeMessage) : World :=
  match message with
  | RuntimeMessage.activity tabId => freezeReload env w tabId 3000
  | RuntimeMessage.setTabInterval tabId period =>
    let w := (getTabProps w tabId).1
    setTabPeriod env w (objKey tabId) period
  | RuntimeMessage.scroll tabId arg1 arg2 =>
    let w := (getTabProps w tabId).1
    modifyObj w (objKey tabId) fun obj => { obj with scrollX := arg1, scrollY := arg2 }
  | RuntimeMessage.other => w

/-- Source `browser.tabs.onActivated` listener. -/
def onActivated (env : Env) (w : World) (tabId : Int) : World :=
  let w := freezeReload env w tabId 5000
  refreshMenu env w

/-- Source `browser.windows.onFocusChanged` listener: the active tab of the
newly focused window, if there is one, is frozen. -/
def onFocusChanged (env : Env) (w : World) (windowId : Int) : World :=
  match env.activeTab windowId with
  | some tabId =>
    let w := freezeReload env w tabId 3000
    refreshMenu env w
  | none => w

/-- Source `webRequestError`. -/
def webRequestError (w : World) (tabId : Int) : World :=
  let w := (getTabProps w tabId).1
  modifyObj w (objKey tabId) fun obj => { obj with loadError := true }

/-- Source `webRequestComplete`. -/
def webRequestComplete (w : World) (tabId : Int) (statusCode : Int) : World :=
  let w := (getTabProps w tabId).1
  modifyObj w (objKey tabId) fun obj => { obj with loadError := decide (statusCode ≥ 400) }

/-- Run the deferred bodies of a list of `setTabPeriod(obj, period)` calls, in
the order the calls were made. -/
def runSetTabPeriods (env : Env) (w : World) (calls : List (String × ℚ)) : World :=
  calls.foldl (fun w call => setTabPeriod env w call.1 call.2) w

/-- The loop body of the "enable all" command, up to the call of `setTabPeriod`:
copy the clicked tab's record (stored under `key`) onto every tab's record,
keeping each tab's own `postConfirmed`. Returns the `setTabPeriod` calls made. -/
def enableAllAssign (w : World) (key : String) : List Int → World × List (String × ℚ)
  | [] => (w, [])
  | t :: ts =>
    let (w, other) := getTabProps w t
    let oldOther := clone other
    match mapGet w.state key with
    | none => enableAllAssign w key ts
    | some obj =>
      let other := migratePropObj other (clone obj)
      let other := { other with postConfirmed := oldOther.postConfirmed.getD other.postConfirmed }
      let w := setObj w (objKey t) other
      let rest := enableAllAssign w key ts
      (rest.1, (objKey t, other.period) :: rest.2)

/-- The loop body of the "disable all" command, up to the call of
`setTabPeriod(obj, -1)`. -/
def disableAllAssign (w : World) : List Int → World × List (String × ℚ)
  | [] => (w, [])
  | t :: ts =>
    let w := (getTabProps w t).1
    let rest := disableAllAssign w ts
    (rest.1, (objKey t, -1) :: rest.2)

/-- The entries of the context menu that change the settings of tabs. The
entries that open a page, "reload" and "reload all tabs" are not modelled. -/
inductive MenuItem where
  /-- Entries `reloadmatic-mnu-period-N`, with `N` as a number (`-1`, `-2` or
  a preset). -/
  | period (p : ℚ)
  | randomize
  | remember
  | disableCache
  | smart
  | sticky
  | unsuccessful
  | enableAll
  | disableAll
  deriving DecidableEq, Repr

/-- Source `browser.menus.onClicked` listener for a click on `item` in tab
`tabId`, with `checked` the new state of a checkbox entry. The listener body
(with the final `setTabValue`) comes first, the promise chains after it. -/
def menusOnClicked (env : Env) (w : World) (item : MenuItem) (checked : Bool)
    (tabId : Int) : World :=
  if tabId = TAB_ID_NONE then w
  else
    let w := (getTabProps w tabId).1
    let key := objKey tabId
    let save (w : World) : World :=
      if env.session57Available then
        match mapGet w.state key with
        | none => w
        | some obj => emit w (Effect.sessionsSetTabValue tabId obj)
      else w
    match item with
    | MenuItem.period p => setTabPeriod env (save w) key p
    | MenuItem.randomize =>
      rememberSet env (save (modifyObj w key fun o => { o with randomize := checked })) key
    | MenuItem.remember =>
      rememberSet env (save (modifyObj w key fun o => { o with remember := checked })) key
    | MenuItem.disableCache =>
      rememberSet env (save (modifyObj w key fun o => { o with nocache := checked })) key
    | MenuItem.smart =>
      rememberSet env (save (modifyObj w key fun o => { o with smart := checked })) key
    | MenuItem.sticky =>
      rememberSet env (save (modifyObj w key fun o => { o with stickyReload := checked })) key
    | MenuItem.unsuccessful =>
      let w := modifyObj w key fun o => { o with onlyOnError := checked }
      let w := restartAlarm env w key
      rememberSet env (save w) key
    | MenuItem.enableAll =>
      let w := save w
      let assigned := enableAllAssign w key env.allTabs
      runSetTabPeriods env assigned.1 assigned.2
    | MenuItem.disableAll =>
      let w := save w
      let assigned := disableAllAssign w env.allTabs
      runSetTabPeriods env assigned.1 assigned.2

/-- Source `LoadSettingsAsync`: the stored settings, or the hard-coded ones. -/
def LoadSettingsAsync (w : World) (stored : Option Settings) : World :=
  match stored with
  | some s => { w with Settings := s }
  | none => { w with Settings := fallbackSettings }

/-- The migration loop of `on_addon_load`, up to the call of `setTabPeriod`.
Each saved record comes with its `tabId`. -/
def migrateSaved (w : World) : List (Int × Snapshot) → World × List (String × ℚ)
  | [] => (w, [])
  | (tabId, obj) :: rest =>
    let newObj := migratePropObj (newTabProps w.Settings tabId) obj
    let w := setObj w newObj.alarmName newObj
    let r := migrateSaved w rest
    (r.1, (newObj.alarmName, newObj.period) :: r.2)

/-- The loop of `on_addon_load` over the tabs that are already open, up to the
call of `rememberGet`. -/
def adoptOpenTabs (w : World) (upgrading : Bool) : List Int → World
  | [] => w
  | t :: ts =>
    let w := (getTabProps w t).1
    let w :=
      if upgrading then w
      else modifyObj w (objKey t) fun obj => { obj with reqMethod := "GET", postConfirmed := true }
    adoptOpenTabs w upgrading ts

/-- Source `on_addon_load`. `upgrade` is the stored upgrade snapshot (version
and saved records), `storedUrlMemory` the stored `urlMemory` entries. The
migration loop assigns the records at once and leaves the `setTabPeriod` calls
pending. The stored `urlMemory` arrives after one call into the browser, the
`rememberSet` of a migrating `setTabPeriod` writes after two, so the stored
entries are in place before the pending calls write theirs. For every open tab
`executeScript` is taken to resolve, and is followed by `sendContentTabId`. -/
def on_addon_load (env : Env) (w : World) (storedSettings : Option Settings)
    (upgrade : Option (Nat × List (Int × Snapshot)))
    (storedUrlMemory : Option (List (String × Snapshot))) : World :=
  let w := LoadSettingsAsync w storedSettings
  let migrated : World × List (String × ℚ) × Bool :=
    match upgrade with
    | some (version, saved) =>
      if version ≤ CONFIG_VERSION then
        let r := migrateSaved w saved
        (r.1, r.2, true)
      else (w, [], false)
    | none => (w, [], false)
  let w := migrated.1
  let upgrading := migrated.2.2
  let w :=
    match storedUrlMemory with
    | some m => { w with urlMemory := m }
    | none => w
  let w := runSetTabPeriods env w migrated.2.1
  let w := adoptOpenTabs w upgrading env.allTabs
  let w := env.allTabs.foldl
    (fun w t => rememberGet env (sendContentTabId w t) (objKey t)) w
  refreshMenu env w

/-- The events the background script reacts to. -/
inductive Event where
  | beforeRequest (tabId : Int) (method : String) (requestBody : Option (Option FormData))
  | alarm (name : String)
  | updated (tabId : Int) (status : Option String) (pinned : Option Bool)
  | committed (frameId : Int) (tabId : Int) (transitionType : String) (url : String)
  | completed (frameId : Int) (tabId : Int)
  | removed (tabId : Int)
  | message (m : RuntimeMessage)
  | activated (tabId : Int)
  | focusChanged (windowId : Int)
  | requestError (tabId : Int)
  | requestComplete (tabId : Int) (statusCode : Int)
  | menu (item : MenuItem) (checked : Bool) (tabId : Int)

/-- Handle one event to completion. An alarm can only fire while it is armed,
and the timer service drops a one-shot alarm when it fires; a listener that
throws leaves the world as it was when the listener was entered. -/
def step (env : Env) (w : World) : Event → World
  | Event.beforeRequest tabId method body => onBeforeRequest env w tabId method body
  | Event.alarm name =>
    match mapGet w.timers name with
    | none => w
    | some _ =>
      let w := { w with timers := mapDelete w.timers name }
      match onAlarm env w name with
      | Except.ok w' => w'
      | Except.error _ => w
  | Event.updated tabId status pinned => onUpdated env w tabId status pinned
  | Event.committed frameId tabId transitionType url =>
    onCommitted env w frameId tabId transitionType url
  | Event.completed frameId tabId => onCompleted w frameId tabId
  | Event.removed tabId => onRemoved w tabId
  | Event.message m => onMessage env w m
  | Event.activated tabId => onActivated env w tabId
  | Event.focusChanged windowId => onFocusChanged env w windowId
  | Event.requestError tabId => webRequestError w tabId
  | Event.requestComplete tabId statusCode => webRequestComplete w tabId statusCode
  | Event.menu item checked tabId => menusOnClicked env w item checked tabId

/-- Handle a sequence of events, each with the browser as it is at that time. -/
def run (w : World) : List (Env × Event) → World
  | [] => w
  | (env, ev) :: rest => run (step env w ev) rest

/-! ## Auxiliary definitions for the statements -/

/-- The browser calls that the resend path of `reloadTab` makes before the
resend message: the history entry of the last visit is deleted when the search
finds one. -/
def historyCleanup (env : Env) (obj : TabProps) : List Effect :=
  match env.lastVisit obj.url with
  | some visitTime => [Effect.historyDeleteRange (visitTime - 1) (visitTime + 1)]
  | none => []

/-- A browser with every queried tab open at one URL, a silent history, the
clock at `now` and `Math.random()` returning `r`. -/
def plainEnv (url : String) (incognito : Bool) (now r : ℚ) : Env :=
  { tabs := fun _ => some { url := url, incognito := incognito }
    now := now
    random := fun _ => r
    normUrl := fun u => u
    lastVisit := fun _ => none
    allTabs := []
    activeTab := fun _ => none
    currentTab := 1
    session57Available := false }

/-- The world that holds exactly one record, stored under its alarm name. -/
def worldWith (obj : TabProps) : World :=
  setObj (initialWorld fallbackSettings) obj.alarmName obj

/-- The freeze duration in milliseconds that an event hands to `freezeReload`:
3000 for a page "activity" message and for a window focus change, 5000 for a
tab activation; `none` for the events that do not freeze. -/
def freezeDuration : Event → Option ℚ
  | Event.message (RuntimeMessage.activity _) => some 3000
  | Event.activated _ => some 5000
  | Event.focusChanged _ => some 3000
  | _ => none

/-- The `freezeUntil` of the record stored under `key`, if there is one. -/
def freezeUntilOf (w : World) (key : String) : Option ℚ :=
  (mapGet w.state key).map fun obj => obj.freezeUntil

/-- The tab that a freeze event freezes, if any: the tab named by the event, or
the active tab of the newly focused window. -/
def freezeTarget (env : Env) : Event → Option Int
  | Event.message (RuntimeMessage.activity tabId) => some tabId
  | Event.activated tabId => some tabId
  | Event.focusChanged windowId => env.activeTab windowId
  | _ => none

/-- The deadline that an event sets for tab `tabId`: the clock at the event plus
the event's freeze duration when the event freezes that tab, nothing otherwise. -/
def freezeDeadline (tabId : Int) (e : Env × Event) : Option ℚ :=
  if freezeTarget e.1 e.2 = some tabId then (freezeDuration e.2).map fun d => e.1.now + d
  else none

/-- The number that a list of decimal digits stands for. -/
def decodeDigits (l : List Char) : Nat :=
  l.foldl (fun acc c => 10 * acc + (c.toNat - 48)) 0

/-- The browser at start-up and during the trace below: tabs 1 and 2 are open
on a page that is not incognito, and the session API is absent. -/
def twoTabsEnv : Env :=
  { tabs := fun _ => some { url := "https://example.org/", incognito := false }
    now := 0
    random := fun _ => 0
    normUrl := fun u => u
    lastVisit := fun _ => none
    allTabs := [1, 2]
    activeTab := fun _ => none
    currentTab := 1
    session57Available := false }

/-- The world after the add-on was loaded with tab 1 open, nothing stored. -/
def loadedWorld : World :=
  on_addon_load { twoTabsEnv with allTabs := [1] } (initialWorld fallbackSettings) none none none

/-- The events before the click. Tab 1 is made sticky and given the period 300;
it then submits a form with POST (request, load start, commit, load end) and is
then sent the interval -1, which switches its timer off. Tab 2 is sent the
interval 5. -/
def beforeEnableAll : List (Env × Event) :=
  [(twoTabsEnv, Event.menu MenuItem.sticky true 1),
   (twoTabsEnv, Event.menu (MenuItem.period 300) false 1),
   (twoTabsEnv, Event.beforeRequest 1 "POST" (some (some [("q", ["1"])]))),
   (twoTabsEnv, Event.updated 1 (some "loading") none),
   (twoTabsEnv, Event.committed 0 1 "form_submit" "https://example.org/"),
   (twoTabsEnv, Event.updated 1 (some "complete") none),
   (twoTabsEnv, Event.completed 0 1),
   (twoTabsEnv, Event.message (RuntimeMessage.setTabInterval 1 (-1))),
   (twoTabsEnv, Event.message (RuntimeMessage.setTabInterval 2 5))]

/-- The trace that ends with a click on "enable all" in tab 1. -/
def enableAllTrace : List (Env × Event) :=
  beforeEnableAll ++ [(twoTabsEnv, Event.menu MenuItem.enableAll false 1)]

/-- The periods a record can hold: -1 (no reloading) or a number of seconds. -/
def periodOk (p : ℚ) : Prop := p = -1 ∨ 0 ≤ p

/-- The periods that can be requested: those a record can hold, and -2, which
asks for the custom-interval popup. -/
def requestOk (p : ℚ) : Prop := p = -1 ∨ p = -2 ∨ 0 ≤ p

/-- A stored record whose period, if it has one, is one a record can hold. -/
def snapshotOk (s : Snapshot) : Prop := ∀ p, s.period = some p → periodOk p

/-- Events as the browser and the pages of the add-on deliver them: a requested
period is -1, -2 or not negative, and the tabs that the tab query of
"enable all" lists are open. -/
def eventOk (e : Env × Event) : Prop :=
  match e.2 with
  | Event.message (RuntimeMessage.setTabInterval _ p) => requestOk p
  | Event.menu (MenuItem.period p) _ _ => requestOk p
  | Event.menu MenuItem.enableAll _ _ => ∀ t ∈ e.1.allTabs, e.1.tabs t ≠ none
  | _ => True

/-- The invariant of the scheduler, with the alarms named in `P` still waiting
for their `restartAlarm`. -/
structure Inv (P : List String) (w : World) : Prop where
  /-- Every record is stored under its alarm name, which is the key of its tab,
  and holds a period that is -1 or not negative. -/
  records : ∀ key obj, mapGet w.state key = some obj →
    obj.alarmName = key ∧ key = objKey obj.tabId ∧ periodOk obj.period
  /-- Every entry of `urlMemory` holds such a period, if any. -/
  memory : ∀ url s, mapGet w.urlMemory url = some s → snapshotOk s
  /-- Every armed alarm is that of a record, whose period is not negative unless
  the alarm is waiting for its restart. -/
  armed : ∀ name, mapGet w.timers name ≠ none →
    ∃ obj, mapGet w.state name = some obj ∧ (name ∉ P → 0 ≤ obj.period)

/-- The record that "enable all" writes for a tab: the clicked tab's record
migrated onto the tab's own, with the tab's own `postConfirmed` put back. -/
def enableAllRecord (other obj : TabProps) : TabProps :=
  { migratePropObj other (clone obj) with
    postConfirmed := (clone other).postConfirmed.getD
      (migratePropObj other (clone obj)).postConfirmed }

/-- A record for tab 9 as it looks after the user confirmed the resend of a POST
page, chose the period 300 and switched "Randomize" and "Remember" on. -/
def confirmedPostRecord : TabProps :=
  { newTabProps fallbackSettings 9 with
    remember := true, randomize := true, period := 300,
    reqMethod := "POST", postConfirmed := true, url := "https://example.org/" }

/-- A world with a default record for tab 1 and a `urlMemory` entry for
`https://example.org/` that was stored from `confirmedPostRecord`. -/
def recallWorld : World :=
  { worldWith (newTabProps fallbackSettings 1) with
    urlMemory := [("https://example.org/", clone confirmedPostRecord)] }

/-- The browser during the recall trace below: tabs 1 and 9 both show the page
`https://example.org/form`, not incognito; tab 9 is the active one; the history
has no visit of the page and the session API is absent. -/
def formEnv : Env :=
  { tabs := fun _ => some { url := "https://example.org/form", incognito := false }
    now := 0
    random := fun _ => 0
    normUrl := fun u => u
    lastVisit := fun _ => none
    allTabs := [9]
    activeTab := fun _ => none
    currentTab := 9
    session57Available := false }

/-- The world after the add-on was loaded with tab 9 open and nothing stored. -/
def formWorld : World :=
  on_addon_load formEnv (initialWorld fallbackSettings) none none none

/-- Tab 9, open when the add-on was loaded, is given the period 300 and made
sticky; it then submits a form with POST (request, load start, commit, load
end), and "Remember" is ticked in it. -/
def rememberPostTab : List (Env × Event) :=
  [(formEnv, Event.menu (MenuItem.period 300) false 9),
   (formEnv, Event.menu MenuItem.sticky true 9),
   (formEnv, Event.beforeRequest 9 "POST" (some (some [("card", ["4111"])]))),
   (formEnv, Event.updated 9 (some "loading") none),
   (formEnv, Event.committed 0 9 "form_submit" "https://example.org/form"),
   (formEnv, Event.updated 9 (some "complete") none),
   (formEnv, Event.completed 0 9),
   (formEnv, Event.menu MenuItem.remember true 9)]

/-- Tab 1 requests the same page with GET. -/
def getRequestInTabOne : List (Env × Event) :=
  [(formEnv, Event.beforeRequest 1 "GET" none),
   (formEnv, Event.updated 1 (some "loading") none)]

/-- The navigation of tab 1 commits, which recalls the remembered entry, and the
page finishes loading. -/
def commitInTabOne : List (Env × Event) :=
  [(formEnv, Event.committed 0 1 "link" "https://example.org/form"),
   (formEnv, Event.updated 1 (some "complete") none),
   (formEnv, Event.completed 0 1)]

/-- The popups in a list of browser calls. -/
def popupsIn (log : List Effect) : List Popup :=
  log.filterMap fun e =>
    match e with
    | Effect.windowsCreate p => some p
    | _ => none

/-! ## Records as property lists

The typed records above fix the set of properties. To speak about property
names (which names a record has, which are dropped), a record is also given as
the list of its own properties. No record is taken to have a property that
shadows `hasOwnProperty`. -/

/-- A value of a property of a record. -/
inductive JsValue where
  | undefined
  | null
  | bool (b : Bool)
  | number (x : ℚ)
  | string (s : String)
  /-- A form payload (the shape of `formData`). -/
  | form (d : FormData)
  /-- Any other JSON value, given by its JSON text. -/
  | json (text : String)
  deriving DecidableEq, Repr

/-- A record as the list of its own properties, in the order of `Object.keys`. -/
abbrev JsObject := List (String × JsValue)

/-- JavaScript `Object.keys(o)`. -/
def keys (o : JsObject) : List String :=
  o.map Prod.fst

/-- JavaScript `o.hasOwnProperty(k)`. -/
def hasOwnProperty (o : JsObject) (k : String) : Bool :=
  (mapGet o k).isSome

/-- The property read `o[k]`, which is `undefined` when `o` has no property `k`. -/
def propGet (o : JsObject) (k : String) : JsValue :=
  (mapGet o k).getD JsValue.undefined

/-- Source `clone`, that is `JSON.parse(JSON.stringify(obj))`, on a property
list: the properties whose value is `undefined` are left out, and every other
value here is a JSON value and comes back as it was. -/
def Fields.clone (obj : JsObject) : JsObject :=
  obj.filter fun kv => kv.2 ≠ JsValue.undefined

/-- Source `migratePropObj` on property lists. All writes go to `tmp` and to
`newObj`; the result is `newObj` and `oldObj` as they are after the call. -/
def Fields.migratePropObj (newObj oldObj : JsObject) : JsObject × JsObject :=
  let tmp := Fields.clone oldObj
  let tmp := mapSet tmp "tabId" (propGet newObj "tabId")
  let tmp := mapSet tmp "alarmName" (propGet newObj "alarmName")
  let newObj := (keys newObj).foldl
    (fun acc key => if hasOwnProperty tmp key then mapSet acc key (propGet tmp key) else acc)
    newObj
  (newObj, oldObj)

/-- A property that is present only when its value is. -/
def optProp (k : String) (v : Option JsValue) : JsObject :=
  match v with
  | some x => [(k, x)]
  | none => []

/-- The property list of a tab record, in the order of `newTabProps`; `formData`
comes last, once it has been assigned. -/
def TabProps.toObject (p : TabProps) : JsObject :=
  [("randomize", JsValue.bool p.randomize),
   ("loadError", JsValue.bool p.loadError),
   ("smart", JsValue.bool p.smart),
   ("onlyOnError", JsValue.bool p.onlyOnError),
   ("stickyReload", JsValue.bool p.stickyReload),
   ("nocache", JsValue.bool p.nocache),
   ("remember", JsValue.bool p.remember),
   ("period", JsValue.number p.period),
   ("alarmName", JsValue.string p.alarmName),
   ("keepRefreshing", JsValue.bool p.keepRefreshing),
   ("freezeUntil", JsValue.number p.freezeUntil),
   ("tabId", JsValue.number p.tabId),
   ("reqMethod", JsValue.string p.reqMethod),
   ("postConfirmed", JsValue.bool p.postConfirmed),
   ("scrollX", (p.scrollX.map JsValue.number).getD JsValue.undefined),
   ("scrollY", (p.scrollY.map JsValue.number).getD JsValue.undefined),
   ("url", JsValue.string p.url),
   ("reloadByAddon", JsValue.bool p.reloadByAddon)]
  ++ match p.formData with
     | FormField.absent => []
     | FormField.null => [("formData", JsValue.null)]
     | FormField.data d => [("formData", JsValue.form d)]

/-- The property list of a record in JSON form. -/
def Snapshot.toObject (s : Snapshot) : JsObject :=
  optProp "randomize" (s.randomize.map JsValue.bool)
  ++ optProp "loadError" (s.loadError.map JsValue.bool)
  ++ optProp "smart" (s.smart.map JsValue.bool)
  ++ optProp "onlyOnError" (s.onlyOnError.map JsValue.bool)
  ++ optProp "stickyReload" (s.stickyReload.map JsValue.bool)
  ++ optProp "nocache" (s.nocache.map JsValue.bool)
  ++ optProp "remember" (s.remember.map JsValue.bool)
  ++ optProp "period" (s.period.map JsValue.number)
  ++ optProp "alarmName" (s.alarmName.map JsValue.string)
  ++ optProp "keepRefreshing" (s.keepRefreshing.map JsValue.bool)
  ++ optProp "freezeUntil" (s.freezeUntil.map JsValue.number)
  ++ optProp "tabId" (s.tabId.map fun (t : Int) => JsValue.number (t : ℚ))
  ++ optProp "reqMethod" (s.reqMethod.map JsValue.string)
  ++ optProp "postConfirmed" (s.postConfirmed.map JsValue.bool)
  ++ optProp "scrollX" (s.scrollX.map JsValue.number)
  ++ optProp "scrollY" (s.scrollY.map JsValue.number)
  ++ optProp "url" (s.url.map JsValue.string)
  ++ optProp "reloadByAddon" (s.reloadByAddon.map JsValue.bool)
  ++ optProp "formData" (s.formData.map fun f =>
      match f with
      | none => JsValue.null
      | some d => JsValue.form d)

/-- A saved record of an earlier version: it lacks most of today's properties
and has one that is unknown today. -/
def legacyRecord : JsObject :=
  [("tabId", JsValue.number 5),
   ("alarmName", JsValue.string "tab-5-alarm"),
   ("period", JsValue.number 300),
   ("randomize", JsValue.bool true),
   ("legacyFlag", JsValue.bool true)]

/-! ## Facts about the maps -/

/-- Reading a key right after it was set gives the value set. -/
theorem mapGet_mapSet_self {α : Type} (m : List (String × α)) (k : String) (v : α) :
    mapGet (mapSet m k v) k = some v := by
  induction m with
  | nil => simp [mapSet, mapGet]
  | cons e m ih =>
    obtain ⟨k', v'⟩ := e
    by_cases h : k' = k <;> simp [mapSet, mapGet, h, ih]

/-- Setting a key does not change what is stored under another key. -/
theorem mapGet_mapSet_of_ne {α : Type} (m : List (String × α)) {k k' : String} (v : α)
    (h : k ≠ k') : mapGet (mapSet m k v) k' = mapGet m k' := by
  induction m with
  | nil => simp [mapSet, mapGet, h]
  | cons e m ih =>
    obtain ⟨k0, v0⟩ := e
    by_cases h0 : k0 = k
    · subst h0; simp [mapSet, mapGet, h]
    · by_cases h1 : k0 = k'
      · subst h1; simp [mapSet, mapGet, h0]
      · simp [mapSet, mapGet, h0, h1, ih]

/-- A deleted key is not in the map. -/
theorem mapGet_mapDelete_self {α : Type} (m : List (String × α)) (k : String) :
    mapGet (mapDelete m k) k = none := by
  induction m with
  | nil => simp [mapDelete, mapGet]
  | cons e m ih =>
    obtain ⟨k', v'⟩ := e
    by_cases h : k' = k <;> simp [mapDelete, mapGet, h, ih]

/-- Deleting a key does not change what is stored under another key. -/
theorem mapGet_mapDelete_of_ne {α : Type} (m : List (String × α)) {k k' : String}
    (h : k ≠ k') : mapGet (mapDelete m k) k' = mapGet m k' := by
  induction m with
  | nil => simp [mapDelete, mapGet]
  | cons e m ih =>
    obtain ⟨k0, v0⟩ := e
    by_cases h0 : k0 = k
    · subst h0; simp [mapDelete, mapGet, h, ih]
    · by_cases h1 : k0 = k'
      · subst h1; simp [mapDelete, mapGet, h0]
      · simp [mapDelete, mapGet, h0, h1, ih]

/-- Setting a key twice keeps the second value only. -/
theorem mapSet_mapSet_self {α : Type} (m : List (String × α)) (k : String) (v v' : α) :
    mapSet (mapSet m k v) k v' = mapSet m k v' := by
  induction m with
  | nil => simp [mapSet]
  | cons e m ih =>
    obtain ⟨k0, v0⟩ := e
    by_cases h0 : k0 = k <;> simp [mapSet, h0, ih]

/-! ## Keys of tabs -/

/-- The value of a digit character. -/
theorem digitChar_val (k : Nat) (hk : k < 10) : (Nat.digitChar k).toNat - 48 = k := by
  interval_cases k <;> rfl

/-- No digit character is the minus sign. -/
theorem digitChar_ne_minus (k : Nat) (hk : k < 10) : Nat.digitChar k ≠ '-' := by
  interval_cases k <;> decide

/-- The digits are put in front of the accumulator. -/
theorem toDigitsCore_append (fuel n : Nat) (ds : List Char) :
    Nat.toDigitsCore 10 fuel n ds = Nat.toDigitsCore 10 fuel n [] ++ ds := by
  induction fuel generalizing n ds with
  | zero => simp [Nat.toDigitsCore]
  | succ f ih =>
    simp only [Nat.toDigitsCore]
    split
    · simp
    · rw [ih (n / 10) (Nat.digitChar (n % 10) :: ds), ih (n / 10) [Nat.digitChar (n % 10)]]
      simp

/-- Decoding with one more digit at the end. -/
theorem decodeDigits_append_singleton (l : List Char) (c : Char) :
    decodeDigits (l ++ [c]) = 10 * decodeDigits l + (c.toNat - 48) := by
  simp [decodeDigits, List.foldl_append]

/-- Decoding the digits of a number gives the number back. -/
theorem decodeDigits_toDigitsCore (fuel n : Nat) (h : n < fuel) :
    decodeDigits (Nat.toDigitsCore 10 fuel n []) = n := by
  induction fuel generalizing n with
  | zero => omega
  | succ f ih =>
    simp only [Nat.toDigitsCore]
    split
    · rename_i h0
      have : n < 10 := by omega
      simp [decodeDigits, digitChar_val n this, Nat.mod_eq_of_lt this]
    · rename_i h0
      rw [toDigitsCore_append, decodeDigits_append_singleton, ih (n / 10) (by omega),
        digitChar_val _ (Nat.mod_lt _ (by norm_num))]
      omega

/-- The digits of a number start with a digit character. -/
theorem toDigitsCore_head (fuel n : Nat) (h : n < fuel) :
    ∃ k, k < 10 ∧ ∃ rest, Nat.toDigitsCore 10 fuel n [] = Nat.digitChar k :: rest := by
  induction fuel generalizing n with
  | zero => omega
  | succ f ih =>
    simp only [Nat.toDigitsCore]
    split
    · exact ⟨n % 10, Nat.mod_lt _ (by norm_num), [], rfl⟩
    · obtain ⟨k, hk, rest, hr⟩ := ih (n / 10) (by omega)
      rw [toDigitsCore_append, hr]
      exact ⟨k, hk, rest ++ [Nat.digitChar (n % 10)], rfl⟩

/-- Different natural numbers are written differently. -/
theorem nat_repr_injective (a b : Nat) (h : Nat.repr a = Nat.repr b) : a = b := by
  have h1 : Nat.toDigits 10 a = Nat.toDigits 10 b := congrArg String.data h
  have ha := decodeDigits_toDigitsCore (a + 1) a (by omega)
  have hb := decodeDigits_toDigitsCore (b + 1) b (by omega)
  unfold Nat.toDigits at h1
  rw [h1] at ha
  omega

/-- A natural number is written with a digit first. -/
theorem nat_repr_head (a : Nat) : ∃ k, k < 10 ∧ ∃ rest, (Nat.repr a).data = Nat.digitChar k :: rest := by
  obtain ⟨k, hk, rest, hr⟩ := toDigitsCore_head (a + 1) a (by omega)
  exact ⟨k, hk, rest, hr⟩

/-- Different integers are written differently. -/
theorem int_toString_injective (a b : Int) (h : toString a = toString b) : a = b := by
  cases a with
  | ofNat m =>
    cases b with
    | ofNat n =>
      have : Nat.repr m = Nat.repr n := h
      rw [nat_repr_injective m n this]
    | negSucc n =>
      exfalso
      have h' : Nat.repr m = "-" ++ Nat.repr n.succ := h
      obtain ⟨k, hk, rest, hr⟩ := nat_repr_head m
      rw [h'] at hr
      simp only [String.data_append] at hr
      have : '-' = Nat.digitChar k := by
        have := congrArg List.head? hr
        simpa using this
      exact digitChar_ne_minus k hk this.symm
  | negSucc m =>
    cases b with
    | ofNat n =>
      exfalso
      have h' : "-" ++ Nat.repr m.succ = Nat.repr n := h
      obtain ⟨k, hk, rest, hr⟩ := nat_repr_head n
      rw [← h'] at hr
      simp only [String.data_append] at hr
      have : '-' = Nat.digitChar k := by
        have := congrArg List.head? hr
        simpa using this
      exact digitChar_ne_minus k hk this.symm
    | negSucc n =>
      have h' : "-" ++ Nat.repr m.succ = "-" ++ Nat.repr n.succ := h
      have h2 : Nat.repr m.succ = Nat.repr n.succ := by
        have := congrArg String.data h'
        simp only [String.data_append, List.append_cancel_left_eq] at this
        exact String.ext this
      have := nat_repr_injective _ _ h2
      simp only [Nat.succ_eq_add_one, add_left_inj] at this
      rw [this]

/-- Different tabs have different keys. -/
theorem objKey_injective (a b : Int) (h : objKey a = objKey b) : a = b := by
  unfold objKey at h
  have := congrArg String.data h
  simp only [String.data_append, List.append_cancel_left_eq, List.append_cancel_right_eq] at this
  exact int_toString_injective a b (String.ext this)

/-! ## The POST-confirmation gate of `setTabPeriod` -/

/-- C1. For a record that exists (its tab is still open) with a request method
other than GET, `postConfirmed` false, `neverConfirmPost` off and a requested
period other than -1, `setTabPeriod` opens the POST-confirmation popup and does
nothing else: the records (so the period), the armed alarms and `urlMemory` are
as before, and the popup is the only browser call made. -/
theorem setTabPeriod_post_gate (env : Env) (w : World) (key : String) (obj : TabProps)
    (tab : Tab) (period : ℚ)
    (hobj : mapGet w.state key = some obj)
    (htab : env.tabs obj.tabId = some tab)
    (hmethod : obj.reqMethod ≠ "GET")
    (hconfirmed : obj.postConfirmed = false)
    (hnever : w.Settings.neverConfirmPost = false)
    (hperiod : period ≠ -1) :
    (setTabPeriod env w key period).state = w.state
      ∧ mapGet (setTabPeriod env w key period).state key = some obj
      ∧ (setTabPeriod env w key period).timers = w.timers
      ∧ (setTabPeriod env w key period).urlMemory = w.urlMemory
      ∧ (setTabPeriod env w key period).log
          = w.log ++ [Effect.windowsCreate (Popup.postConfirm obj.tabId period)] := by
  have h : setTabPeriod env w key period
      = emit w (Effect.windowsCreate (Popup.postConfirm obj.tabId period)) := by
    simp [setTabPeriod, hobj, htab, hmethod, hconfirmed, hnever, hperiod]
  rw [h]
  simp [emit, hobj]

/-- Witness of C1: a tab that was loaded with POST and asks for a period of 300. -/
theorem setTabPeriod_post_gate_witness :
    (setTabPeriod (plainEnv "https://example.org/form" false 0 0)
        (worldWith { newTabProps fallbackSettings 7 with reqMethod := "POST" })
        (objKey 7) 300).log
      = [Effect.windowsCreate (Popup.postConfirm 7 300)] := by
  have h := setTabPeriod_post_gate (plainEnv "https://example.org/form" false 0 0)
    (worldWith { newTabProps fallbackSettings 7 with reqMethod := "POST" })
    (objKey 7) { newTabProps fallbackSettings 7 with reqMethod := "POST" }
    { url := "https://example.org/form", incognito := false } 300
    (by simp [worldWith, setObj, initialWorld, mapSet, mapGet, newTabProps])
    (by simp [plainEnv])
    (by simp)
    (by simp [newTabProps])
    (by simp [worldWith, setObj, initialWorld, fallbackSettings])
    (by norm_num)
  simpa [worldWith, setObj, initialWorld, newTabProps] using h.2.2.2.2

/-! ## The two paths of `reloadTab` -/

/-- C2. `reloadTab` always sets `reloadByAddon`. When the request method is not
GET and (`postConfirmed` or `neverConfirmPost`), it sets `keepRefreshing` and
sends the "reload" message with the saved form data (after the history
clean-up) and issues no browser reload; in every other case it issues the
browser reload with `bypassCache = forceNocache || nocache`, sends no message
and leaves `keepRefreshing` as it was. -/
theorem reloadTab_paths (env : Env) (w : World) (key : String) (obj : TabProps)
    (forceNocache : Bool) (hobj : mapGet w.state key = some obj) :
    ((obj.reqMethod ≠ "GET" ∧ (obj.postConfirmed = true ∨ w.Settings.neverConfirmPost = true)) →
        mapGet (reloadTab env w key forceNocache).state key
            = some { obj with reloadByAddon := true, keepRefreshing := true }
          ∧ (reloadTab env w key forceNocache).log
            = w.log ++ historyCleanup env obj
                ++ [Effect.sendMessage obj.tabId (Message.reload obj.formData)])
      ∧ (¬ (obj.reqMethod ≠ "GET"
            ∧ (obj.postConfirmed = true ∨ w.Settings.neverConfirmPost = true)) →
        mapGet (reloadTab env w key forceNocache).state key
            = some { obj with reloadByAddon := true }
          ∧ (reloadTab env w key forceNocache).log
            = w.log ++ [Effect.tabsReload obj.tabId (forceNocache || obj.nocache)])
      ∧ (reloadTab env w key forceNocache).timers = w.timers
      ∧ (reloadTab env w key forceNocache).urlMemory = w.urlMemory := by
  by_cases hc : obj.reqMethod ≠ "GET"
      ∧ (obj.postConfirmed = true ∨ w.Settings.neverConfirmPost = true)
  · have hc' := hc
    obtain ⟨hm, hr⟩ := hc'
    refine ⟨fun _ => ?_, fun h => absurd hc h, ?_, ?_⟩
    · cases hv : env.lastVisit obj.url <;>
        simp [reloadTab, hobj, setObj, emit, hm, hr, hv, historyCleanup,
          mapGet_mapSet_self, mapSet_mapSet_self]
    · cases hv : env.lastVisit obj.url <;>
        simp [reloadTab, hobj, setObj, emit, hm, hr, hv]
    · cases hv : env.lastVisit obj.url <;>
        simp [reloadTab, hobj, setObj, emit, hm, hr, hv]
  · refine ⟨fun h => absurd h hc, fun _ => ?_, ?_, ?_⟩
    · have hc2 : ¬ (¬ obj.reqMethod = "GET"
          ∧ (obj.postConfirmed = true ∨ w.Settings.neverConfirmPost = true)) := hc
      simp only [reloadTab, hobj, setObj, emit]
      rw [if_neg hc2]
      simp [mapGet_mapSet_self]
    · have hc2 : ¬ (¬ obj.reqMethod = "GET"
          ∧ (obj.postConfirmed = true ∨ w.Settings.neverConfirmPost = true)) := hc
      simp only [reloadTab, hobj, setObj, emit]
      rw [if_neg hc2]
    · have hc2 : ¬ (¬ obj.reqMethod = "GET"
          ∧ (obj.postConfirmed = true ∨ w.Settings.neverConfirmPost = true)) := hc
      simp only [reloadTab, hobj, setObj, emit]
      rw [if_neg hc2]

/-- Witness of C2: a confirmed POST page is reloaded by the resend message. -/
theorem reloadTab_paths_witness :
    (reloadTab (plainEnv "https://example.org/form" false 0 0)
        (worldWith { newTabProps fallbackSettings 7 with
          reqMethod := "POST", postConfirmed := true })
        (objKey 7) false).log
      = [Effect.sendMessage 7 (Message.reload FormField.absent)] := by
  have h := (reloadTab_paths (plainEnv "https://example.org/form" false 0 0)
    (worldWith { newTabProps fallbackSettings 7 with
      reqMethod := "POST", postConfirmed := true })
    (objKey 7)
    { newTabProps fallbackSettings 7 with reqMethod := "POST", postConfirmed := true }
    false
    (by simp [worldWith, setObj, initialWorld, mapSet, mapGet, newTabProps])).1
    (by simp)
  simpa [worldWith, setObj, initialWorld, newTabProps, historyCleanup, plainEnv] using h.2

/-! ## The delay armed by `restartAlarm` -/

/-- The range of the randomized period: for `period ≥ 0` and `0 ≤ r < 1` the
drawn value is at least `0.5 * period` and below `1.5 * period + 1`. -/
theorem randomizedPeriod_range (period r : ℚ) (hp : 0 ≤ period) (h0 : 0 ≤ r) (h1 : r < 1) :
    0.5 * period ≤ randomizedPeriod period r ∧ randomizedPeriod period r < 1.5 * period + 1 := by
  unfold randomizedPeriod
  constructor
  · have : 0 ≤ r * (period + 1) := mul_nonneg h0 (by linarith)
    norm_num
    linarith
  · have : r * (period + 1) < 1 * (period + 1) :=
      mul_lt_mul_of_pos_right h1 (by linarith)
    norm_num
    linarith

/-- The alarm armed by `restartAlarm` for a record with a non-negative period
and "Randomize" on: the drawn period times `TIME_FACTOR`. -/
theorem restartAlarm_randomized_delay (env : Env) (w : World) (key : String) (obj : TabProps)
    (hobj : mapGet w.state key = some obj) (hperiod : 0 ≤ obj.period)
    (hrandomize : obj.randomize = true) :
    mapGet (restartAlarm env w key).timers obj.alarmName
      = some (randomizedPeriod obj.period (env.random w.draws) * TIME_FACTOR) := by
  have hneg : ¬ obj.period < 0 := not_lt.mpr hperiod
  simp only [restartAlarm, hobj]
  simp [hneg, hrandomize, alarmsClear, alarmsCreate, emit, mapGet_mapSet_self]

/-- The record that `worldWith` stores is found under its alarm name. -/
theorem mapGet_worldWith (obj : TabProps) :
    mapGet (worldWith obj).state obj.alarmName = some obj := by
  simp [worldWith, setObj, initialWorld, mapSet, mapGet]

/-- C3, evaluated on the code. For a record with `period = 2`, "Randomize" on
and `Math.random()` returning `0.75`, `restartAlarm` draws `3.25`, which is above
`1.5 * period = 3`, and arms the alarm with `3.25 * TIME_FACTOR`. -/
theorem restartAlarm_randomized_exceeds_max :
    (0 : ℚ) ≤ 3 / 4 ∧ (3 / 4 : ℚ) < 1
      ∧ randomizedPeriod 2 (3 / 4) = 13 / 4
      ∧ ¬ (randomizedPeriod 2 (3 / 4) ≤ 1.5 * 2)
      ∧ mapGet (restartAlarm (plainEnv "https://example.org/" false 0 (3 / 4))
            (worldWith { newTabProps fallbackSettings 1 with period := 2, randomize := true })
            (objKey 1)).timers (objKey 1)
          = some (13 / 4 * TIME_FACTOR) := by
  have hr : randomizedPeriod 2 (3 / 4) = 13 / 4 := by
    unfold randomizedPeriod; norm_num
  refine ⟨by norm_num, by norm_num, hr, ?_, ?_⟩
  · rw [hr]; norm_num
  · have h := restartAlarm_randomized_delay (plainEnv "https://example.org/" false 0 (3 / 4))
      (worldWith { newTabProps fallbackSettings 1 with period := 2, randomize := true })
      (objKey 1) { newTabProps fallbackSettings 1 with period := 2, randomize := true }
      (mapGet_worldWith _) (by norm_num) rfl
    rw [← hr]
    exact h

/-- The alarm armed by `restartAlarm` for a record with a non-negative period
and "Randomize" off. -/
theorem restartAlarm_timer_plain (env : Env) (w : World) (key : String) (obj : TabProps)
    (hobj : mapGet w.state key = some obj) (hperiod : 0 ≤ obj.period)
    (hrandomize : obj.randomize = false) :
    mapGet (restartAlarm env w key).timers obj.alarmName = some (obj.period / 60) := by
  have hneg : ¬ obj.period < 0 := not_lt.mpr hperiod
  have hdiv : obj.period * TIME_FACTOR = obj.period / 60 := by
    unfold TIME_FACTOR; ring
  simp only [restartAlarm, hobj]
  simp [hneg, hrandomize, alarmsClear, alarmsCreate, emit, mapGet_mapSet_self, hdiv]

/-- C4 as stated fails: with `period = 60` and "Randomize" off, the alarm is
armed with `delayInMinutes = 1`, not `60`. -/
theorem restartAlarm_delay_is_not_period :
    mapGet (restartAlarm (plainEnv "https://example.org/" false 0 0)
          (worldWith { newTabProps fallbackSettings 1 with period := 60 })
          (objKey 1)).timers (objKey 1) = some 1
      ∧ ¬ (mapGet (restartAlarm (plainEnv "https://example.org/" false 0 0)
          (worldWith { newTabProps fallbackSettings 1 with period := 60 })
          (objKey 1)).timers (objKey 1) = some 60) := by
  have h : mapGet (restartAlarm (plainEnv "https://example.org/" false 0 0)
          (worldWith { newTabProps fallbackSettings 1 with period := 60 })
          (objKey 1)).timers (objKey 1) = some 1 := by
    have h0 := restartAlarm_timer_plain (plainEnv "https://example.org/" false 0 0)
      (worldWith { newTabProps fallbackSettings 1 with period := 60 })
      (objKey 1) { newTabProps fallbackSettings 1 with period := 60 }
      (mapGet_worldWith _) (by norm_num) rfl
    have h1 : (60 : ℚ) / 60 = 1 := by norm_num
    rw [← h1]
    exact h0
  refine ⟨h, ?_⟩
  rw [h]
  norm_num

/-- C4, amended. For a record with `period ≥ 0` and "Randomize" off,
`restartAlarm` clears the alarm under the record's `alarmName`, then creates an
alarm under that name with `delayInMinutes = period * TIME_FACTOR`, that is
`period / 60`: the period counts seconds. The records are left as they are. -/
theorem restartAlarm_plain_delay (env : Env) (w : World) (key : String) (obj : TabProps)
    (hobj : mapGet w.state key = some obj) (hperiod : 0 ≤ obj.period)
    (hrandomize : obj.randomize = false) :
    (restartAlarm env w key).log
        = w.log ++ [Effect.alarmsClear obj.alarmName,
            Effect.alarmsCreate obj.alarmName (obj.period * TIME_FACTOR),
            Effect.sendMessage obj.tabId Message.timerEnabled]
      ∧ (restartAlarm env w key).timers
        = mapSet (mapDelete w.timers obj.alarmName) obj.alarmName (obj.period * TIME_FACTOR)
      ∧ mapGet (restartAlarm env w key).timers obj.alarmName = some (obj.period / 60)
      ∧ (restartAlarm env w key).state = w.state := by
  have hneg : ¬ obj.period < 0 := not_lt.mpr hperiod
  have hdiv : obj.period * TIME_FACTOR = obj.period / 60 := by
    unfold TIME_FACTOR; ring
  simp only [restartAlarm, hobj]
  simp [hneg, hrandomize, alarmsClear, alarmsCreate, emit, mapGet_mapSet_self, hdiv]

/-- Witness of the amended C4: a period of 300 arms a delay of 5 minutes. -/
theorem restartAlarm_plain_delay_witness :
    mapGet (restartAlarm (plainEnv "https://example.org/" false 0 0)
        (worldWith { newTabProps fallbackSettings 1 with period := 300 })
        (objKey 1)).timers (objKey 1) = some 5 := by
  have h := (restartAlarm_plain_delay (plainEnv "https://example.org/" false 0 0)
    (worldWith { newTabProps fallbackSettings 1 with period := 300 })
    (objKey 1) { newTabProps fallbackSettings 1 with period := 300 }
    (mapGet_worldWith _) (by norm_num) rfl).2.2.1
  have h5 : (300 : ℚ) / 60 = 5 := by norm_num
  rw [← h5]
  exact h

/-! ## The alarm listener -/

/-- The browser calls made by `reloadTab` are its history clean-up and resend
message, or one browser reload. -/
theorem reloadTab_log (env : Env) (w : World) (key : String) (obj : TabProps)
    (forceNocache : Bool) (hobj : mapGet w.state key = some obj) :
    (reloadTab env w key forceNocache).log
        = w.log ++ historyCleanup env obj
            ++ [Effect.sendMessage obj.tabId (Message.reload obj.formData)]
      ∨ (reloadTab env w key forceNocache).log
        = w.log ++ [Effect.tabsReload obj.tabId (forceNocache || obj.nocache)] := by
  by_cases hc : ¬ obj.reqMethod = "GET"
      ∧ (obj.postConfirmed = true ∨ w.Settings.neverConfirmPost = true)
  · left
    simp only [reloadTab, hobj, setObj, emit]
    rw [if_pos hc]
    cases hv : env.lastVisit obj.url <;> simp [historyCleanup, hv]
  · right
    simp only [reloadTab, hobj, setObj, emit]
    rw [if_neg hc]

/-- The armed alarms are not touched by `reloadTab`. -/
theorem reloadTab_timers (env : Env) (w : World) (key : String) (forceNocache : Bool) :
    (reloadTab env w key forceNocache).timers = w.timers := by
  cases hobj : mapGet w.state key with
  | none => simp [reloadTab, hobj]
  | some obj =>
    by_cases hc : ¬ obj.reqMethod = "GET"
        ∧ (obj.postConfirmed = true ∨ w.Settings.neverConfirmPost = true)
    · simp only [reloadTab, hobj, setObj, emit]
      rw [if_pos hc]
      cases hv : env.lastVisit obj.url <;> simp
    · simp only [reloadTab, hobj, setObj, emit]
      rw [if_neg hc]

/-- No alarm is created among the browser calls of `reloadTab`. -/
theorem reloadTab_creates_no_alarm (env : Env) (w : World) (key : String) (obj : TabProps)
    (forceNocache : Bool) (hobj : mapGet w.state key = some obj) (name : String) (delay : ℚ) :
    Effect.alarmsCreate name delay
      ∉ (reloadTab env w key forceNocache).log.drop w.log.length := by
  rcases reloadTab_log env w key obj forceNocache hobj with h | h
  · rw [h, List.append_assoc, List.drop_left]
    cases hv : env.lastVisit obj.url <;> simp [historyCleanup, hv]
  · rw [h, List.drop_left]
    simp

/-- C5. When an alarm fires for a record that exists and is not held back by
"Only if unsuccessful": with `smart` on and `freezeUntil > now` the listener
makes one browser call, the creation of an alarm under the record's `alarmName`
with a delay of `(freezeUntil - now) / 1000 * TIME_FACTOR` minutes (that is
`(freezeUntil - now) / 60000`), takes no random value and changes no record;
otherwise the listener is `reloadTab`, which arms and creates no alarm. -/
theorem onAlarm_smart_deferral (env : Env) (w : World) (name : String) (obj : TabProps)
    (hobj : mapGet w.state name = some obj)
    (hgate : obj.onlyOnError = false ∨ obj.loadError = true) :
    ((obj.smart = true ∧ obj.freezeUntil > env.now) →
        ∃ w', onAlarm env w name = Except.ok w'
          ∧ w'.log = w.log ++ [Effect.alarmsCreate obj.alarmName
              ((obj.freezeUntil - env.now) / 60000)]
          ∧ w'.timers = mapSet w.timers obj.alarmName ((obj.freezeUntil - env.now) / 60000)
          ∧ w'.state = w.state ∧ w'.draws = w.draws)
      ∧ (¬ (obj.smart = true ∧ obj.freezeUntil > env.now) →
        onAlarm env w name = Except.ok (reloadTab env w name false)
          ∧ (reloadTab env w name false).timers = w.timers
          ∧ ∀ (n : String) (d : ℚ),
              Effect.alarmsCreate n d ∉ (reloadTab env w name false).log.drop w.log.length) := by
  have hdelay : (obj.freezeUntil - env.now) / 1000 * TIME_FACTOR
      = (obj.freezeUntil - env.now) / 60000 := by
    unfold TIME_FACTOR; ring
  constructor
  · intro hs
    refine ⟨alarmsCreate w obj.alarmName ((obj.freezeUntil - env.now) / 60000), ?_, ?_, ?_, ?_, ?_⟩
    · simp only [onAlarm, hobj]
      rw [if_pos hgate, if_pos hs, hdelay]
    · simp [alarmsCreate]
    · simp [alarmsCreate]
    · simp [alarmsCreate]
    · simp [alarmsCreate]
  · intro hs
    refine ⟨?_, reloadTab_timers env w name false, ?_⟩
    · simp only [onAlarm, hobj]
      rw [if_pos hgate, if_neg hs]
    · intro n d
      exact reloadTab_creates_no_alarm env w name obj false hobj n d

/-- Witness of C5: a record frozen until 9000 whose alarm fires at 3000 gets a
new alarm 0.1 minutes ahead. -/
theorem onAlarm_smart_deferral_witness :
    ∃ w', onAlarm (plainEnv "https://example.org/" false 3000 0)
        (worldWith { newTabProps fallbackSettings 1 with
          period := 5, randomize := true, freezeUntil := 9000 })
        (objKey 1) = Except.ok w'
      ∧ w'.log = [Effect.alarmsCreate (objKey 1) (1 / 10)] := by
  obtain ⟨w', h1, h2, -⟩ := (onAlarm_smart_deferral
    (plainEnv "https://example.org/" false 3000 0)
    (worldWith { newTabProps fallbackSettings 1 with
      period := 5, randomize := true, freezeUntil := 9000 })
    (objKey 1)
    { newTabProps fallbackSettings 1 with period := 5, randomize := true, freezeUntil := 9000 }
    (mapGet_worldWith _) (Or.inl rfl)).1
    ⟨rfl, by simp [plainEnv]; norm_num⟩
  refine ⟨w', h1, ?_⟩
  rw [h2]
  have h : ((9000 : ℚ) - 3000) / 60000 = 1 / 10 := by norm_num
  simp [worldWith, setObj, initialWorld, newTabProps, plainEnv, h]

/-- The alarm listener throws when the map has no record under the alarm's name. -/
theorem onAlarm_missing_record (env : Env) (w : World) (name : String)
    (hobj : mapGet w.state name = none) :
    onAlarm env w name = Except.error JsError.typeError := by
  simp [onAlarm, hobj]

/-- C6, evaluated on the code. An alarm named `tab-7-alarm` that fires while the
map holds no record ends the listener with a `TypeError`. -/
theorem onAlarm_vanished_record_throws :
    mapGet (initialWorld fallbackSettings).state "tab-7-alarm" = none
      ∧ onAlarm (plainEnv "https://example.org/" false 0 0) (initialWorld fallbackSettings)
          "tab-7-alarm" = Except.error JsError.typeError := by
  have h : mapGet (initialWorld fallbackSettings).state "tab-7-alarm" = none := by
    simp [initialWorld, mapGet]
  exact ⟨h, onAlarm_missing_record _ _ _ h⟩

/-! ## Committed navigations -/

/-- The URL update keeps `tabId`. -/
@[simp]
theorem noteUrl_tabId (url : String) (o : TabProps) : (noteUrl url o).tabId = o.tabId := by
  unfold noteUrl; split <;> rfl

/-- The URL update keeps `period`. -/
@[simp]
theorem noteUrl_period (url : String) (o : TabProps) : (noteUrl url o).period = o.period := by
  unfold noteUrl; split <;> rfl

/-- The URL update keeps `remember`. -/
@[simp]
theorem noteUrl_remember (url : String) (o : TabProps) :
    (noteUrl url o).remember = o.remember := by
  unfold noteUrl; split <;> rfl

/-- The URL update keeps `alarmName`. -/
@[simp]
theorem noteUrl_alarmName (url : String) (o : TabProps) :
    (noteUrl url o).alarmName = o.alarmName := by
  unfold noteUrl; split <;> rfl

/-- For a tab with a record, `getTabProps` returns it and changes nothing. -/
theorem getTabProps_present (w : World) (tabId : Int) (obj : TabProps)
    (h : mapGet w.state (objKey tabId) = some obj) : getTabProps w tabId = (w, obj) := by
  simp [getTabProps, h]

/-- For a tab without a record, `getTabProps` stores a default record. -/
theorem getTabProps_absent (w : World) (tabId : Int)
    (h : mapGet w.state (objKey tabId) = none) :
    getTabProps w tabId
      = ({ w with state := mapSet w.state (objKey tabId) (newTabProps w.Settings tabId) },
          newTabProps w.Settings tabId) := by
  simp [getTabProps, h]

/-- After `getTabProps` the record it returns is the one stored for the tab. -/
theorem getTabProps_stored (w : World) (tabId : Int) :
    mapGet (getTabProps w tabId).1.state (objKey tabId) = some (getTabProps w tabId).2 := by
  cases h : mapGet w.state (objKey tabId) with
  | none => rw [getTabProps_absent w tabId h]; simp [mapGet_mapSet_self]
  | some obj => rw [getTabProps_present w tabId obj h]; simp [h]

/-- Only the `state` map can change in `getTabProps`. -/
theorem getTabProps_frame (w : World) (tabId : Int) :
    (getTabProps w tabId).1.timers = w.timers
      ∧ (getTabProps w tabId).1.log = w.log
      ∧ (getTabProps w tabId).1.urlMemory = w.urlMemory
      ∧ (getTabProps w tabId).1.Settings = w.Settings
      ∧ (getTabProps w tabId).1.draws = w.draws := by
  cases h : mapGet w.state (objKey tabId) with
  | none => rw [getTabProps_absent w tabId h]; simp
  | some obj => rw [getTabProps_present w tabId obj h]; simp

/-- Records other than the tab's own are not changed by `getTabProps`. -/
theorem getTabProps_other (w : World) (tabId : Int) (k : String) (h : objKey tabId ≠ k) :
    mapGet (getTabProps w tabId).1.state k = mapGet w.state k := by
  cases hg : mapGet w.state (objKey tabId) with
  | none => rw [getTabProps_absent w tabId hg]; simp [mapGet_mapSet_of_ne _ _ h]
  | some obj => rw [getTabProps_present w tabId obj hg]

/-- A record that exists is not changed by `getTabProps`. -/
theorem getTabProps_get_of_some (w : World) (tabId : Int) (k : String) (o : TabProps)
    (h : mapGet w.state k = some o) : mapGet (getTabProps w tabId).1.state k = some o := by
  by_cases hk : objKey tabId = k
  · subst hk
    rw [getTabProps_present w tabId o h]
    exact h
  · rw [getTabProps_other w tabId k hk]
    exact h

/-- Only the `state` map can change in `refreshMenu`. -/
theorem refreshMenu_frame (env : Env) (w : World) :
    (refreshMenu env w).timers = w.timers
      ∧ (refreshMenu env w).log = w.log
      ∧ (refreshMenu env w).urlMemory = w.urlMemory
      ∧ (refreshMenu env w).Settings = w.Settings
      ∧ (refreshMenu env w).draws = w.draws :=
  getTabProps_frame w env.currentTab

/-- A record that exists is not changed by `refreshMenu`. -/
theorem refreshMenu_get_of_some (env : Env) (w : World) (k : String) (o : TabProps)
    (h : mapGet w.state k = some o) : mapGet (refreshMenu env w).state k = some o :=
  getTabProps_get_of_some w env.currentTab k o h

/-- Nothing is recalled by `rememberGet` when the tab is gone or `urlMemory` has
no entry for the tab's URL. -/
theorem rememberGet_no_entry (env : Env) (w : World) (key : String) (obj : TabProps)
    (hobj : mapGet w.state key = some obj)
    (hmem : ∀ tab, env.tabs obj.tabId = some tab →
      mapGet w.urlMemory (env.normUrl tab.url) = none) :
    rememberGet env w key = w := by
  simp only [rememberGet, hobj]
  cases htab : env.tabs obj.tabId with
  | none => rfl
  | some tab => simp [hmem tab htab]

/-- The effect of `restartAlarm` on a record with a negative period. -/
theorem restartAlarm_negative (env : Env) (w : World) (key : String) (obj : TabProps)
    (hobj : mapGet w.state key = some obj) (hperiod : obj.period < 0) :
    restartAlarm env w key
      = emit (setObj (alarmsClear w obj.alarmName) key { obj with postConfirmed := false })
          (Effect.sendMessage obj.tabId Message.timerDisabled) := by
  simp only [restartAlarm, hobj]
  rw [if_pos hperiod]

/-- The effect of `applyTabProps` on a record with a negative period: the alarm
under its name is cleared first, `postConfirmed` is reset, and `urlMemory` is
not touched. -/
theorem applyTabProps_negative (env : Env) (w : World) (key : String) (obj : TabProps)
    (hobj : mapGet w.state key = some obj) (hperiod : obj.period < 0) :
    mapGet (applyTabProps env w key).state key = some { obj with postConfirmed := false }
      ∧ (applyTabProps env w key).timers = mapDelete w.timers obj.alarmName
      ∧ (applyTabProps env w key).urlMemory = w.urlMemory
      ∧ ∃ rest, (applyTabProps env w key).log
          = w.log ++ Effect.alarmsClear obj.alarmName :: rest := by
  obtain ⟨ht, hl, hu, -, -⟩ := refreshMenu_frame env w
  unfold applyTabProps
  simp only
  rw [restartAlarm_negative env _ key obj (refreshMenu_get_of_some env w key obj hobj) hperiod]
  cases env.session57Available
  · simp [emit, setObj, alarmsClear, mapGet_mapSet_self, ht, hl, hu]
  · simp [emit, setObj, alarmsClear, mapGet_mapSet_self, ht, hl, hu]

/-- The effect of `modifyObj` on a record that is present. -/
theorem modifyObj_present (w : World) (key : String) (obj : TabProps) (f : TabProps → TabProps)
    (hobj : mapGet w.state key = some obj) :
    modifyObj w key f = setObj w key (f obj) := by
  simp [modifyObj, hobj]

/-- C7. For a committed navigation of the top-level frame of a tab for whose URL
`urlMemory` has no entry, with `reloading` meaning that the transition type is
`auto_subframe` or `reload`: `remember` becomes false when not reloading and is
kept otherwise; when not reloading with `keepRefreshing` and `stickyReload` both
false, the period becomes -1 and the alarm under the record's `alarmName` is
cleared; in every other case the period, the armed alarms and the log of
browser calls are unchanged. -/
theorem onCommitted_classification (env : Env) (w : World) (tabId : Int)
    (transitionType url : String)
    (hmem : ∀ tab, env.tabs (getTabProps w tabId).2.tabId = some tab →
      mapGet w.urlMemory (env.normUrl tab.url) = none) :
    ∃ obj', mapGet (onCommitted env w 0 tabId transitionType url).state (objKey tabId) = some obj'
      ∧ ((transitionType = "auto_subframe" ∨ transitionType = "reload") →
          obj'.remember = (getTabProps w tabId).2.remember)
      ∧ (¬ (transitionType = "auto_subframe" ∨ transitionType = "reload") →
          obj'.remember = false)
      ∧ ((¬ (transitionType = "auto_subframe" ∨ transitionType = "reload")
            ∧ (getTabProps w tabId).2.keepRefreshing = false
            ∧ (getTabProps w tabId).2.stickyReload = false) →
          obj'.period = -1
            ∧ mapGet (onCommitted env w 0 tabId transitionType url).timers
                (getTabProps w tabId).2.alarmName = none
            ∧ Effect.alarmsClear (getTabProps w tabId).2.alarmName
                ∈ (onCommitted env w 0 tabId transitionType url).log.drop w.log.length)
      ∧ (¬ (¬ (transitionType = "auto_subframe" ∨ transitionType = "reload")
            ∧ (getTabProps w tabId).2.keepRefreshing = false
            ∧ (getTabProps w tabId).2.stickyReload = false) →
          obj'.period = (getTabProps w tabId).2.period
            ∧ (onCommitted env w 0 tabId transitionType url).timers = w.timers
            ∧ (onCommitted env w 0 tabId transitionType url).log = w.log) := by
  have hst := getTabProps_stored w tabId
  have hfr := getTabProps_frame w tabId
  rcases hp : getTabProps w tabId with ⟨w1, obj⟩
  rw [hp] at hst hfr hmem
  simp only at hst hfr hmem
  simp only [hp]
  obtain ⟨ht, hl, hu, hs, hd⟩ := hfr
  by_cases hr : transitionType = "auto_subframe" ∨ transitionType = "reload"
  · have hb : (!(transitionType != "auto_subframe" && transitionType != "reload")) = true := by
      rcases hr with h | h <;> simp [h]
    have hw : onCommitted env w 0 tabId transitionType url
        = setObj w1 (objKey tabId) (noteUrl url obj) := by
      simp only [onCommitted, hp, hb]
      simp only [Bool.not_true, Bool.false_and, if_true, Bool.false_eq_true, if_false]
      rw [modifyObj_present w1 _ obj _ hst]
      exact rememberGet_no_entry env _ _ (noteUrl url obj)
        (by simp [setObj, mapGet_mapSet_self])
        (by simpa [setObj, hu] using hmem)
    rw [hw]
    refine ⟨noteUrl url obj, by simp [setObj, mapGet_mapSet_self], fun _ => by simp,
      fun h => absurd hr h, fun h => absurd hr h.1, fun _ => ?_⟩
    simp [setObj, ht, hl]
  · have hb : (!(transitionType != "auto_subframe" && transitionType != "reload")) = false := by
      have h1 : transitionType ≠ "auto_subframe" := fun h => hr (Or.inl h)
      have h2 : transitionType ≠ "reload" := fun h => hr (Or.inr h)
      simp [h1, h2]
    have h2 : mapGet (setObj w1 (objKey tabId) { obj with remember := false }).state (objKey tabId)
        = some { obj with remember := false } := by
      simp [setObj, mapGet_mapSet_self]
    by_cases hc : obj.keepRefreshing = false ∧ obj.stickyReload = false
    · obtain ⟨hk, hsr⟩ := hc
      have h3 : mapGet (setObj (setObj w1 (objKey tabId) { obj with remember := false })
          (objKey tabId) { obj with remember := false, period := -1 }).state (objKey tabId)
          = some { obj with remember := false, period := -1 } := by
        simp [setObj, mapGet_mapSet_self]
      have h4 : mapGet (setObj (setObj (setObj w1 (objKey tabId) { obj with remember := false })
          (objKey tabId) { obj with remember := false, period := -1 })
          (objKey tabId) (noteUrl url { obj with remember := false, period := -1 })).state
          (objKey tabId)
          = some (noteUrl url { obj with remember := false, period := -1 }) := by
        simp [setObj, mapGet_mapSet_self]
      obtain ⟨a1, a2, a3, rest, a4⟩ := applyTabProps_negative env _ (objKey tabId) _ h4
        (by simp)
      have hw : onCommitted env w 0 tabId transitionType url
          = applyTabProps env
              (setObj (setObj (setObj w1 (objKey tabId) { obj with remember := false })
                (objKey tabId) { obj with remember := false, period := -1 })
                (objKey tabId) (noteUrl url { obj with remember := false, period := -1 }))
              (objKey tabId) := by
        have hcb : (!obj.keepRefreshing && !obj.stickyReload) = true := by simp [hk, hsr]
        simp only [onCommitted, hp, hb, Bool.not_false, Bool.true_and, hcb, if_true]
        rw [modifyObj_present w1 _ obj _ hst, modifyObj_present _ _ _ _ h2,
          modifyObj_present _ _ _ _ h3]
        exact rememberGet_no_entry env _ _
          { noteUrl url { obj with remember := false, period := -1 } with postConfirmed := false }
          a1
          (by rw [a3]; simpa [setObj, hu] using hmem)
      rw [hw]
      refine ⟨{ noteUrl url { obj with remember := false, period := -1 } with
          postConfirmed := false },
        a1, fun h => absurd h hr, fun _ => by simp,
        fun _ => ⟨by simp, ?_, ?_⟩, fun h => absurd ⟨hr, hk, hsr⟩ h⟩
      · rw [a2]
        simpa using mapGet_mapDelete_self _ obj.alarmName
      · rw [a4]
        simp [setObj, hl]
    · have hcb : (!obj.keepRefreshing && !obj.stickyReload) = false := by
        cases hk : obj.keepRefreshing <;> cases hsr : obj.stickyReload <;> simp_all
      have hw : onCommitted env w 0 tabId transitionType url
          = setObj (setObj w1 (objKey tabId) { obj with remember := false })
              (objKey tabId) (noteUrl url { obj with remember := false }) := by
        simp only [onCommitted, hp, hb, Bool.not_false, Bool.true_and, hcb, if_true,
          Bool.false_eq_true, if_false]
        rw [modifyObj_present w1 _ obj _ hst, modifyObj_present _ _ _ _ h2]
        exact rememberGet_no_entry env _ _ (noteUrl url { obj with remember := false })
          (by simp [setObj, mapGet_mapSet_self])
          (by simpa [setObj, hu] using hmem)
      rw [hw]
      refine ⟨noteUrl url { obj with remember := false }, by simp [setObj, mapGet_mapSet_self],
        fun h => absurd h hr, fun _ => by simp, fun h => absurd ⟨h.2.1, h.2.2⟩ hc, fun _ => ?_⟩
      simp [setObj, ht, hl]

/-- Witness of C7: following a link in a tab with a period of 300 and "Remember"
on, neither sticky nor in a reload, clears `remember` and sets the period to -1. -/
theorem onCommitted_classification_witness :
    ∃ obj', mapGet (onCommitted (plainEnv "https://example.org/next" false 0 0)
          (worldWith { newTabProps fallbackSettings 1 with period := 300, remember := true })
          0 1 "link" "https://example.org/next").state (objKey 1) = some obj'
      ∧ obj'.remember = false ∧ obj'.period = -1 := by
  have hget : getTabProps
      (worldWith { newTabProps fallbackSettings 1 with period := 300, remember := true }) 1
      = (worldWith { newTabProps fallbackSettings 1 with period := 300, remember := true },
          { newTabProps fallbackSettings 1 with period := 300, remember := true }) :=
    getTabProps_present _ 1 _ (mapGet_worldWith _)
  have hlink : ¬ ("link" = "auto_subframe" ∨ "link" = "reload") := by decide
  obtain ⟨obj', h1, -, h3, h4, -⟩ := onCommitted_classification
    (plainEnv "https://example.org/next" false 0 0)
    (worldWith { newTabProps fallbackSettings 1 with period := 300, remember := true })
    1 "link" "https://example.org/next"
    (by intro tab _; simp [worldWith, setObj, initialWorld, mapGet])
  refine ⟨obj', h1, h3 hlink, (h4 ⟨hlink, ?_, ?_⟩).1⟩
  · rw [hget]; rfl
  · rw [hget]; rfl

/-! ## Freezing -/

/-- The `freezeUntil` of the record that `getTabProps` returns: the stored one,
or 0 for a tab without a record. -/
theorem getTabProps_freezeUntil (w : World) (tabId : Int) :
    (getTabProps w tabId).2.freezeUntil
      = match mapGet w.state (objKey tabId) with
        | some o => o.freezeUntil
        | none => 0 := by
  cases h : mapGet w.state (objKey tabId) with
  | none => rw [getTabProps_absent w tabId h]; rfl
  | some obj => rw [getTabProps_present w tabId obj h]

/-- Fetching the record of some tab does not change the `freezeUntil` of any tab. -/
theorem getTabProps_keeps_freezeUntil (w : World) (t tabId : Int) :
    (getTabProps (getTabProps w t).1 tabId).2.freezeUntil = (getTabProps w tabId).2.freezeUntil := by
  rw [getTabProps_freezeUntil, getTabProps_freezeUntil]
  by_cases h : objKey t = objKey tabId
  · cases hg : mapGet w.state (objKey t) with
    | none =>
      rw [getTabProps_absent w t hg]
      simp only [h, mapGet_mapSet_self]
      rw [← h, hg]
      rfl
    | some obj => rw [getTabProps_present w t obj hg]
  · rw [getTabProps_other w t _ h]

/-- The menu refresh does not change the `freezeUntil` of any tab. -/
theorem refreshMenu_keeps_freezeUntil (env : Env) (w : World) (tabId : Int) :
    (getTabProps (refreshMenu env w) tabId).2.freezeUntil = (getTabProps w tabId).2.freezeUntil :=
  getTabProps_keeps_freezeUntil w env.currentTab tabId

/-- Source `freezeReload` sets the `freezeUntil` of the tab to the clock plus the
duration, and leaves the `freezeUntil` of every other tab. -/
theorem freezeReload_freezeUntil (env : Env) (w : World) (t : Int) (duration : ℚ)
    (tabId : Int) :
    (getTabProps (freezeReload env w t duration) tabId).2.freezeUntil
      = if t = tabId then env.now + duration else (getTabProps w tabId).2.freezeUntil := by
  unfold freezeReload
  rw [modifyObj_present _ _ _ _ (getTabProps_stored w t)]
  by_cases h : t = tabId
  · subst h
    rw [if_pos rfl, getTabProps_freezeUntil]
    simp [setObj, mapGet_mapSet_self]
  · have hk : objKey t ≠ objKey tabId := fun e => h (objKey_injective t tabId e)
    rw [if_neg h, getTabProps_freezeUntil]
    simp only [setObj]
    rw [mapGet_mapSet_of_ne _ _ hk, ← getTabProps_freezeUntil, getTabProps_keeps_freezeUntil]

/-- Source `freezeReload` makes no browser call and arms no alarm. -/
theorem freezeReload_frame (env : Env) (w : World) (t : Int) (duration : ℚ) :
    (freezeReload env w t duration).timers = w.timers
      ∧ (freezeReload env w t duration).log = w.log := by
  unfold freezeReload
  rw [modifyObj_present _ _ _ _ (getTabProps_stored w t)]
  exact ⟨(getTabProps_frame w t).1, (getTabProps_frame w t).2.1⟩

/-- What one freeze event does to the `freezeUntil` of a tab: it becomes the
deadline the event sets for the tab, or stays when the event sets none. No alarm
is armed or cleared and no browser call is made. -/
theorem step_freeze (env : Env) (w : World) (ev : Event) (tabId : Int)
    (hd : (freezeDuration ev).isSome = true) :
    (getTabProps (step env w ev) tabId).2.freezeUntil
        = (freezeDeadline tabId (env, ev)).getD (getTabProps w tabId).2.freezeUntil
      ∧ (step env w ev).timers = w.timers
      ∧ (step env w ev).log = w.log := by
  cases ev with
  | message m =>
    cases m with
    | activity t =>
      refine ⟨?_, freezeReload_frame env w t 3000⟩
      simp only [step, onMessage, freezeDeadline, freezeTarget, freezeDuration,
        Option.some.injEq, Option.map_some']
      rw [freezeReload_freezeUntil]
      split <;> rfl
    | setTabInterval t period => simp [freezeDuration] at hd
    | scroll t a b => simp [freezeDuration] at hd
    | other => simp [freezeDuration] at hd
  | activated t =>
    obtain ⟨h1, h2⟩ := freezeReload_frame env w t 5000
    obtain ⟨r1, r2, -⟩ := refreshMenu_frame env (freezeReload env w t 5000)
    refine ⟨?_, by simp only [step, onActivated]; rw [r1, h1],
      by simp only [step, onActivated]; rw [r2, h2]⟩
    simp only [step, onActivated, freezeDeadline, freezeTarget, freezeDuration,
      Option.some.injEq, Option.map_some']
    rw [refreshMenu_keeps_freezeUntil, freezeReload_freezeUntil]
    split <;> rfl
  | focusChanged windowId =>
    simp only [step, onFocusChanged, freezeDeadline, freezeTarget, freezeDuration,
      Option.map_some']
    cases hact : env.activeTab windowId with
    | none => simp
    | some t =>
      obtain ⟨h1, h2⟩ := freezeReload_frame env w t 3000
      obtain ⟨r1, r2, -⟩ := refreshMenu_frame env (freezeReload env w t 3000)
      refine ⟨?_, by rw [r1, h1], by rw [r2, h2]⟩
      simp only [Option.some.injEq]
      rw [refreshMenu_keeps_freezeUntil, freezeReload_freezeUntil]
      split <;> rfl
  | beforeRequest _ _ _ => simp [freezeDuration] at hd
  | alarm _ => simp [freezeDuration] at hd
  | updated _ _ _ => simp [freezeDuration] at hd
  | committed _ _ _ _ => simp [freezeDuration] at hd
  | completed _ _ => simp [freezeDuration] at hd
  | removed _ => simp [freezeDuration] at hd
  | requestError _ => simp [freezeDuration] at hd
  | requestComplete _ _ => simp [freezeDuration] at hd
  | menu _ _ _ => simp [freezeDuration] at hd

/-- C9 as stated fails: a tab activated at clock 1000 is frozen until 6000, and a
page activity message at clock 2000 lowers `freezeUntil` to 5000. No alarm call
is made in between. -/
theorem freezeUntil_lowered_by_activity :
    freezeUntilOf (run (initialWorld fallbackSettings)
        [(plainEnv "https://example.org/" false 1000 0, Event.activated 1)]) (objKey 1)
        = some 6000
      ∧ freezeUntilOf (run (initialWorld fallbackSettings)
        [(plainEnv "https://example.org/" false 1000 0, Event.activated 1),
         (plainEnv "https://example.org/" false 2000 0,
            Event.message (RuntimeMessage.activity 1))]) (objKey 1)
        = some 5000
      ∧ (run (initialWorld fallbackSettings)
        [(plainEnv "https://example.org/" false 1000 0, Event.activated 1),
         (plainEnv "https://example.org/" false 2000 0,
            Event.message (RuntimeMessage.activity 1))]).log = []
      ∧ ¬ ((6000 : ℚ) ≤ 5000) := by
  refine ⟨?_, ?_, ?_, by norm_num⟩
  · simp [run, step, onActivated, freezeReload, refreshMenu, getTabProps, modifyObj, setObj,
      mapGet_mapSet_self, initialWorld, mapGet, mapSet, plainEnv, freezeUntilOf]
    norm_num
  · simp [run, step, onActivated, onMessage, freezeReload, refreshMenu, getTabProps, modifyObj,
      setObj, mapGet_mapSet_self, initialWorld, mapGet, mapSet, plainEnv, freezeUntilOf]
    norm_num
  · simp only [run]
    rw [(step_freeze (plainEnv "https://example.org/" false 2000 0) _
        (Event.message (RuntimeMessage.activity 1)) 1 rfl).2.2,
      (step_freeze (plainEnv "https://example.org/" false 1000 0) _
        (Event.activated 1) 1 rfl).2.2]
    rfl

/-- C9, amended. Take any sequence of freeze events (page activity messages, tab
activations, window focus changes) and any tab. Each event that freezes the tab
sets the `freezeUntil` of its record to the clock at the event plus the event's
duration (3000 for page activity and for a focus change, 5000 for an
activation), whatever the value was, and every other event of the sequence
leaves it. So `freezeUntil` after each event is at least its value before the
event exactly when the deadlines set for the tab never decrease along the
sequence, starting from the value at the beginning. No alarm is armed or
cleared by the sequence. -/
theorem freezeUntil_follows_deadlines (evs : List (Env × Event)) (w : World) (tabId : Int)
    (hfreeze : ∀ e ∈ evs, (freezeDuration e.2).isSome = true) :
    (∀ (i : Nat) (hi : i < evs.length),
        (getTabProps (run w (evs.take (i + 1))) tabId).2.freezeUntil
          = (freezeDeadline tabId (evs.get ⟨i, hi⟩)).getD
              (getTabProps (run w (evs.take i)) tabId).2.freezeUntil)
      ∧ ((∀ i, i < evs.length →
            (getTabProps (run w (evs.take i)) tabId).2.freezeUntil
              ≤ (getTabProps (run w (evs.take (i + 1))) tabId).2.freezeUntil)
          ↔ List.Chain (fun a b => a ≤ b) (getTabProps w tabId).2.freezeUntil
              (evs.filterMap (freezeDeadline tabId)))
      ∧ (run w evs).timers = w.timers := by
  induction evs generalizing w with
  | nil =>
    refine ⟨fun i hi => absurd hi (by simp), ?_, rfl⟩
    simp
  | cons e rest ih =>
    obtain ⟨env, ev⟩ := e
    have hd : (freezeDuration ev).isSome = true := hfreeze (env, ev) (List.mem_cons_self _ _)
    obtain ⟨s1, s2, -⟩ := step_freeze env w ev tabId hd
    obtain ⟨ih1, ih2, ih3⟩ := ih (step env w ev)
      (fun e he => hfreeze e (List.mem_cons_of_mem _ he))
    refine ⟨?_, ?_, ?_⟩
    · intro i hi
      cases i with
      | zero => simpa [run] using s1
      | succ n =>
        have hn : n < rest.length := by simpa using hi
        simpa [run] using ih1 n hn
    · have hsplit : (∀ i, i < ((env, ev) :: rest).length →
            (getTabProps (run w (((env, ev) :: rest).take i)) tabId).2.freezeUntil
              ≤ (getTabProps (run w (((env, ev) :: rest).take (i + 1))) tabId).2.freezeUntil)
          ↔ ((getTabProps w tabId).2.freezeUntil
                ≤ (getTabProps (step env w ev) tabId).2.freezeUntil
              ∧ ∀ i, i < rest.length →
                (getTabProps (run (step env w ev) (rest.take i)) tabId).2.freezeUntil
                  ≤ (getTabProps (run (step env w ev) (rest.take (i + 1))) tabId).2.freezeUntil) := by
        constructor
        · intro h
          refine ⟨by simpa [run] using h 0 (by simp), fun i hi => ?_⟩
          simpa [run] using h (i + 1) (by simpa using hi)
        · rintro ⟨h0, h⟩ i hi
          cases i with
          | zero => simpa [run] using h0
          | succ n => simpa [run] using h n (by simpa using hi)
      rw [hsplit, ih2, s1]
      cases hdl : freezeDeadline tabId (env, ev) with
      | none => simp [List.filterMap_cons, hdl]
      | some d => simp [List.filterMap_cons, hdl]
    · simpa [run, s2] using ih3

/-- Witness of the amended C9: tab 1 is activated at clock 1000 and its page
reports activity at clock 5000; the deadlines 6000 and 8000 do not decrease, so
the activity does not lower `freezeUntil`. -/
theorem freezeUntil_follows_deadlines_witness :
    (getTabProps (run (initialWorld fallbackSettings)
        [(plainEnv "https://example.org/" false 1000 0, Event.activated 1)]) 1).2.freezeUntil
      ≤ (getTabProps (run (initialWorld fallbackSettings)
        [(plainEnv "https://example.org/" false 1000 0, Event.activated 1),
         (plainEnv "https://example.org/" false 5000 0,
            Event.message (RuntimeMessage.activity 1))]) 1).2.freezeUntil := by
  have h := (freezeUntil_follows_deadlines
    [(plainEnv "https://example.org/" false 1000 0, Event.activated 1),
     (plainEnv "https://example.org/" false 5000 0, Event.message (RuntimeMessage.activity 1))]
    (initialWorld fallbackSettings) 1
    (by
      intro e he
      simp only [List.mem_cons, List.mem_singleton, List.not_mem_nil, or_false] at he
      rcases he with h | h <;> subst h <;> rfl)).2.1.mpr
    (by
      simp only [List.filterMap_cons, List.filterMap_nil, freezeDeadline, freezeTarget,
        freezeDuration, plainEnv, if_true, Option.map_some']
      rw [getTabProps_absent _ _ (by simp [initialWorld, mapGet])]
      simp only [newTabProps]
      refine List.Chain.cons (by norm_num) (List.Chain.cons (by norm_num) List.Chain.nil))
    1 (by simp)
  simpa using h

/-! ## Remembering settings per URL -/

/-- The records after `restartAlarm`: unchanged, or with `postConfirmed` reset. -/
theorem restartAlarm_record (env : Env) (w : World) (key : String) (obj : TabProps)
    (hobj : mapGet w.state key = some obj) :
    mapGet (restartAlarm env w key).state key = some obj
      ∨ mapGet (restartAlarm env w key).state key = some { obj with postConfirmed := false } := by
  by_cases hp : obj.period < 0
  · right
    rw [restartAlarm_negative env w key obj hobj hp]
    simp [emit, setObj, alarmsClear, mapGet_mapSet_self]
  · left
    simp only [restartAlarm, hobj]
    rw [if_neg hp]
    cases obj.randomize <;> simp [emit, alarmsCreate, alarmsClear, hobj]

/-- The records after `applyTabProps` are those after `refreshMenu` and
`restartAlarm`. -/
theorem applyTabProps_state (env : Env) (w : World) (key : String) :
    (applyTabProps env w key).state = (restartAlarm env (refreshMenu env w) key).state := by
  unfold applyTabProps
  cases env.session57Available
  · simp
  · simp only [if_true]
    split <;> simp [emit]

/-- The record after `applyTabProps`: unchanged, or with `postConfirmed` reset. -/
theorem applyTabProps_record (env : Env) (w : World) (key : String) (obj : TabProps)
    (hobj : mapGet w.state key = some obj) :
    mapGet (applyTabProps env w key).state key = some obj
      ∨ mapGet (applyTabProps env w key).state key = some { obj with postConfirmed := false } := by
  rw [applyTabProps_state]
  exact restartAlarm_record env _ key obj (refreshMenu_get_of_some env w key obj hobj)

/-- The store made by `rememberSet` for a record with "Remember" on whose tab is
open and not incognito. -/
theorem rememberSet_store (env : Env) (w : World) (key : String) (obj : TabProps) (tab : Tab)
    (hobj : mapGet w.state key = some obj) (htab : env.tabs obj.tabId = some tab)
    (hinc : tab.incognito = false) (hrem : obj.remember = true) :
    (rememberSet env w key).state = w.state
      ∧ (rememberSet env w key).Settings = w.Settings
      ∧ (rememberSet env w key).urlMemory
          = mapSet w.urlMemory (env.normUrl tab.url) (clone obj) := by
  simp [rememberSet, hobj, htab, hinc, hrem, emit]

/-- The recall made by `rememberGet` when `urlMemory` has an entry for the URL of
the record's tab. -/
theorem rememberGet_entry (env : Env) (w : World) (key : String) (obj : TabProps) (tab : Tab)
    (saved : Snapshot) (hobj : mapGet w.state key = some obj)
    (htab : env.tabs obj.tabId = some tab)
    (hmem : mapGet w.urlMemory (env.normUrl tab.url) = some saved) :
    rememberGet env w key = applyTabProps env (setObj w key (migratePropObj obj saved)) key := by
  simp [rememberGet, hobj, htab, hmem]

/-- C10. Let a record with "Remember" on, whose tab is open and not incognito,
be stored by `rememberSet`, and let a record be freshly created for a tab that
has none. If the fresh tab's URL normalizes to the stored URL, `rememberGet`
makes every user setting of the fresh record (`randomize`, `smart`,
`onlyOnError`, `stickyReload`, `nocache`, `remember`, `period`) equal to the
stored record's, while `tabId` and `alarmName` stay the fresh record's own. If
it normalizes to another string, the store has not changed what `urlMemory`
holds for it, and when that is nothing `rememberGet` changes nothing: the fresh
record is still the default one. -/
theorem remember_round_trip (env : Env) (w : World) (key : String) (obj : TabProps)
    (tab : Tab) (tabId2 : Int) (tab2 : Tab)
    (hobj : mapGet w.state key = some obj)
    (htab : env.tabs obj.tabId = some tab)
    (hinc : tab.incognito = false)
    (hrem : obj.remember = true)
    (hfresh : mapGet w.state (objKey tabId2) = none)
    (htab2 : env.tabs tabId2 = some tab2) :
    (getTabProps (rememberSet env w key) tabId2).2 = newTabProps w.Settings tabId2
      ∧ (env.normUrl tab2.url = env.normUrl tab.url →
        ∃ fresh', mapGet (rememberGet env (getTabProps (rememberSet env w key) tabId2).1
              (objKey tabId2)).state (objKey tabId2) = some fresh'
          ∧ fresh'.randomize = obj.randomize
          ∧ fresh'.smart = obj.smart
          ∧ fresh'.onlyOnError = obj.onlyOnError
          ∧ fresh'.stickyReload = obj.stickyReload
          ∧ fresh'.nocache = obj.nocache
          ∧ fresh'.remember = obj.remember
          ∧ fresh'.period = obj.period
          ∧ fresh'.tabId = tabId2
          ∧ fresh'.alarmName = objKey tabId2)
      ∧ (env.normUrl tab2.url ≠ env.normUrl tab.url →
        mapGet (rememberSet env w key).urlMemory (env.normUrl tab2.url)
            = mapGet w.urlMemory (env.normUrl tab2.url)
          ∧ (mapGet w.urlMemory (env.normUrl tab2.url) = none →
            rememberGet env (getTabProps (rememberSet env w key) tabId2).1 (objKey tabId2)
                = (getTabProps (rememberSet env w key) tabId2).1
              ∧ mapGet (getTabProps (rememberSet env w key) tabId2).1.state (objKey tabId2)
                = some (newTabProps w.Settings tabId2))) := by
  obtain ⟨s1, s2, s3⟩ := rememberSet_store env w key obj tab hobj htab hinc hrem
  have hf1 : mapGet (rememberSet env w key).state (objKey tabId2) = none := by
    rw [s1]; exact hfresh
  have hst := getTabProps_stored (rememberSet env w key) tabId2
  have hfr := getTabProps_frame (rememberSet env w key) tabId2
  have h2 : (getTabProps (rememberSet env w key) tabId2).2 = newTabProps w.Settings tabId2 := by
    rw [getTabProps_absent _ _ hf1, s2]
  rw [h2] at hst
  have htab2' : env.tabs (newTabProps w.Settings tabId2).tabId = some tab2 := htab2
  refine ⟨h2, ?_, ?_⟩
  · intro hsame
    have hmem : mapGet (getTabProps (rememberSet env w key) tabId2).1.urlMemory
        (env.normUrl tab2.url) = some (clone obj) := by
      rw [hfr.2.2.1, s3, hsame]
      exact mapGet_mapSet_self _ _ _
    rw [rememberGet_entry env _ _ _ tab2 (clone obj) hst htab2' hmem]
    rcases applyTabProps_record env
        (setObj (getTabProps (rememberSet env w key) tabId2).1 (objKey tabId2)
          (migratePropObj (newTabProps w.Settings tabId2) (clone obj)))
        (objKey tabId2) (migratePropObj (newTabProps w.Settings tabId2) (clone obj))
        (by simp [setObj, mapGet_mapSet_self]) with h | h
    · exact ⟨_, h, by simp [migratePropObj, clone, newTabProps]⟩
    · exact ⟨_, h, by simp [migratePropObj, clone, newTabProps]⟩
  · intro hdiff
    have hlook : mapGet (rememberSet env w key).urlMemory (env.normUrl tab2.url)
        = mapGet w.urlMemory (env.normUrl tab2.url) := by
      rw [s3]
      exact mapGet_mapSet_of_ne _ _ (fun h => hdiff h.symm)
    refine ⟨hlook, fun hnone => ⟨?_, hst⟩⟩
    refine rememberGet_no_entry env _ _ _ hst ?_
    intro tab' htab'
    rw [htab2'] at htab'
    simp only [Option.some.injEq] at htab'
    subst htab'
    rw [hfr.2.2.1, hlook]
    exact hnone

/-- Two different tabs have different keys (instance used by the examples). -/
theorem objKey_one_ne_two : objKey 1 ≠ objKey 2 := by decide

/-- Witness of C10: the settings remembered for tab 1 are recalled by a fresh
record for tab 2 that shows the same page. -/
theorem remember_round_trip_witness :
    ∃ fresh', mapGet (rememberGet (plainEnv "https://example.org/" false 0 0)
          (getTabProps (rememberSet (plainEnv "https://example.org/" false 0 0)
            (worldWith { newTabProps fallbackSettings 1 with
              remember := true, randomize := true, period := 300 })
            (objKey 1)) 2).1 (objKey 2)).state (objKey 2) = some fresh'
      ∧ fresh'.randomize = true ∧ fresh'.remember = true ∧ fresh'.period = 300
      ∧ fresh'.tabId = 2 ∧ fresh'.alarmName = objKey 2 := by
  obtain ⟨fresh', h, hr, -, -, -, -, hm, hp, ht, ha⟩ :=
    (remember_round_trip (plainEnv "https://example.org/" false 0 0)
      (worldWith { newTabProps fallbackSettings 1 with
        remember := true, randomize := true, period := 300 })
      (objKey 1)
      { newTabProps fallbackSettings 1 with remember := true, randomize := true, period := 300 }
      { url := "https://example.org/", incognito := false } 2
      { url := "https://example.org/", incognito := false }
      (mapGet_worldWith _) rfl rfl rfl
      (by
        simp only [worldWith, setObj, initialWorld, mapSet, mapGet]
        exact if_neg objKey_one_ne_two)
      rfl).2.1 rfl
  exact ⟨fresh', h, hr, hm, hp, ht, ha⟩

/-! ## Negative periods and armed alarms -/

/-- Looking a key up after an assignment. -/
theorem mapGet_mapSet {α : Type} (m : List (String × α)) (k k' : String) (v : α) :
    mapGet (mapSet m k v) k' = if k = k' then some v else mapGet m k' := by
  by_cases h : k = k'
  · subst h; simp [mapGet_mapSet_self]
  · simp [h, mapGet_mapSet_of_ne _ _ h]

/-- Looking a key up after a deletion. -/
theorem mapGet_mapDelete {α : Type} (m : List (String × α)) (k k' : String) :
    mapGet (mapDelete m k) k' = if k = k' then none else mapGet m k' := by
  by_cases h : k = k'
  · subst h; simp [mapGet_mapDelete_self]
  · simp [h, mapGet_mapDelete_of_ne _ h]

/-- The invariant speaks of the records, `urlMemory` and the armed alarms only. -/
theorem inv_of_eq {P : List String} {w w' : World} (h : Inv P w) (hs : w'.state = w.state)
    (hu : w'.urlMemory = w.urlMemory) (ht : w'.timers = w.timers) : Inv P w' :=
  ⟨by rw [hs]; exact h.records, by rw [hu]; exact h.memory, by rw [hs, ht]; exact h.armed⟩

/-- More alarms may be taken as waiting for their restart. -/
theorem inv_weaken {P Q : List String} {w : World} (h : Inv P w) (hsub : ∀ x, x ∈ P → x ∈ Q) :
    Inv Q w :=
  ⟨h.records, h.memory, fun name hne => by
    obtain ⟨obj, ho, hp⟩ := h.armed name hne
    exact ⟨obj, ho, fun hq => hp (fun hx => hq (hsub _ hx))⟩⟩

/-- Writing a record back keeps the invariant when its alarm name and tab id are
the old ones, its period is one a record can hold, and either its alarm is
waiting for a restart or a period that was not negative stays so. -/
theorem inv_setObj {P : List String} {w : World} (h : Inv P w) (key : String)
    (obj obj' : TabProps) (hobj : mapGet w.state key = some obj)
    (ha : obj'.alarmName = obj.alarmName) (ht : obj'.tabId = obj.tabId)
    (hp : periodOk obj'.period) (hk : key ∈ P ∨ (0 ≤ obj.period → 0 ≤ obj'.period)) :
    Inv P (setObj w key obj') := by
  obtain ⟨r1, r2, r3⟩ := h.records key obj hobj
  refine ⟨?_, h.memory, ?_⟩
  · intro key' o ho
    simp only [setObj, mapGet_mapSet] at ho
    split at ho
    · rename_i hkk
      subst hkk
      simp only [Option.some.injEq] at ho
      subst ho
      exact ⟨ha.trans r1, by rw [ht]; exact r2, hp⟩
    · exact h.records key' o ho
  · intro name hne
    obtain ⟨o, ho, hper⟩ := h.armed name hne
    by_cases hkk : key = name
    · subst hkk
      refine ⟨obj', by simp [setObj, mapGet_mapSet], fun hn => ?_⟩
      rcases hk with hk | hk
      · exact absurd hk hn
      · rw [hobj] at ho
        simp only [Option.some.injEq] at ho
        subst ho
        exact hk (hper hn)
    · exact ⟨o, by simp [setObj, mapGet_mapSet, hkk, ho], hper⟩

/-- The same for an assignment made through `modifyObj`. -/
theorem inv_modifyObj {P : List String} {w : World} (h : Inv P w) (key : String)
    (f : TabProps → TabProps)
    (hf : ∀ obj, (f obj).alarmName = obj.alarmName ∧ (f obj).tabId = obj.tabId
      ∧ (periodOk obj.period → periodOk (f obj).period))
    (hk : key ∈ P ∨ ∀ obj, 0 ≤ obj.period → 0 ≤ (f obj).period) :
    Inv P (modifyObj w key f) := by
  unfold modifyObj
  cases hobj : mapGet w.state key with
  | none => exact h
  | some obj =>
    exact inv_setObj h key obj (f obj) hobj (hf obj).1 (hf obj).2.1
      ((hf obj).2.2 (h.records key obj hobj).2.2) (hk.imp id (fun hh => hh obj))

/-- An assignment that keeps the period, the alarm name and the tab id keeps
the invariant. -/
theorem inv_modifyObj_same {P : List String} {w : World} (h : Inv P w) (key : String)
    (f : TabProps → TabProps)
    (hf : ∀ obj, (f obj).alarmName = obj.alarmName ∧ (f obj).tabId = obj.tabId
      ∧ (f obj).period = obj.period) :
    Inv P (modifyObj w key f) :=
  inv_modifyObj h key f
    (fun obj => ⟨(hf obj).1, (hf obj).2.1, fun hp => by rw [(hf obj).2.2]; exact hp⟩)
    (Or.inr fun obj hp => by rw [(hf obj).2.2]; exact hp)

/-- Fetching a record keeps the invariant: a record that is created has period -1
and no alarm is armed under its key. -/
theorem inv_getTabProps {P : List String} {w : World} (h : Inv P w) (t : Int) :
    Inv P (getTabProps w t).1 := by
  cases hobj : mapGet w.state (objKey t) with
  | some obj => rw [getTabProps_present w t obj hobj]; exact h
  | none =>
    rw [getTabProps_absent w t hobj]
    refine ⟨?_, h.memory, ?_⟩
    · intro key o ho
      simp only [mapGet_mapSet] at ho
      split at ho
      · rename_i hkk
        subst hkk
        simp only [Option.some.injEq] at ho
        subst ho
        exact ⟨rfl, rfl, Or.inl rfl⟩
      · exact h.records key o ho
    · intro name hne
      obtain ⟨o, ho, hper⟩ := h.armed name hne
      have hkk : objKey t ≠ name := fun e => by rw [e, ho] at hobj; exact absurd hobj (by simp)
      exact ⟨o, by simp [mapGet_mapSet, hkk, ho], hper⟩

/-- The menu refresh keeps the invariant. -/
theorem inv_refreshMenu {P : List String} {w : World} (h : Inv P w) (env : Env) :
    Inv P (refreshMenu env w) :=
  inv_getTabProps h env.currentTab

/-- Logging a browser call keeps the invariant. -/
theorem inv_emit {P : List String} {w : World} (h : Inv P w) (e : Effect) : Inv P (emit w e) :=
  inv_of_eq h rfl rfl rfl

/-- Clearing an alarm keeps the invariant. -/
theorem inv_alarmsClear {P : List String} {w : World} (h : Inv P w) (name : String) :
    Inv P (alarmsClear w name) := by
  refine ⟨h.records, h.memory, ?_⟩
  intro n hne
  simp only [alarmsClear, mapGet_mapDelete] at hne
  split at hne
  · exact absurd rfl hne
  · exact h.armed n hne

/-- The effect of `restartAlarm` on a record whose period is not negative: the
records and `urlMemory` stay, and the alarm of the record is armed. -/
theorem restartAlarm_nonneg (env : Env) (w : World) (key : String) (obj : TabProps)
    (hobj : mapGet w.state key = some obj) (hperiod : 0 ≤ obj.period) :
    (restartAlarm env w key).state = w.state
      ∧ (restartAlarm env w key).urlMemory = w.urlMemory
      ∧ ∃ d, (restartAlarm env w key).timers
          = mapSet (mapDelete w.timers obj.alarmName) obj.alarmName d := by
  have hp : ¬ obj.period < 0 := not_lt.mpr hperiod
  simp only [restartAlarm, hobj]
  rw [if_neg hp]
  cases obj.randomize
  · exact ⟨rfl, rfl, _, rfl⟩
  · exact ⟨rfl, rfl, _, rfl⟩

/-- A name is not in a list with one more, different name in front. -/
theorem not_mem_cons_of {P : List String} {key name : String} (hkk : key ≠ name)
    (hn : name ∉ P) : name ∉ key :: P := by
  intro hmem
  rcases List.mem_cons.mp hmem with e | e
  · exact hkk e.symm
  · exact hn e

/-- Source `restartAlarm` settles the alarm of its record: afterwards the alarm is
armed only if the period is not negative. -/
theorem inv_restartAlarm {P : List String} {w : World} (env : Env) (key : String)
    (h : Inv (key :: P) w) : Inv P (restartAlarm env w key) := by
  cases hobj : mapGet w.state key with
  | none =>
    have : restartAlarm env w key = w := by simp [restartAlarm, hobj]
    rw [this]
    refine ⟨h.records, h.memory, ?_⟩
    intro name hne
    obtain ⟨o, ho, hper⟩ := h.armed name hne
    refine ⟨o, ho, fun hn => hper (not_mem_cons_of ?_ hn)⟩
    intro e
    rw [← e, hobj] at ho
    exact absurd ho (by simp)
  | some obj =>
    obtain ⟨r1, r2, r3⟩ := h.records key obj hobj
    by_cases hneg : obj.period < 0
    · rw [restartAlarm_negative env w key obj hobj hneg]
      refine ⟨?_, h.memory, ?_⟩
      · intro key' o ho
        simp only [emit, setObj, alarmsClear, mapGet_mapSet] at ho
        split at ho
        · rename_i hkk
          subst hkk
          simp only [Option.some.injEq] at ho
          subst ho
          exact ⟨r1, r2, r3⟩
        · exact h.records key' o ho
      · intro name hne
        simp only [emit, setObj, alarmsClear, mapGet_mapDelete, r1] at hne
        split at hne
        · exact absurd rfl hne
        · rename_i hkk
          obtain ⟨o, ho, hper⟩ := h.armed name hne
          exact ⟨o, by simp [emit, setObj, alarmsClear, mapGet_mapSet, hkk, ho],
            fun hn => hper (not_mem_cons_of hkk hn)⟩
    · have hnn : 0 ≤ obj.period := not_lt.mp hneg
      obtain ⟨hs, hu, d, ht⟩ := restartAlarm_nonneg env w key obj hobj hnn
      refine ⟨by rw [hs]; exact h.records, by rw [hu]; exact h.memory, ?_⟩
      intro name hne
      rw [hs]
      by_cases hkk : key = name
      · subst hkk
        exact ⟨obj, hobj, fun _ => hnn⟩
      · rw [ht, r1, mapGet_mapSet, if_neg hkk, mapGet_mapDelete, if_neg hkk] at hne
        obtain ⟨o, ho, hper⟩ := h.armed name hne
        exact ⟨o, ho, fun hn => hper (not_mem_cons_of hkk hn)⟩

/-- One more alarm may be taken as waiting for its restart. -/
theorem inv_cons {P : List String} {w : World} (h : Inv P w) (key : String) :
    Inv (key :: P) w :=
  inv_weaken h (fun _ hx => List.mem_cons_of_mem _ hx)

/-- Source `restartAlarm` keeps the invariant. -/
theorem inv_restartAlarm_keep {P : List String} {w : World} (env : Env) (key : String)
    (h : Inv P w) : Inv P (restartAlarm env w key) :=
  inv_restartAlarm env key (inv_cons h key)

/-- Source `applyTabProps` settles the alarm of its record. -/
theorem inv_applyTabProps {P : List String} {w : World} (env : Env) (key : String)
    (h : Inv (key :: P) w) : Inv P (applyTabProps env w key) := by
  have h1 : Inv P (restartAlarm env (refreshMenu env w) key) :=
    inv_restartAlarm env key (inv_refreshMenu h env)
  unfold applyTabProps
  simp only
  split
  · split
    · exact h1
    · exact inv_emit h1 _
  · exact h1

/-- Source `rememberSet` keeps the invariant: the entry it writes holds the period
of the record. -/
theorem inv_rememberSet {P : List String} {w : World} (env : Env) (key : String)
    (h : Inv P w) : Inv P (rememberSet env w key) := by
  unfold rememberSet
  split
  · exact h
  · rename_i obj hobj
    split
    · exact h
    · rename_i tab htab
      split
      · exact h
      · simp only
        refine inv_emit ?_ _
        split
        · refine ⟨h.records, ?_, h.armed⟩
          intro url s hs
          simp only [mapGet_mapSet] at hs
          split at hs
          · simp only [Option.some.injEq] at hs
            subst hs
            intro p hp
            simp only [clone, Option.some.injEq] at hp
            subst hp
            exact (h.records key obj hobj).2.2
          · exact h.memory url s hs
        · refine ⟨h.records, ?_, h.armed⟩
          intro url s hs
          simp only [mapGet_mapDelete] at hs
          split at hs
          · exact absurd hs (by simp)
          · exact h.memory url s hs

/-- Source `migratePropObj` keeps the alarm name and the tab id of the new record,
and takes the period of the old record when it has one. -/
theorem migratePropObj_keeps (obj : TabProps) (saved : Snapshot) :
    (migratePropObj obj saved).alarmName = obj.alarmName
      ∧ (migratePropObj obj saved).tabId = obj.tabId
      ∧ (migratePropObj obj saved).period = saved.period.getD obj.period := by
  simp [migratePropObj]

/-- Source `rememberGet` keeps the invariant: the recalled period is followed by
`applyTabProps`. -/
theorem inv_rememberGet {P : List String} {w : World} (env : Env) (key : String)
    (h : Inv P w) : Inv P (rememberGet env w key) := by
  cases hobj : mapGet w.state key with
  | none => simpa [rememberGet, hobj] using h
  | some obj =>
    cases htab : env.tabs obj.tabId with
    | none => simpa [rememberGet, hobj, htab] using h
    | some tab =>
      cases hsaved : mapGet w.urlMemory (env.normUrl tab.url) with
      | none => simpa [rememberGet, hobj, htab, hsaved] using h
      | some saved =>
        rw [rememberGet_entry env w key obj tab saved hobj htab hsaved]
        obtain ⟨m1, m2, m3⟩ := migratePropObj_keeps obj saved
        refine inv_applyTabProps env key ?_
        refine inv_setObj (inv_cons h key) key obj _ hobj m1 m2 ?_
          (Or.inl (List.mem_cons_self _ _))
        rw [m3]
        cases hp : saved.period with
        | none => exact (h.records key obj hobj).2.2
        | some p => exact h.memory _ saved hsaved p hp

/-- Source `setTabPeriod` keeps the invariant for every period that can be
requested. -/
theorem inv_setTabPeriod {P : List String} {w : World} (env : Env) (key : String) (p : ℚ)
    (hp : requestOk p) (h : Inv P w) : Inv P (setTabPeriod env w key p) := by
  unfold setTabPeriod
  split
  · exact h
  · rename_i obj hobj
    split
    · exact h
    · split
      · exact inv_emit h _
      · split
        · exact inv_emit h _
        · rename_i hne2
          have hpo : periodOk p := by
            rcases hp with hp | hp | hp
            · exact Or.inl hp
            · exact absurd hp hne2
            · exact Or.inr hp
          refine inv_rememberSet env key (inv_applyTabProps env key ?_)
          exact inv_setObj (inv_cons h key) key obj _ hobj rfl rfl hpo
            (Or.inl (List.mem_cons_self _ _))

/-- A pending `setTabPeriod` that switches the timer off settles the alarm of its record. -/
theorem inv_setTabPeriod_off {P : List String} {w : World} (env : Env) (key : String)
    (h : Inv (key :: P) w)
    (htab : ∀ obj, mapGet w.state key = some obj → env.tabs obj.tabId ≠ none) :
    Inv P (setTabPeriod env w key (-1)) := by
  unfold setTabPeriod
  cases hobj : mapGet w.state key with
  | none =>
    have := inv_restartAlarm env key h
    simpa [restartAlarm, hobj] using this
  | some obj =>
    simp only
    cases ht : env.tabs obj.tabId with
    | none => exact absurd ht (htab obj hobj)
    | some tab =>
      simp only
      rw [if_neg (by simp), if_neg (by norm_num)]
      refine inv_rememberSet env key (inv_applyTabProps env key ?_)
      exact inv_setObj h key obj _ hobj rfl rfl (Or.inl rfl) (Or.inl (List.mem_cons_self _ _))

/-- Source `reloadTab` keeps the invariant. -/
theorem inv_reloadTab {P : List String} {w : World} (env : Env) (key : String) (f : Bool)
    (h : Inv P w) : Inv P (reloadTab env w key f) := by
  unfold reloadTab
  split
  · exact h
  · rename_i obj hobj
    have h1 : Inv P (setObj w key { obj with reloadByAddon := true }) :=
      inv_setObj h key obj _ hobj rfl rfl (h.records key obj hobj).2.2 (Or.inr id)
    simp only
    split
    · refine inv_emit ?_ _
      have h2 : Inv P (match env.lastVisit obj.url with
          | some visitTime => emit (setObj w key { obj with reloadByAddon := true })
              (Effect.historyDeleteRange (visitTime - 1) (visitTime + 1))
          | none => setObj w key { obj with reloadByAddon := true }) := by
        split
        · exact inv_emit h1 _
        · exact h1
      have hget : mapGet (match env.lastVisit obj.url with
          | some visitTime => emit (setObj w key { obj with reloadByAddon := true })
              (Effect.historyDeleteRange (visitTime - 1) (visitTime + 1))
          | none => setObj w key { obj with reloadByAddon := true }).state key
          = some { obj with reloadByAddon := true } := by
        split <;> simp [emit, setObj, mapGet_mapSet]
      exact inv_setObj h2 key _ _ hget rfl rfl (h.records key obj hobj).2.2 (Or.inr id)
    · exact inv_emit h1 _

/-- Source `freezeReload` keeps the invariant. -/
theorem inv_freezeReload {P : List String} {w : World} (env : Env) (t : Int) (d : ℚ)
    (h : Inv P w) : Inv P (freezeReload env w t d) :=
  inv_modifyObj_same (inv_getTabProps h t) _ _ (fun _ => ⟨rfl, rfl, rfl⟩)

/-- The `onBeforeRequest` listener keeps the invariant. -/
theorem inv_onBeforeRequest {w : World} (env : Env) (tabId : Int) (method : String)
    (body : Option (Option FormData)) (h : Inv [] w) :
    Inv [] (onBeforeRequest env w tabId method body) := by
  have h2 : Inv [] (modifyObj (getTabProps w tabId).1 (objKey tabId)
      fun obj => { obj with reqMethod := method }) :=
    inv_modifyObj_same (inv_getTabProps h tabId) _ _ (fun _ => ⟨rfl, rfl, rfl⟩)
  unfold onBeforeRequest
  simp only
  split
  · exact h2
  · rename_i f hf
    have h3 : Inv [] (modifyObj (modifyObj (getTabProps w tabId).1 (objKey tabId)
        fun obj => { obj with reqMethod := method }) (objKey tabId)
        fun obj => { obj with formData := f }) :=
      inv_modifyObj_same h2 _ _ (fun _ => ⟨rfl, rfl, rfl⟩)
    split
    · exact h3
    · rename_i obj hobj
      split
      · refine inv_applyTabProps env _ ?_
        exact inv_setObj (inv_cons h3 _) _ obj _ hobj rfl rfl (Or.inl rfl)
          (Or.inl (List.mem_cons_self _ _))
      · exact h3

/-- The `onAlarm` listener keeps the invariant when it runs for a record whose
period is not negative. -/
theorem inv_onAlarm (w : World) (env : Env) (name : String) (obj : TabProps)
    (hobj : mapGet w.state name = some obj) (hnn : 0 ≤ obj.period) (h : Inv [] w) (w' : World)
    (hw : onAlarm env w name = Except.ok w') : Inv [] w' := by
  simp only [onAlarm, hobj] at hw
  split at hw
  · split at hw
    · simp only [Except.ok.injEq] at hw
      subst hw
      refine ⟨h.records, h.memory, ?_⟩
      intro n hne
      simp only [alarmsCreate, (h.records name obj hobj).1, mapGet_mapSet] at hne
      by_cases hkk : name = n
      · subst hkk
        exact ⟨obj, hobj, fun _ => hnn⟩
      · rw [if_neg hkk] at hne
        exact h.armed n hne
    · simp only [Except.ok.injEq] at hw
      subst hw
      exact inv_reloadTab env name false h
  · simp only [Except.ok.injEq] at hw
    subst hw
    exact h

/-- A firing alarm keeps the invariant: it was armed, so the period of its record
is not negative. -/
theorem inv_onAlarm_step {w : World} (env : Env) (name : String) (h : Inv [] w) :
    Inv [] (step env w (Event.alarm name)) := by
  simp only [step]
  cases ht : mapGet w.timers name with
  | none => exact h
  | some d =>
    obtain ⟨obj, hobj, hper⟩ := h.armed name (by rw [ht]; simp)
    have hnn : 0 ≤ obj.period := hper (by simp)
    have h1 : Inv [] { w with timers := mapDelete w.timers name } := by
      refine ⟨h.records, h.memory, ?_⟩
      intro n hne
      simp only [mapGet_mapDelete] at hne
      split at hne
      · exact absurd rfl hne
      · exact h.armed n hne
    simp only
    cases hon : onAlarm env { w with timers := mapDelete w.timers name } name with
    | error e => exact h1
    | ok w' =>
      exact inv_onAlarm { w with timers := mapDelete w.timers name } env name obj hobj hnn h1
        w' hon

/-- The `onUpdated` listener keeps the invariant. -/
theorem inv_onUpdated {w : World} (env : Env) (tabId : Int) (status : Option String)
    (pinned : Option Bool) (h : Inv [] w) : Inv [] (onUpdated env w tabId status pinned) := by
  unfold onUpdated
  split
  · exact h
  · have h1 : Inv [] (sendContentTabId (getTabProps w tabId).1 tabId) :=
      inv_emit (inv_getTabProps h tabId) _
    have h2 : Inv [] (match status, mapGet (sendContentTabId (getTabProps w tabId).1 tabId).state
          (objKey tabId) with
        | some s, some obj =>
          if s = "complete" then
            restartAlarm env
              (setObj
                (if obj.reloadByAddon = true ∧ obj.scrollX ≠ none then
                  emit (sendContentTabId (getTabProps w tabId).1 tabId)
                    (Effect.sendMessage tabId (Message.scroll obj.scrollX obj.scrollY))
                else sendContentTabId (getTabProps w tabId).1 tabId)
                (objKey tabId) { obj with reloadByAddon := false })
              (objKey tabId)
          else alarmsClear (sendContentTabId (getTabProps w tabId).1 tabId) obj.alarmName
        | _, _ => sendContentTabId (getTabProps w tabId).1 tabId) := by
      split
      · rename_i s obj hobj
        split
        · refine inv_restartAlarm_keep env _ ?_
          have h3 : Inv [] (if obj.reloadByAddon = true ∧ obj.scrollX ≠ none then
                  emit (sendContentTabId (getTabProps w tabId).1 tabId)
                    (Effect.sendMessage tabId (Message.scroll obj.scrollX obj.scrollY))
                else sendContentTabId (getTabProps w tabId).1 tabId) := by
            split
            · exact inv_emit h1 _
            · exact h1
          have hget : mapGet (if obj.reloadByAddon = true ∧ obj.scrollX ≠ none then
                  emit (sendContentTabId (getTabProps w tabId).1 tabId)
                    (Effect.sendMessage tabId (Message.scroll obj.scrollX obj.scrollY))
                else sendContentTabId (getTabProps w tabId).1 tabId).state (objKey tabId)
              = some obj := by
            split
            · exact hobj
            · exact hobj
          exact inv_setObj h3 _ obj _ hget rfl rfl (h1.records _ obj hobj).2.2 (Or.inr id)
        · exact inv_alarmsClear h1 _
      · exact h1
    simp only
    split
    · split
      · refine inv_refreshMenu (inv_rememberSet env _ ?_) env
        exact inv_modifyObj_same h2 _ _ (fun _ => ⟨rfl, rfl, rfl⟩)
      · exact h2
    · exact h2

/-- Recording the URL keeps the alarm name, the tab id and the period. -/
theorem noteUrl_keeps (url : String) (o : TabProps) :
    (noteUrl url o).alarmName = o.alarmName ∧ (noteUrl url o).tabId = o.tabId
      ∧ (noteUrl url o).period = o.period :=
  ⟨noteUrl_alarmName url o, noteUrl_tabId url o, noteUrl_period url o⟩

/-- The `onCommitted` listener keeps the invariant. -/
theorem inv_onCommitted {w : World} (env : Env) (frameId tabId : Int)
    (transitionType url : String) (h : Inv [] w) :
    Inv [] (onCommitted env w frameId tabId transitionType url) := by
  unfold onCommitted
  split
  · have h1 : Inv [] (getTabProps w tabId).1 := inv_getTabProps h tabId
    rcases hp : getTabProps w tabId with ⟨w1, obj⟩
    rw [hp] at h1
    simp only at h1 ⊢
    have h2 : Inv [] (if (!!(transitionType != "auto_subframe" && transitionType != "reload")) = true
        then modifyObj w1 (objKey tabId) fun o => { o with remember := false } else w1) := by
      split
      · exact inv_modifyObj_same h1 _ _ (fun _ => ⟨rfl, rfl, rfl⟩)
      · exact h1
    split
    · rename_i hc
      refine inv_rememberGet env _ (inv_applyTabProps env _ ?_)
      refine inv_modifyObj_same ?_ _ _ (noteUrl_keeps url)
      exact inv_modifyObj (inv_cons h2 _) _ _
        (fun _ => ⟨rfl, rfl, fun _ => Or.inl rfl⟩) (Or.inl (List.mem_cons_self _ _))
    · rename_i hc
      refine inv_rememberGet env _ ?_
      refine inv_modifyObj_same ?_ _ _ (noteUrl_keeps url)
      exact h2
  · exact h

/-- The `onCompleted` listener keeps the invariant. -/
theorem inv_onCompleted {w : World} (frameId tabId : Int) (h : Inv [] w) :
    Inv [] (onCompleted w frameId tabId) := by
  unfold onCompleted
  split
  · exact inv_modifyObj_same (inv_getTabProps h tabId) _ _ (fun _ => ⟨rfl, rfl, rfl⟩)
  · exact h

/-- The `onRemoved` listener keeps the invariant: the alarm goes with the record. -/
theorem inv_onRemoved {w : World} (tabId : Int) (h : Inv [] w) : Inv [] (onRemoved w tabId) := by
  unfold onRemoved
  refine ⟨?_, h.memory, ?_⟩
  · intro key o ho
    simp only [alarmsClear, mapGet_mapDelete] at ho
    split at ho
    · exact absurd ho (by simp)
    · exact h.records key o ho
  · intro n hne
    simp only [alarmsClear, mapGet_mapDelete] at hne ⊢
    split at hne
    · exact absurd rfl hne
    · rename_i hkk
      rw [if_neg hkk]
      exact h.armed n hne

/-- The `onMessage` listener keeps the invariant. -/
theorem inv_onMessage {w : World} (env : Env) (m : RuntimeMessage)
    (hok : eventOk (env, Event.message m)) (h : Inv [] w) : Inv [] (onMessage env w m) := by
  cases m with
  | activity t => exact inv_freezeReload env t 3000 h
  | setTabInterval t p => exact inv_setTabPeriod env _ p hok (inv_getTabProps h t)
  | scroll t a b =>
    exact inv_modifyObj_same (inv_getTabProps h t) _ _ (fun _ => ⟨rfl, rfl, rfl⟩)
  | other => exact h

/-- The `onActivated` listener keeps the invariant. -/
theorem inv_onActivated {w : World} (env : Env) (t : Int) (h : Inv [] w) :
    Inv [] (onActivated env w t) :=
  inv_refreshMenu (inv_freezeReload env t 5000 h) env

/-- The `onFocusChanged` listener keeps the invariant. -/
theorem inv_onFocusChanged {w : World} (env : Env) (windowId : Int) (h : Inv [] w) :
    Inv [] (onFocusChanged env w windowId) := by
  unfold onFocusChanged
  split
  · exact inv_refreshMenu (inv_freezeReload env _ 3000 h) env
  · exact h

/-- Source `webRequestError` keeps the invariant. -/
theorem inv_webRequestError {w : World} (t : Int) (h : Inv [] w) :
    Inv [] (webRequestError w t) :=
  inv_modifyObj_same (inv_getTabProps h t) _ _ (fun _ => ⟨rfl, rfl, rfl⟩)

/-- Source `webRequestComplete` keeps the invariant. -/
theorem inv_webRequestComplete {w : World} (t : Int) (c : Int) (h : Inv [] w) :
    Inv [] (webRequestComplete w t c) :=
  inv_modifyObj_same (inv_getTabProps h t) _ _ (fun _ => ⟨rfl, rfl, rfl⟩)

/-- Pending `setTabPeriod` calls with periods that can be requested keep the
invariant. -/
theorem inv_runSetTabPeriods {P : List String} (env : Env) (calls : List (String × ℚ))
    (w : World) (h : Inv P w) (hc : ∀ c ∈ calls, requestOk c.2) :
    Inv P (runSetTabPeriods env w calls) := by
  induction calls generalizing w with
  | nil => exact h
  | cons c rest ih =>
    simp only [runSetTabPeriods, List.foldl_cons]
    exact ih _ (inv_setTabPeriod env c.1 c.2 (hc c (List.mem_cons_self _ _)) h)
      (fun c' hc' => hc c' (List.mem_cons_of_mem _ hc'))

/-- Pending `setTabPeriod` calls that switch the timers of open tabs off settle the
alarms of their records. -/
theorem inv_runSetTabPeriods_off {P : List String} (env : Env) (calls : List (String × ℚ))
    (w : World) (h : Inv (calls.map Prod.fst ++ P) w)
    (hc : ∀ c ∈ calls, c.2 = -1 ∧ ∃ t, c.1 = objKey t ∧ env.tabs t ≠ none) :
    Inv P (runSetTabPeriods env w calls) := by
  induction calls generalizing w with
  | nil => exact h
  | cons c rest ih =>
    obtain ⟨c1, t, ct, htab⟩ := hc c (List.mem_cons_self _ _)
    simp only [runSetTabPeriods, List.foldl_cons]
    rw [c1]
    refine ih _ (inv_setTabPeriod_off env c.1 h ?_)
      (fun c' hc' => hc c' (List.mem_cons_of_mem _ hc'))
    intro obj hobj
    have := (h.records c.1 obj hobj).2.1
    rw [ct] at this
    rw [← objKey_injective _ _ this]
    exact htab

/-- A period that a record can hold can be requested. -/
theorem periodOk_request {p : ℚ} (h : periodOk p) : requestOk p :=
  h.elim Or.inl (fun h => Or.inr (Or.inr h))

/-- The record that "enable all" writes has the tab's own alarm name and tab id and
the period of the clicked tab. -/
theorem enableAllRecord_keeps (other obj : TabProps) :
    (enableAllRecord other obj).alarmName = other.alarmName
      ∧ (enableAllRecord other obj).tabId = other.tabId
      ∧ (enableAllRecord other obj).period = obj.period := by
  simp [enableAllRecord, migratePropObj, clone]

/-- One round of the loop of "enable all". -/
theorem enableAllAssign_cons (w : World) (key : String) (t : Int) (ts : List Int)
    (obj : TabProps) (hobj : mapGet (getTabProps w t).1.state key = some obj) :
    enableAllAssign w key (t :: ts)
      = ((enableAllAssign (setObj (getTabProps w t).1 (objKey t)
            (enableAllRecord (getTabProps w t).2 obj)) key ts).1,
          (objKey t, obj.period) ::
          (enableAllAssign (setObj (getTabProps w t).1 (objKey t)
            (enableAllRecord (getTabProps w t).2 obj)) key ts).2) := by
  rcases hp : getTabProps w t with ⟨w1, other⟩
  rw [hp] at hobj
  simp only at hobj
  simp only [enableAllAssign, hp, hobj]
  simp [enableAllRecord, migratePropObj, clone]

/-- The loop of "enable all" leaves the alarms of the tabs waiting for the pending
`setTabPeriod` calls, which all ask for the period of the clicked tab; when
that period is not negative, no alarm is left waiting. -/
theorem inv_enableAllAssign (key : String) (p0 : ℚ) (ts : List Int) (P : List String)
    (w : World) (h : Inv P w) (hkey : ∃ obj, mapGet w.state key = some obj ∧ obj.period = p0) :
    Inv ((enableAllAssign w key ts).2.map Prod.fst ++ P) (enableAllAssign w key ts).1
      ∧ (0 ≤ p0 → Inv P (enableAllAssign w key ts).1)
      ∧ ∀ c ∈ (enableAllAssign w key ts).2, c.2 = p0 ∧ ∃ t ∈ ts, c.1 = objKey t := by
  induction ts generalizing w P with
  | nil => exact ⟨by simpa [enableAllAssign] using h, fun _ => by simpa [enableAllAssign] using h,
      by simp [enableAllAssign]⟩
  | cons t ts ih =>
    obtain ⟨obj, hobj, hper⟩ := hkey
    have h1 : Inv P (getTabProps w t).1 := inv_getTabProps h t
    have hobj1 : mapGet (getTabProps w t).1.state key = some obj :=
      getTabProps_get_of_some w t key obj hobj
    have hst := getTabProps_stored w t
    have hpo : periodOk p0 := by rw [← hper]; exact (h.records key obj hobj).2.2
    obtain ⟨ha, ht, hp⟩ := enableAllRecord_keeps (getTabProps w t).2 obj
    rw [hper] at hp
    rw [enableAllAssign_cons w key t ts obj hobj1]
    have hkey2 : ∃ o, mapGet (setObj (getTabProps w t).1 (objKey t)
            (enableAllRecord (getTabProps w t).2 obj)).state key = some o ∧ o.period = p0 := by
      by_cases hkk : objKey t = key
      · exact ⟨enableAllRecord (getTabProps w t).2 obj, by simp [setObj, mapGet_mapSet, hkk], hp⟩
      · exact ⟨obj, by simp [setObj, mapGet_mapSet, hkk, hobj1], hper⟩
    have hp2 : periodOk (enableAllRecord (getTabProps w t).2 obj).period := by
      rw [hp]; exact hpo
    have h2 : Inv (objKey t :: P) (setObj (getTabProps w t).1 (objKey t)
            (enableAllRecord (getTabProps w t).2 obj)) :=
      inv_setObj (inv_cons h1 _) _ _ _ hst ha ht hp2 (Or.inl (List.mem_cons_self _ _))
    obtain ⟨i1, -, i3⟩ := ih (objKey t :: P) _ h2 hkey2
    refine ⟨?_, ?_, ?_⟩
    · refine inv_weaken i1 ?_
      intro x hx
      simp only [List.map_cons, List.cons_append, List.mem_cons, List.mem_append] at hx ⊢
      tauto
    · intro h0
      have h2' : Inv P (setObj (getTabProps w t).1 (objKey t)
            (enableAllRecord (getTabProps w t).2 obj)) :=
        inv_setObj h1 _ _ _ hst ha ht hp2 (Or.inr fun _ => by rw [hp]; exact h0)
      exact (ih P _ h2' hkey2).2.1 h0
    · intro c hc
      rcases List.mem_cons.mp hc with e | e
      · subst e
        exact ⟨hper, t, List.mem_cons_self _ _, rfl⟩
      · obtain ⟨c1, t', ht', c2⟩ := i3 c e
        exact ⟨c1, t', List.mem_cons_of_mem _ ht', c2⟩

/-- The loop of "disable all" keeps the invariant, and its pending calls ask for
the period -1. -/
theorem inv_disableAllAssign (ts : List Int) (P : List String) (w : World) (h : Inv P w) :
    Inv P (disableAllAssign w ts).1 ∧ ∀ c ∈ (disableAllAssign w ts).2, c.2 = -1 := by
  induction ts generalizing w with
  | nil => exact ⟨h, by simp [disableAllAssign]⟩
  | cons t ts ih =>
    obtain ⟨i1, i2⟩ := ih _ (inv_getTabProps h t)
    refine ⟨i1, ?_⟩
    intro c hc
    simp only [disableAllAssign, List.mem_cons] at hc
    rcases hc with e | e
    · rw [e]
    · exact i2 c e

/-- The `menus.onClicked` listener keeps the invariant. -/
theorem inv_menusOnClicked {w : World} (env : Env) (item : MenuItem) (checked : Bool)
    (tabId : Int) (hok : eventOk (env, Event.menu item checked tabId)) (h : Inv [] w) :
    Inv [] (menusOnClicked env w item checked tabId) := by
  unfold menusOnClicked
  split
  · exact h
  · have h1 : Inv [] (getTabProps w tabId).1 := inv_getTabProps h tabId
    have hsave : ∀ w' : World, Inv [] w' →
        Inv [] (if env.session57Available = true then
          match mapGet w'.state (objKey tabId) with
          | none => w'
          | some obj => emit w' (Effect.sessionsSetTabValue tabId obj)
        else w') := by
      intro w' hw'
      split
      · split
        · exact hw'
        · exact inv_emit hw' _
      · exact hw'
    have hsave_get : ∀ (w' : World) (k : String),
        mapGet (if env.session57Available = true then
          match mapGet w'.state (objKey tabId) with
          | none => w'
          | some obj => emit w' (Effect.sessionsSetTabValue tabId obj)
        else w').state k = mapGet w'.state k := by
      intro w' k
      split
      · split
        · rfl
        · rfl
      · rfl
    simp only
    cases item with
    | period p => exact inv_setTabPeriod env _ p hok (hsave _ h1)
    | randomize =>
      exact inv_rememberSet env _ (hsave _
        (inv_modifyObj_same h1 _ _ (fun _ => ⟨rfl, rfl, rfl⟩)))
    | remember =>
      exact inv_rememberSet env _ (hsave _
        (inv_modifyObj_same h1 _ _ (fun _ => ⟨rfl, rfl, rfl⟩)))
    | disableCache =>
      exact inv_rememberSet env _ (hsave _
        (inv_modifyObj_same h1 _ _ (fun _ => ⟨rfl, rfl, rfl⟩)))
    | smart =>
      exact inv_rememberSet env _ (hsave _
        (inv_modifyObj_same h1 _ _ (fun _ => ⟨rfl, rfl, rfl⟩)))
    | sticky =>
      exact inv_rememberSet env _ (hsave _
        (inv_modifyObj_same h1 _ _ (fun _ => ⟨rfl, rfl, rfl⟩)))
    | unsuccessful =>
      exact inv_rememberSet env _ (hsave _ (inv_restartAlarm_keep env _
        (inv_modifyObj_same h1 _ _ (fun _ => ⟨rfl, rfl, rfl⟩))))
    | enableAll =>
      simp only
      have hw1 := hsave _ h1
      have hkey : ∃ obj, mapGet (if env.session57Available = true then
            match mapGet (getTabProps w tabId).1.state (objKey tabId) with
            | none => (getTabProps w tabId).1
            | some obj => emit (getTabProps w tabId).1 (Effect.sessionsSetTabValue tabId obj)
          else (getTabProps w tabId).1).state (objKey tabId) = some obj
          ∧ obj.period = (getTabProps w tabId).2.period :=
        ⟨_, by rw [hsave_get]; exact getTabProps_stored w tabId, rfl⟩
      obtain ⟨e1, e2, e3⟩ := inv_enableAllAssign (objKey tabId) _ env.allTabs [] _ hw1 hkey
      rcases (h1.records _ _ (getTabProps_stored w tabId)).2.2 with hp | hp
      · refine inv_runSetTabPeriods_off env _ _ e1 ?_
        intro c hc
        obtain ⟨c1, t, ht, c2⟩ := e3 c hc
        exact ⟨c1.trans hp, t, c2, hok t ht⟩
      · refine inv_runSetTabPeriods env _ _ (e2 hp) ?_
        intro c hc
        rw [(e3 c hc).1]
        exact Or.inr (Or.inr hp)
    | disableAll =>
      simp only
      obtain ⟨d1, d2⟩ := inv_disableAllAssign env.allTabs [] _ (hsave _ h1)
      refine inv_runSetTabPeriods env _ _ d1 ?_
      intro c hc
      rw [d2 c hc]
      exact Or.inl rfl

/-- Handling one event keeps the invariant. -/
theorem inv_step {w : World} (env : Env) (ev : Event) (hok : eventOk (env, ev))
    (h : Inv [] w) : Inv [] (step env w ev) := by
  cases ev with
  | beforeRequest t m b => exact inv_onBeforeRequest env t m b h
  | alarm name => exact inv_onAlarm_step env name h
  | updated t s p => exact inv_onUpdated env t s p h
  | committed f t tt u => exact inv_onCommitted env f t tt u h
  | completed f t => exact inv_onCompleted f t h
  | removed t => exact inv_onRemoved t h
  | message m => exact inv_onMessage env m hok h
  | activated t => exact inv_onActivated env t h
  | focusChanged wid => exact inv_onFocusChanged env wid h
  | requestError t => exact inv_webRequestError t h
  | requestComplete t c => exact inv_webRequestComplete t c h
  | menu item checked t => exact inv_menusOnClicked env item checked t hok h

/-- Handling a sequence of events keeps the invariant. -/
theorem inv_run (evs : List (Env × Event)) (w : World) (hok : ∀ e ∈ evs, eventOk e)
    (h : Inv [] w) : Inv [] (run w evs) := by
  induction evs generalizing w with
  | nil => exact h
  | cons e rest ih =>
    obtain ⟨env, ev⟩ := e
    exact ih _ (fun e he => hok e (List.mem_cons_of_mem _ he))
      (inv_step env ev (hok _ (List.mem_cons_self _ _)) h)

/-- A value that is looked up is an entry of the map. -/
theorem mem_of_mapGet {α : Type} (m : List (String × α)) (k : String) (v : α)
    (h : mapGet m k = some v) : (k, v) ∈ m := by
  induction m with
  | nil => simp [mapGet] at h
  | cons e m ih =>
    obtain ⟨k', v'⟩ := e
    simp only [mapGet] at h
    split at h
    · rename_i hk
      simp only [Option.some.injEq] at h
      subst h
      subst hk
      exact List.mem_cons_self _ _
    · exact List.mem_cons_of_mem _ (ih h)

/-- Without armed alarms the invariant is a matter of the records and `urlMemory`. -/
theorem inv_of_no_timers (P : List String) (w : World) (ht : w.timers = [])
    (hr : ∀ key obj, mapGet w.state key = some obj →
      obj.alarmName = key ∧ key = objKey obj.tabId ∧ periodOk obj.period)
    (hm : ∀ url s, mapGet w.urlMemory url = some s → snapshotOk s) : Inv P w :=
  ⟨hr, hm, fun name hne => by rw [ht] at hne; exact absurd rfl hne⟩

/-- The migration loop stores records under their alarm names, with the saved
periods, and arms no alarm. -/
theorem migrateSaved_records (saved : List (Int × Snapshot)) (w : World)
    (hs : ∀ e ∈ saved, snapshotOk e.2)
    (hr : ∀ key obj, mapGet w.state key = some obj →
      obj.alarmName = key ∧ key = objKey obj.tabId ∧ periodOk obj.period) :
    (∀ key obj, mapGet (migrateSaved w saved).1.state key = some obj →
        obj.alarmName = key ∧ key = objKey obj.tabId ∧ periodOk obj.period)
      ∧ (migrateSaved w saved).1.timers = w.timers
      ∧ (migrateSaved w saved).1.urlMemory = w.urlMemory
      ∧ ∀ c ∈ (migrateSaved w saved).2, requestOk c.2 := by
  induction saved generalizing w with
  | nil => exact ⟨hr, rfl, rfl, by simp [migrateSaved]⟩
  | cons e rest ih =>
    obtain ⟨tabId, snap⟩ := e
    obtain ⟨m1, m2, m3⟩ := migratePropObj_keeps (newTabProps w.Settings tabId) snap
    have hp : periodOk (migratePropObj (newTabProps w.Settings tabId) snap).period := by
      rw [m3]
      cases hsp : snap.period with
      | none => exact Or.inl rfl
      | some p => exact hs (tabId, snap) (List.mem_cons_self _ _) p hsp
    have hr2 : ∀ key obj, mapGet (setObj w
          (migratePropObj (newTabProps w.Settings tabId) snap).alarmName
          (migratePropObj (newTabProps w.Settings tabId) snap)).state key = some obj →
        obj.alarmName = key ∧ key = objKey obj.tabId ∧ periodOk obj.period := by
      intro key obj ho
      simp only [setObj, mapGet_mapSet] at ho
      split at ho
      · rename_i hk
        simp only [Option.some.injEq] at ho
        subst ho
        refine ⟨hk, ?_, hp⟩
        rw [← hk, m1, m2]
        rfl
      · exact hr key obj ho
    obtain ⟨i1, i2, i3, i4⟩ := ih _ (fun e he => hs e (List.mem_cons_of_mem _ he)) hr2
    refine ⟨i1, i2, i3, ?_⟩
    intro c hc
    simp only [migrateSaved, List.mem_cons] at hc
    rcases hc with e | e
    · rw [e]
      exact periodOk_request hp
    · exact i4 c e

/-- Fetching the records of the open tabs keeps the invariant. -/
theorem inv_adoptOpenTabs (ts : List Int) (upgrading : Bool) (w : World) (h : Inv [] w) :
    Inv [] (adoptOpenTabs w upgrading ts) := by
  induction ts generalizing w with
  | nil => exact h
  | cons t ts ih =>
    simp only [adoptOpenTabs]
    refine ih _ ?_
    split
    · exact inv_getTabProps h t
    · exact inv_modifyObj_same (inv_getTabProps h t) _ _ (fun _ => ⟨rfl, rfl, rfl⟩)

/-- Recalling the settings of the open tabs keeps the invariant. -/
theorem inv_recallOpenTabs (env : Env) (ts : List Int) (w : World) (h : Inv [] w) :
    Inv [] (ts.foldl (fun w t => rememberGet env (sendContentTabId w t) (objKey t)) w) := by
  induction ts generalizing w with
  | nil => exact h
  | cons t ts ih =>
    simp only [List.foldl_cons]
    exact ih _ (inv_rememberGet env _ (inv_emit h _))

/-- The rest of `on_addon_load`, after the stored data has been read. -/
theorem inv_loaded (env : Env) (w : World) (calls : List (String × ℚ)) (upgrading : Bool)
    (h : Inv [] w) (hc : ∀ c ∈ calls, requestOk c.2) :
    Inv [] (refreshMenu env ((env.allTabs.foldl
      (fun w t => rememberGet env (sendContentTabId w t) (objKey t))
      (adoptOpenTabs (runSetTabPeriods env w calls) upgrading env.allTabs)))) :=
  inv_refreshMenu (inv_recallOpenTabs env _ _ (inv_adoptOpenTabs _ _ _
    (inv_runSetTabPeriods env _ _ h hc))) env

/-- Source `on_addon_load`, run in the initial world, establishes the invariant. -/
theorem inv_on_addon_load (env : Env) (s : Settings) (storedSettings : Option Settings)
    (upgrade : Option (Nat × List (Int × Snapshot)))
    (storedUrlMemory : Option (List (String × Snapshot)))
    (hup : ∀ u, upgrade = some u → ∀ e ∈ u.2, snapshotOk e.2)
    (hmem : ∀ m, storedUrlMemory = some m → ∀ e ∈ m, snapshotOk e.2) :
    Inv [] (on_addon_load env (initialWorld s) storedSettings upgrade storedUrlMemory) := by
  have h0 : (LoadSettingsAsync (initialWorld s) storedSettings).state = []
      ∧ (LoadSettingsAsync (initialWorld s) storedSettings).timers = []
      ∧ (LoadSettingsAsync (initialWorld s) storedSettings).urlMemory = [] := by
    cases storedSettings <;> simp [LoadSettingsAsync, initialWorld]
  obtain ⟨hs0, ht0, hu0⟩ := h0
  have hr0 : ∀ key obj,
      mapGet (LoadSettingsAsync (initialWorld s) storedSettings).state key = some obj →
      obj.alarmName = key ∧ key = objKey obj.tabId ∧ periodOk obj.period := by
    intro key obj ho
    rw [hs0] at ho
    simp [mapGet] at ho
  have hnone : ∀ (w : World), w.timers = [] →
      (∀ key obj, mapGet w.state key = some obj →
        obj.alarmName = key ∧ key = objKey obj.tabId ∧ periodOk obj.period) →
      w.urlMemory = [] → Inv [] w := by
    intro w ht hr hu
    exact inv_of_no_timers [] w ht hr (fun url s hs => by rw [hu] at hs; simp [mapGet] at hs)
  have hsome : ∀ (w : World) (m : List (String × Snapshot)), w.timers = [] →
      (∀ key obj, mapGet w.state key = some obj →
        obj.alarmName = key ∧ key = objKey obj.tabId ∧ periodOk obj.period) →
      (∀ e ∈ m, snapshotOk e.2) → Inv [] { w with urlMemory := m } := by
    intro w m ht hr hm
    exact inv_of_no_timers [] _ ht hr (fun url s hs => hm (url, s) (mem_of_mapGet m url s hs))
  cases storedUrlMemory with
  | none =>
    cases hu : upgrade with
    | none =>
      simp only [on_addon_load]
      exact inv_loaded env _ _ _ (hnone _ ht0 hr0 hu0) (by simp)
    | some u =>
      obtain ⟨version, saved⟩ := u
      simp only [on_addon_load]
      split
      · obtain ⟨m1, m2, m3, m4⟩ := migrateSaved_records saved
          (LoadSettingsAsync (initialWorld s) storedSettings) (hup _ hu) hr0
        exact inv_loaded env _ _ _ (hnone _ (by rw [m2]; exact ht0) m1 (by rw [m3]; exact hu0)) m4
      · exact inv_loaded env _ _ _ (hnone _ ht0 hr0 hu0) (by simp)
  | some m =>
    have hm := hmem m rfl
    cases hu : upgrade with
    | none =>
      simp only [on_addon_load]
      exact inv_loaded env _ _ _ (hsome _ m ht0 hr0 hm) (by simp)
    | some u =>
      obtain ⟨version, saved⟩ := u
      simp only [on_addon_load]
      split
      · obtain ⟨m1, m2, m3, m4⟩ := migrateSaved_records saved
          (LoadSettingsAsync (initialWorld s) storedSettings) (hup _ hu) hr0
        exact inv_loaded env _ _ _ (hsome _ m (by rw [m2]; exact ht0) m1 hm) m4
      · exact inv_loaded env _ _ _ (hsome _ m ht0 hr0 hm) (by simp)

/-- The initial world satisfies the invariant. -/
theorem inv_initialWorld (s : Settings) : Inv [] (initialWorld s) :=
  inv_of_no_timers [] _ rfl (fun key obj ho => by simp [initialWorld, mapGet] at ho)
    (fun url s ho => by simp [initialWorld, mapGet] at ho)

/-- What the invariant says about a record with a negative period. -/
theorem inv_negative {w : World} (h : Inv [] w) (key : String) (obj : TabProps)
    (hobj : mapGet w.state key = some obj) (hneg : obj.period < 0) :
    mapGet w.timers obj.alarmName = none := by
  by_contra hne
  rw [(h.records key obj hobj).1] at hne
  obtain ⟨o, ho, hp⟩ := h.armed key hne
  rw [hobj] at ho
  simp only [Option.some.injEq] at ho
  subst ho
  exact absurd (hp (by simp)) (not_le.mpr hneg)

/-- C8. Start from the initial world, or from the world that `on_addon_load`
makes of it when the saved records and the stored `urlMemory` entries hold
periods that are -1 or not negative. Handle any sequence of events in which
every requested period is -1, -2 or not negative and the tabs that the query of
"enable all" lists are open. Then every record whose period is negative has no
alarm armed under its `alarmName`. -/
theorem negative_period_has_no_alarm (s : Settings) (env0 : Env)
    (storedSettings : Option Settings) (upgrade : Option (Nat × List (Int × Snapshot)))
    (storedUrlMemory : Option (List (String × Snapshot))) (w0 : World)
    (evs : List (Env × Event))
    (hw0 : w0 = initialWorld s
      ∨ w0 = on_addon_load env0 (initialWorld s) storedSettings upgrade storedUrlMemory)
    (hup : ∀ u, upgrade = some u → ∀ e ∈ u.2, snapshotOk e.2)
    (hmem : ∀ m, storedUrlMemory = some m → ∀ e ∈ m, snapshotOk e.2)
    (hevs : ∀ e ∈ evs, eventOk e)
    (key : String) (obj : TabProps)
    (hobj : mapGet (run w0 evs).state key = some obj) (hneg : obj.period < 0) :
    mapGet (run w0 evs).timers obj.alarmName = none := by
  have h0 : Inv [] w0 := by
    rcases hw0 with h | h
    · rw [h]; exact inv_initialWorld s
    · rw [h]; exact inv_on_addon_load env0 s storedSettings upgrade storedUrlMemory hup hmem
  exact inv_negative (inv_run evs w0 hevs h0) key obj hobj hneg

/-- Witness of C8: the add-on is loaded with tab 1 open; the timer of tab 1 ends
switched off and tab 2 has the period 5 and an armed alarm, when "enable all"
is clicked in tab 1. The click copies the period -1 onto tab 2, and the alarm
of tab 2 is cleared. -/
theorem negative_period_has_no_alarm_witness :
    (mapGet (run loadedWorld beforeEnableAll).state (objKey 2)).map (fun o => o.period)
        = some 5
      ∧ (mapGet (run loadedWorld beforeEnableAll).timers (objKey 2)).isSome = true
      ∧ (mapGet (run loadedWorld enableAllTrace).state (objKey 2)).map
          (fun o => (o.period, o.alarmName)) = some (-1, objKey 2)
      ∧ mapGet (run loadedWorld enableAllTrace).timers (objKey 2) = none := by
  have hst : (mapGet (run loadedWorld enableAllTrace).state (objKey 2)).map
      (fun o => (o.period, o.alarmName)) = some (-1, objKey 2) := by decide
  refine ⟨by decide, by decide, hst, ?_⟩
  cases hget : mapGet (run loadedWorld enableAllTrace).state (objKey 2) with
  | none => rw [hget] at hst; simp at hst
  | some obj =>
    rw [hget] at hst
    simp only [Option.map_some', Option.some.injEq, Prod.mk.injEq] at hst
    have h := negative_period_has_no_alarm fallbackSettings { twoTabsEnv with allTabs := [1] }
      none none none loadedWorld enableAllTrace (Or.inr rfl)
      (fun u hu => by cases hu) (fun m hm => by cases hm)
      (by
        intro e he
        simp only [enableAllTrace, beforeEnableAll, List.cons_append, List.nil_append,
          List.mem_cons, List.mem_singleton, List.not_mem_nil, or_false] at he
        rcases he with h | h | h | h | h | h | h | h | h | h <;> subst h <;>
          simp [eventOk, requestOk, twoTabsEnv])
      (objKey 2) obj hget (by rw [hst.1]; norm_num)
    rw [hst.2] at h
    exact h

/-! ## The custom-interval sentinel -/

/-- C14 as stated fails: for a tab that was loaded with POST and has not been
confirmed, `setTabPeriod(obj, -2)` opens the POST-confirmation popup (carrying
the period -2) and not the custom-interval popup. -/
theorem setTabPeriod_minus_two_meets_post_gate :
    (setTabPeriod (plainEnv "https://example.org/form" false 0 0)
        (worldWith { newTabProps fallbackSettings 7 with reqMethod := "POST" })
        (objKey 7) (-2)).log
        = [Effect.windowsCreate (Popup.postConfirm 7 (-2))]
      ∧ Effect.windowsCreate (Popup.customInterval 7)
        ∉ (setTabPeriod (plainEnv "https://example.org/form" false 0 0)
            (worldWith { newTabProps fallbackSettings 7 with reqMethod := "POST" })
            (objKey 7) (-2)).log := by
  constructor <;> decide

/-- C14, amended. For a record that exists (its tab is still open),
`setTabPeriod(obj, -2)` changes no record (so the period never becomes -2), no
armed alarm and no `urlMemory` entry, and makes one browser call: the
POST-confirmation popup when the request method is not GET, `postConfirmed` is
false and `neverConfirmPost` is off, and the custom-interval popup otherwise. -/
theorem setTabPeriod_custom_interval (env : Env) (w : World) (key : String) (obj : TabProps)
    (tab : Tab)
    (hobj : mapGet w.state key = some obj)
    (htab : env.tabs obj.tabId = some tab) :
    ((obj.reqMethod ≠ "GET" ∧ obj.postConfirmed = false
          ∧ w.Settings.neverConfirmPost = false) →
        (setTabPeriod env w key (-2)).log
          = w.log ++ [Effect.windowsCreate (Popup.postConfirm obj.tabId (-2))])
      ∧ (¬ (obj.reqMethod ≠ "GET" ∧ obj.postConfirmed = false
          ∧ w.Settings.neverConfirmPost = false) →
        (setTabPeriod env w key (-2)).log
          = w.log ++ [Effect.windowsCreate (Popup.customInterval obj.tabId)])
      ∧ (setTabPeriod env w key (-2)).state = w.state
      ∧ (setTabPeriod env w key (-2)).timers = w.timers
      ∧ (setTabPeriod env w key (-2)).urlMemory = w.urlMemory := by
  have hne : (-2 : ℚ) ≠ -1 := by norm_num
  by_cases hg : obj.reqMethod ≠ "GET" ∧ obj.postConfirmed = false
      ∧ w.Settings.neverConfirmPost = false
  · have h : setTabPeriod env w key (-2)
        = emit w (Effect.windowsCreate (Popup.postConfirm obj.tabId (-2))) := by
      obtain ⟨h1, h2, h3⟩ := hg
      simp [setTabPeriod, hobj, htab, h1, h2, h3, hne]
    rw [h]
    exact ⟨fun _ => rfl, fun hn => absurd hg hn, rfl, rfl, rfl⟩
  · have hg' : ¬ (obj.reqMethod ≠ "GET" ∧ (-2 : ℚ) ≠ -1 ∧ obj.postConfirmed = false
        ∧ w.Settings.neverConfirmPost = false) := fun h => hg ⟨h.1, h.2.2.1, h.2.2.2⟩
    have h : setTabPeriod env w key (-2)
        = emit w (Effect.windowsCreate (Popup.customInterval obj.tabId)) := by
      simp only [setTabPeriod, hobj, htab]
      rw [if_neg hg']
      simp
    rw [h]
    exact ⟨fun hp => absurd hp hg, fun _ => rfl, rfl, rfl, rfl⟩

/-- Witness of the amended C14: a tab loaded with GET gets the custom-interval
popup. -/
theorem setTabPeriod_custom_interval_witness :
    (setTabPeriod (plainEnv "https://example.org/" false 0 0)
        (worldWith (newTabProps fallbackSettings 7)) (objKey 7) (-2)).log
      = [Effect.windowsCreate (Popup.customInterval 7)] := by
  have h := (setTabPeriod_custom_interval (plainEnv "https://example.org/" false 0 0)
    (worldWith (newTabProps fallbackSettings 7)) (objKey 7) (newTabProps fallbackSettings 7)
    { url := "https://example.org/", incognito := false }
    (mapGet_worldWith _) rfl).2.1 (by simp [newTabProps])
  simpa [worldWith, setObj, initialWorld, newTabProps] using h

/-! ## The incognito boundary -/

/-- The first browser call of `restartAlarm` clears the alarm of the record. -/
theorem restartAlarm_log_head (env : Env) (w : World) (key : String) (obj : TabProps)
    (hobj : mapGet w.state key = some obj) :
    ∃ rest, (restartAlarm env w key).log = w.log ++ Effect.alarmsClear obj.alarmName :: rest := by
  by_cases hp : obj.period < 0
  · rw [restartAlarm_negative env w key obj hobj hp]
    exact ⟨[Effect.sendMessage obj.tabId Message.timerDisabled], by simp [emit, setObj, alarmsClear]⟩
  · simp only [restartAlarm, hobj]
    rw [if_neg hp]
    cases obj.randomize
    · exact ⟨_, by simp [emit, alarmsCreate, alarmsClear]; rfl⟩
    · exact ⟨_, by simp [emit, alarmsCreate, alarmsClear]; rfl⟩

/-- The first browser call of `applyTabProps` clears the alarm of the record. -/
theorem applyTabProps_log_head (env : Env) (w : World) (key : String) (obj : TabProps)
    (hobj : mapGet w.state key = some obj) :
    ∃ rest, (applyTabProps env w key).log = w.log ++ Effect.alarmsClear obj.alarmName :: rest := by
  obtain ⟨rest, hrest⟩ := restartAlarm_log_head env (refreshMenu env w) key obj
    (refreshMenu_get_of_some env w key obj hobj)
  rw [(refreshMenu_frame env w).2.1] at hrest
  unfold applyTabProps
  cases env.session57Available
  · exact ⟨rest, by simpa using hrest⟩
  · simp only [if_true]
    split
    · exact ⟨rest, hrest⟩
    · exact ⟨rest ++ [_], by simp [emit, hrest]; rfl⟩

/-- C12 as stated fails: for an incognito tab whose URL has an entry in
`urlMemory`, `rememberGet` reads the entry: the record of tab 1, which had the
default period -1 and no alarm, ends with the stored period 300, "Remember" and
"Randomize" on and an armed alarm. -/
theorem rememberGet_recalls_in_incognito :
    ((plainEnv "https://example.org/" true 0 0).tabs 1).map (fun t => t.incognito) = some true
      ∧ (mapGet recallWorld.state (objKey 1)).map
          (fun o => (o.period, o.remember, o.randomize)) = some (-1, false, false)
      ∧ mapGet recallWorld.timers (objKey 1) = none
      ∧ (mapGet (rememberGet (plainEnv "https://example.org/" true 0 0) recallWorld
            (objKey 1)).state (objKey 1)).map
          (fun o => (o.period, o.remember, o.randomize)) = some (300, true, true)
      ∧ (mapGet (rememberGet (plainEnv "https://example.org/" true 0 0) recallWorld
            (objKey 1)).timers (objKey 1)).isSome = true := by
  refine ⟨by decide, by decide, by decide, by decide, by decide⟩

/-- C12, amended. For a record whose tab is incognito and every content of
`urlMemory`: `rememberSet` changes nothing (no write to `urlMemory`, no call to
storage). `rememberGet` takes no account of the incognito flag: when `urlMemory`
has no entry for the tab's normalized URL it changes nothing, and when it has
one it migrates the stored record into the tab's record and applies it, which
starts by clearing the tab's alarm. -/
theorem incognito_boundary (env : Env) (w : World) (key : String) (obj : TabProps) (tab : Tab)
    (hobj : mapGet w.state key = some obj)
    (htab : env.tabs obj.tabId = some tab)
    (hinc : tab.incognito = true) :
    rememberSet env w key = w
      ∧ (mapGet w.urlMemory (env.normUrl tab.url) = none → rememberGet env w key = w)
      ∧ (∀ saved, mapGet w.urlMemory (env.normUrl tab.url) = some saved →
          rememberGet env w key
              = applyTabProps env (setObj w key (migratePropObj obj saved)) key
            ∧ (∃ obj', mapGet (rememberGet env w key).state key = some obj'
                ∧ obj'.period = saved.period.getD obj.period
                ∧ obj'.remember = saved.remember.getD obj.remember)
            ∧ ∃ rest, (rememberGet env w key).log
                = w.log ++ Effect.alarmsClear obj.alarmName :: rest) := by
  refine ⟨by simp [rememberSet, hobj, htab, hinc], ?_, ?_⟩
  · intro hnone
    exact rememberGet_no_entry env w key obj hobj
      (fun tab' htab' => by
        rw [htab] at htab'
        simp only [Option.some.injEq] at htab'
        subst htab'
        exact hnone)
  · intro saved hsaved
    have hrec := rememberGet_entry env w key obj tab saved hobj htab hsaved
    have hset : mapGet (setObj w key (migratePropObj obj saved)).state key
        = some (migratePropObj obj saved) := by
      simp [setObj, mapGet_mapSet_self]
    refine ⟨hrec, ?_, ?_⟩
    · rw [hrec]
      rcases applyTabProps_record env _ key _ hset with h | h
      · exact ⟨_, h, by simp [migratePropObj], by simp [migratePropObj]⟩
      · exact ⟨_, h, by simp [migratePropObj], by simp [migratePropObj]⟩
    · rw [hrec]
      obtain ⟨rest, hrest⟩ := applyTabProps_log_head env _ key _ hset
      exact ⟨rest, by simpa [setObj, migratePropObj] using hrest⟩

/-- Witness of the amended C12: in an incognito tab, a record with "Remember" on
is not stored. -/
theorem incognito_boundary_witness :
    rememberSet (plainEnv "https://example.org/" true 0 0)
        (worldWith { newTabProps fallbackSettings 1 with remember := true, period := 300 })
        (objKey 1)
      = worldWith { newTabProps fallbackSettings 1 with remember := true, period := 300 } :=
  (incognito_boundary (plainEnv "https://example.org/" true 0 0)
    (worldWith { newTabProps fallbackSettings 1 with remember := true, period := 300 })
    (objKey 1) { newTabProps fallbackSettings 1 with remember := true, period := 300 }
    { url := "https://example.org/", incognito := true }
    (mapGet_worldWith _) rfl rfl).1

/-! ## What a `urlMemory` entry holds -/

/-- The records are not changed by `restartAlarm` when the period is not
negative. -/
theorem restartAlarm_state_of_nonneg (env : Env) (w : World) (key : String) (obj : TabProps)
    (hobj : mapGet w.state key = some obj) (hperiod : 0 ≤ obj.period) :
    (restartAlarm env w key).state = w.state := by
  have hp : ¬ obj.period < 0 := not_lt.mpr hperiod
  simp only [restartAlarm, hobj]
  rw [if_neg hp]
  cases obj.randomize <;> simp [emit, alarmsCreate, alarmsClear]

/-- C11, evaluated on the code. Tab 9 was open when the add-on was loaded, was
given the period 300, made sticky, and then submitted a form with POST; with
"Remember" ticked, `rememberSet` writes an entry that holds the internal state
of tab 9 next to its settings: `reqMethod` POST, `postConfirmed` true, the form
data, `tabId` and `alarmName`. Tab 1 then requests the same page with GET: its
record has `reqMethod` GET, `postConfirmed` false and no form data. When that
navigation commits, the recall turns the record of tab 1 into a confirmed POST
with the form data of tab 9, and when the alarm of tab 1 fires, the script asks
the page in tab 1 to resend that form; no popup was opened on the way. -/
theorem recall_overwrites_request_state :
    (mapGet (run formWorld rememberPostTab).urlMemory "https://example.org/form").map
        (fun snap => (snap.reqMethod, snap.postConfirmed))
        = some (some "POST", some true)
      ∧ (mapGet (run formWorld rememberPostTab).urlMemory "https://example.org/form").map
          (fun snap => snap.formData)
        = some (some (some [("card", ["4111"])]))
      ∧ (mapGet (run formWorld rememberPostTab).urlMemory "https://example.org/form").map
          (fun snap => (snap.tabId, snap.alarmName, snap.keepRefreshing, snap.freezeUntil))
        = some (some 9, some (objKey 9), some false, some 0)
      ∧ (mapGet (run formWorld (rememberPostTab ++ getRequestInTabOne)).state (objKey 1)).map
          (fun o => (o.reqMethod, o.postConfirmed, o.formData))
        = some ("GET", false, FormField.null)
      ∧ (mapGet (run formWorld (rememberPostTab ++ getRequestInTabOne ++ commitInTabOne)).state
            (objKey 1)).map
          (fun o => (o.reqMethod, o.postConfirmed, o.formData, o.period, o.tabId))
        = some ("POST", true, FormField.data [("card", ["4111"])], 300, 1)
      ∧ (mapGet (run formWorld (rememberPostTab ++ getRequestInTabOne ++ commitInTabOne)).timers
            (objKey 1)).isSome = true
      ∧ (run formWorld (rememberPostTab ++ getRequestInTabOne ++ commitInTabOne
            ++ [(formEnv, Event.alarm (objKey 1))])).log.drop
          (run formWorld (rememberPostTab ++ getRequestInTabOne ++ commitInTabOne)).log.length
        = [Effect.sendMessage 1 (Message.reload (FormField.data [("card", ["4111"])]))]
      ∧ popupsIn (run formWorld (rememberPostTab ++ getRequestInTabOne ++ commitInTabOne
            ++ [(formEnv, Event.alarm (objKey 1))])).log = [] := by
  refine ⟨by decide, by decide, by decide, by decide, by decide, by decide, by decide,
    by decide⟩

/-! ## Name-matched migration -/

/-- A name is among the keys of a record exactly when the record has the
property. -/
theorem mem_keys_iff (o : JsObject) (k : String) :
    k ∈ keys o ↔ hasOwnProperty o k = true := by
  induction o with
  | nil => simp [keys, hasOwnProperty, mapGet]
  | cons e o ih =>
    obtain ⟨k', v'⟩ := e
    by_cases h : k' = k
    · simp [keys, hasOwnProperty, mapGet, h]
    · have h' : ¬ k = k' := fun e => h e.symm
      simp only [keys, hasOwnProperty] at ih
      simp [keys, hasOwnProperty, mapGet, h, h', ih]

/-- An assignment to a property that exists keeps the keys. -/
theorem keys_mapSet_of_has (o : JsObject) (k : String) (v : JsValue)
    (h : hasOwnProperty o k = true) : keys (mapSet o k v) = keys o := by
  induction o with
  | nil => simp [hasOwnProperty, mapGet] at h
  | cons e o ih =>
    obtain ⟨k', v'⟩ := e
    by_cases hk : k' = k
    · simp [keys, mapSet, hk]
    · have h2 : hasOwnProperty o k = true := by
        simpa [hasOwnProperty, mapGet, hk] using h
      have := ih h2
      simp only [keys] at this
      simp [keys, mapSet, hk, this]

/-- The loop of `migratePropObj`: over names that `acc` has, it keeps the keys
of `acc` and assigns from `tmp` exactly the visited names that `tmp` has. -/
theorem migrate_loop (tmp : JsObject) (ks : List String) (acc : JsObject)
    (hks : ∀ k ∈ ks, hasOwnProperty acc k = true) :
    keys (ks.foldl
        (fun acc key => if hasOwnProperty tmp key then mapSet acc key (propGet tmp key) else acc)
        acc) = keys acc
      ∧ ∀ k, mapGet (ks.foldl
        (fun acc key => if hasOwnProperty tmp key then mapSet acc key (propGet tmp key) else acc)
        acc) k
        = if k ∈ ks ∧ hasOwnProperty tmp k = true then some (propGet tmp k) else mapGet acc k := by
  induction ks generalizing acc with
  | nil => simp
  | cons a rest ih =>
    have ha : hasOwnProperty acc a = true := hks a (List.mem_cons_self _ _)
    have hkeys : keys (if hasOwnProperty tmp a then mapSet acc a (propGet tmp a) else acc)
        = keys acc := by
      split
      · exact keys_mapSet_of_has acc a _ ha
      · rfl
    have hrest : ∀ k ∈ rest,
        hasOwnProperty (if hasOwnProperty tmp a then mapSet acc a (propGet tmp a) else acc) k
          = true := by
      intro k hk
      rw [← mem_keys_iff, hkeys, mem_keys_iff]
      exact hks k (List.mem_cons_of_mem _ hk)
    obtain ⟨ih1, ih2⟩ := ih _ hrest
    refine ⟨by simp only [List.foldl_cons]; rw [ih1, hkeys], ?_⟩
    intro k
    simp only [List.foldl_cons]
    rw [ih2 k]
    by_cases hk : k ∈ rest ∧ hasOwnProperty tmp k = true
    · have hk' : k ∈ a :: rest ∧ hasOwnProperty tmp k = true :=
        ⟨List.mem_cons_of_mem _ hk.1, hk.2⟩
      rw [if_pos hk, if_pos hk']
    · rw [if_neg hk]
      by_cases hka : a = k
      · subst hka
        by_cases hta : hasOwnProperty tmp a = true
        · have hk' : a ∈ a :: rest ∧ hasOwnProperty tmp a = true :=
            ⟨List.mem_cons_self _ _, hta⟩
          rw [if_pos hk', if_pos hta, mapGet_mapSet_self]
        · have hk' : ¬ (a ∈ a :: rest ∧ hasOwnProperty tmp a = true) := fun h => hta h.2
          rw [if_neg hk', if_neg hta]
      · have hk' : ¬ (k ∈ a :: rest ∧ hasOwnProperty tmp k = true) := by
          intro h
          rcases List.mem_cons.mp h.1 with h1 | h1
          · exact hka h1.symm
          · exact hk ⟨h1, h.2⟩
        rw [if_neg hk']
        split
        · exact mapGet_mapSet_of_ne _ _ hka
        · rfl

/-- A record without `undefined` values is its own JSON clone. -/
theorem clone_of_saved (oldObj : JsObject) (hsaved : ∀ kv ∈ oldObj, kv.2 ≠ JsValue.undefined) :
    Fields.clone oldObj = oldObj := by
  unfold Fields.clone
  exact List.filter_eq_self.mpr (fun kv hkv => by simpa using hsaved kv hkv)

/-- The JSON clone has no property that the record lacks. -/
theorem mapGet_clone_of_none (oldObj : JsObject) (k : String) (h : mapGet oldObj k = none) :
    mapGet (Fields.clone oldObj) k = none := by
  induction oldObj with
  | nil => simp [Fields.clone, mapGet]
  | cons e o ih =>
    obtain ⟨k', v'⟩ := e
    by_cases hk : k' = k
    · simp [mapGet, hk] at h
    · have h2 : mapGet o k = none := by simpa [mapGet, hk] using h
      have := ih h2
      simp only [Fields.clone] at this
      by_cases hv : v' = JsValue.undefined
      · simpa [Fields.clone, List.filter, hv] using this
      · simpa [Fields.clone, List.filter, hv, mapGet, hk] using this

/-- What the record written by `migratePropObj` holds under each name. -/
theorem mapGet_migratePropObj (newObj oldObj : JsObject) (k : String) :
    keys (Fields.migratePropObj newObj oldObj).1 = keys newObj
      ∧ mapGet (Fields.migratePropObj newObj oldObj).1 k
        = if k ∈ keys newObj
            ∧ hasOwnProperty (mapSet (mapSet (Fields.clone oldObj) "tabId" (propGet newObj "tabId"))
                "alarmName" (propGet newObj "alarmName")) k = true
          then some (propGet (mapSet (mapSet (Fields.clone oldObj) "tabId"
                (propGet newObj "tabId")) "alarmName" (propGet newObj "alarmName")) k)
          else mapGet newObj k := by
  obtain ⟨h1, h2⟩ := migrate_loop
    (mapSet (mapSet (Fields.clone oldObj) "tabId" (propGet newObj "tabId"))
      "alarmName" (propGet newObj "alarmName"))
    (keys newObj) newObj (fun k hk => (mem_keys_iff newObj k).mp hk)
  exact ⟨h1, h2 k⟩

/-- C13. For every record `newObj` and every saved record `oldObj` (a record in
JSON form, so without `undefined` values), after `migratePropObj(newObj,
oldObj)`: the property names of `newObj` are the same as before, so a property
that only `oldObj` has is not taken over; `tabId` and `alarmName` keep the
values of `newObj`; every other property of `newObj` that `oldObj` also has
holds the value of `oldObj`; every property that `oldObj` lacks keeps the value
of `newObj`; and `oldObj` is as it was. -/
theorem migratePropObj_name_matched (newObj oldObj : JsObject)
    (hsaved : ∀ kv ∈ oldObj, kv.2 ≠ JsValue.undefined) :
    keys (Fields.migratePropObj newObj oldObj).1 = keys newObj
      ∧ (∀ k, hasOwnProperty newObj k = false →
          hasOwnProperty (Fields.migratePropObj newObj oldObj).1 k = false)
      ∧ propGet (Fields.migratePropObj newObj oldObj).1 "tabId" = propGet newObj "tabId"
      ∧ propGet (Fields.migratePropObj newObj oldObj).1 "alarmName"
          = propGet newObj "alarmName"
      ∧ (∀ k, k ≠ "tabId" → k ≠ "alarmName" →
          hasOwnProperty newObj k = true → hasOwnProperty oldObj k = true →
          propGet (Fields.migratePropObj newObj oldObj).1 k = propGet oldObj k)
      ∧ (∀ k, k ≠ "tabId" → k ≠ "alarmName" → hasOwnProperty oldObj k = false →
          propGet (Fields.migratePropObj newObj oldObj).1 k = propGet newObj k)
      ∧ (Fields.migratePropObj newObj oldObj).2 = oldObj := by
  have hkeys := (mapGet_migratePropObj newObj oldObj "tabId").1
  have hclone := clone_of_saved oldObj hsaved
  have hother : ∀ k, k ≠ "tabId" → k ≠ "alarmName" →
      mapGet (mapSet (mapSet (Fields.clone oldObj) "tabId" (propGet newObj "tabId"))
        "alarmName" (propGet newObj "alarmName")) k = mapGet oldObj k := by
    intro k h1 h2
    rw [mapGet_mapSet_of_ne _ _ (fun h => h2 h.symm),
      mapGet_mapSet_of_ne _ _ (fun h => h1 h.symm), hclone]
  refine ⟨hkeys, ?_, ?_, ?_, ?_, ?_, rfl⟩
  · intro k hk
    have hnot : ¬ k ∈ keys (Fields.migratePropObj newObj oldObj).1 := by
      rw [hkeys, mem_keys_iff, hk]
      simp
    rw [mem_keys_iff] at hnot
    simpa using hnot
  · have hres : propGet (Fields.migratePropObj newObj oldObj).1 "tabId"
        = (mapGet (Fields.migratePropObj newObj oldObj).1 "tabId").getD JsValue.undefined := rfl
    rw [hres, (mapGet_migratePropObj newObj oldObj "tabId").2]
    by_cases hk : "tabId" ∈ keys newObj
    · have hne : "alarmName" ≠ "tabId" := by decide
      have hget : mapGet (mapSet (mapSet (Fields.clone oldObj) "tabId" (propGet newObj "tabId"))
          "alarmName" (propGet newObj "alarmName")) "tabId" = some (propGet newObj "tabId") := by
        rw [mapGet_mapSet_of_ne _ _ hne, mapGet_mapSet_self]
      have hhas : hasOwnProperty (mapSet (mapSet (Fields.clone oldObj) "tabId"
          (propGet newObj "tabId")) "alarmName" (propGet newObj "alarmName")) "tabId" = true := by
        unfold hasOwnProperty
        rw [hget]
        rfl
      have hval : propGet (mapSet (mapSet (Fields.clone oldObj) "tabId"
          (propGet newObj "tabId")) "alarmName" (propGet newObj "alarmName")) "tabId"
          = propGet newObj "tabId" := by
        show (mapGet _ "tabId").getD JsValue.undefined = _
        rw [hget, Option.getD_some]
      rw [if_pos ⟨hk, hhas⟩, Option.getD_some, hval]
    · have hnot : ¬ ("tabId" ∈ keys newObj ∧ hasOwnProperty (mapSet (mapSet (Fields.clone oldObj)
          "tabId" (propGet newObj "tabId")) "alarmName" (propGet newObj "alarmName")) "tabId"
          = true) := fun h => hk h.1
      rw [if_neg hnot]
      rfl
  · have hres : propGet (Fields.migratePropObj newObj oldObj).1 "alarmName"
        = (mapGet (Fields.migratePropObj newObj oldObj).1 "alarmName").getD JsValue.undefined :=
      rfl
    rw [hres, (mapGet_migratePropObj newObj oldObj "alarmName").2]
    by_cases hk : "alarmName" ∈ keys newObj
    · have hget : mapGet (mapSet (mapSet (Fields.clone oldObj) "tabId" (propGet newObj "tabId"))
          "alarmName" (propGet newObj "alarmName")) "alarmName"
          = some (propGet newObj "alarmName") := mapGet_mapSet_self _ _ _
      have hhas : hasOwnProperty (mapSet (mapSet (Fields.clone oldObj) "tabId"
          (propGet newObj "tabId")) "alarmName" (propGet newObj "alarmName")) "alarmName"
          = true := by
        unfold hasOwnProperty
        rw [hget]
        rfl
      have hval : propGet (mapSet (mapSet (Fields.clone oldObj) "tabId"
          (propGet newObj "tabId")) "alarmName" (propGet newObj "alarmName")) "alarmName"
          = propGet newObj "alarmName" := by
        show (mapGet _ "alarmName").getD JsValue.undefined = _
        rw [hget, Option.getD_some]
      rw [if_pos ⟨hk, hhas⟩, Option.getD_some, hval]
    · have hnot : ¬ ("alarmName" ∈ keys newObj ∧ hasOwnProperty (mapSet (mapSet
          (Fields.clone oldObj) "tabId" (propGet newObj "tabId")) "alarmName"
          (propGet newObj "alarmName")) "alarmName" = true) := fun h => hk h.1
      rw [if_neg hnot]
      rfl
  · intro k h1 h2 hnew hold
    have hres : propGet (Fields.migratePropObj newObj oldObj).1 k
        = (mapGet (Fields.migratePropObj newObj oldObj).1 k).getD JsValue.undefined := rfl
    rw [hres, (mapGet_migratePropObj newObj oldObj k).2]
    have hmem : k ∈ keys newObj := (mem_keys_iff newObj k).mpr hnew
    have hhas : hasOwnProperty (mapSet (mapSet (Fields.clone oldObj) "tabId"
        (propGet newObj "tabId")) "alarmName" (propGet newObj "alarmName")) k = true := by
      unfold hasOwnProperty
      rw [hother k h1 h2]
      exact hold
    have hval : propGet (mapSet (mapSet (Fields.clone oldObj) "tabId"
        (propGet newObj "tabId")) "alarmName" (propGet newObj "alarmName")) k
        = propGet oldObj k := by
      show (mapGet _ k).getD JsValue.undefined = _
      rw [hother k h1 h2]
      rfl
    rw [if_pos ⟨hmem, hhas⟩, Option.getD_some, hval]
  · intro k h1 h2 hold
    have hres : propGet (Fields.migratePropObj newObj oldObj).1 k
        = (mapGet (Fields.migratePropObj newObj oldObj).1 k).getD JsValue.undefined := rfl
    rw [hres, (mapGet_migratePropObj newObj oldObj k).2]
    have hhas : ¬ (k ∈ keys newObj ∧ hasOwnProperty (mapSet (mapSet (Fields.clone oldObj) "tabId"
        (propGet newObj "tabId")) "alarmName" (propGet newObj "alarmName")) k = true) := by
      intro h
      have := h.2
      unfold hasOwnProperty at this
      rw [hother k h1 h2] at this
      unfold hasOwnProperty at hold
      rw [hold] at this
      exact Bool.false_ne_true this
    rw [if_neg hhas]
    rfl

/-- Witness of C13: a default record for tab 1 migrated from `legacyRecord`
keeps its own property names. -/
theorem migratePropObj_name_matched_witness :
    keys (Fields.migratePropObj (newTabProps fallbackSettings 1).toObject legacyRecord).1
      = keys (newTabProps fallbackSettings 1).toObject :=
  (migratePropObj_name_matched (newTabProps fallbackSettings 1).toObject legacyRecord
    (by decide)).1

/-! ## Typed records and property lists -/

/-- A lookup in two lists put together takes the first hit. -/
theorem mapGet_append {α : Type} (a b : List (String × α)) (k : String) :
    mapGet (a ++ b) k = (mapGet a k).or (mapGet b k) := by
  induction a with
  | nil => simp [mapGet]
  | cons e a ih =>
    obtain ⟨k', v'⟩ := e
    by_cases h : k' = k <;> simp [mapGet, h, ih]

/-- A lookup in an optional property. -/
theorem mapGet_optProp (k' : String) (v : Option JsValue) (k : String) :
    mapGet (optProp k' v) k = if k' = k then v else none := by
  cases v <;> simp [optProp, mapGet]

/-- An optional property is in the list only with its value. -/
theorem mem_optProp (kv : String × JsValue) (k : String) (v : Option JsValue)
    (h : kv ∈ optProp k v) : v = some kv.2 := by
  cases v with
  | none => simp [optProp] at h
  | some x => simp [optProp] at h; simp [h]

/-- A record in JSON form holds no `undefined`. -/
theorem snapshot_toObject_saved (s : Snapshot) :
    ∀ kv ∈ s.toObject, kv.2 ≠ JsValue.undefined := by
  intro kv hkv hu
  simp only [Snapshot.toObject, List.mem_append] at hkv
  have key : ∀ (k : String) (v : Option JsValue), kv ∈ optProp k v →
      v = some JsValue.undefined :=
    fun k v h => by rw [← hu]; exact mem_optProp kv k v h
  simp only [or_assoc] at hkv
  rcases hkv with h | h | h | h | h | h | h | h | h | h | h | h | h | h | h | h | h | h | h <;>
    have := key _ _ h <;>
    first
    | (simp at this; done)
    | (rcases hs : s.formData with _ | _ | _ <;> simp [hs] at this)

/-- The JSON clone of a typed record, as a property list, is the property-list
clone of the record. -/
theorem clone_toObject (p : TabProps) : Fields.clone p.toObject = (clone p).toObject := by
  cases h1 : p.scrollX <;> cases h2 : p.scrollY <;> cases h3 : p.formData <;>
    simp [Fields.clone, TabProps.toObject, Snapshot.toObject, clone, optProp, List.filter,
      h1, h2, h3]

/-- Two records with the same distinct names and the same value under each name
are the same list. -/
theorem list_eq_of_keys_mapGet (a b : JsObject) (hk : keys a = keys b) (hn : (keys a).Nodup)
    (hv : ∀ k ∈ keys a, mapGet a k = mapGet b k) : a = b := by
  induction a generalizing b with
  | nil =>
    cases b with
    | nil => rfl
    | cons e b => simp [keys] at hk
  | cons e a ih =>
    cases b with
    | nil => simp [keys] at hk
    | cons e' b =>
      obtain ⟨k, v⟩ := e
      obtain ⟨k', v'⟩ := e'
      simp only [keys, List.map_cons, List.cons.injEq] at hk
      obtain ⟨hk1, hk2⟩ := hk
      subst hk1
      simp only [keys, List.map_cons, List.nodup_cons] at hn
      have h0 := hv k (by simp [keys])
      simp only [mapGet, if_true, Option.some.injEq] at h0
      subst h0
      have : a = b := by
        refine ih b hk2 hn.2 ?_
        intro x hx
        have hne : ¬ k = x := fun h => hn.1 (h ▸ hx)
        have := hv x (by simp only [keys, List.map_cons]; exact List.mem_cons_of_mem _ hx)
        simpa [mapGet, hne] using this
      rw [this]

/-- The value of each fixed property of a typed record in its property list. -/
theorem toObject_lookup (p : TabProps) :
    mapGet p.toObject "randomize" = some (JsValue.bool p.randomize)
      ∧ mapGet p.toObject "loadError" = some (JsValue.bool p.loadError)
      ∧ mapGet p.toObject "smart" = some (JsValue.bool p.smart)
      ∧ mapGet p.toObject "onlyOnError" = some (JsValue.bool p.onlyOnError)
      ∧ mapGet p.toObject "stickyReload" = some (JsValue.bool p.stickyReload)
      ∧ mapGet p.toObject "nocache" = some (JsValue.bool p.nocache)
      ∧ mapGet p.toObject "remember" = some (JsValue.bool p.remember)
      ∧ mapGet p.toObject "period" = some (JsValue.number p.period)
      ∧ mapGet p.toObject "alarmName" = some (JsValue.string p.alarmName)
      ∧ mapGet p.toObject "keepRefreshing" = some (JsValue.bool p.keepRefreshing)
      ∧ mapGet p.toObject "freezeUntil" = some (JsValue.number p.freezeUntil)
      ∧ mapGet p.toObject "tabId" = some (JsValue.number p.tabId)
      ∧ mapGet p.toObject "reqMethod" = some (JsValue.string p.reqMethod)
      ∧ mapGet p.toObject "postConfirmed" = some (JsValue.bool p.postConfirmed)
      ∧ mapGet p.toObject "scrollX" = some ((p.scrollX.map JsValue.number).getD JsValue.undefined)
      ∧ mapGet p.toObject "scrollY" = some ((p.scrollY.map JsValue.number).getD JsValue.undefined)
      ∧ mapGet p.toObject "url" = some (JsValue.string p.url)
      ∧ mapGet p.toObject "reloadByAddon" = some (JsValue.bool p.reloadByAddon) := by
  refine ⟨?_, ?_, ?_, ?_, ?_, ?_, ?_, ?_, ?_, ?_, ?_, ?_, ?_, ?_, ?_, ?_, ?_, ?_⟩ <;> simp [TabProps.toObject, mapGet_append, mapGet]

/-- The `formData` property of a typed record in its property list. -/
theorem toObject_formData (p : TabProps) :
    mapGet p.toObject "formData"
      = match p.formData with
        | FormField.absent => none
        | FormField.null => some JsValue.null
        | FormField.data d => some (JsValue.form d) := by
  cases h : p.formData <;> simp [TabProps.toObject, mapGet_append, mapGet, h]

/-- The value of each property of a record in JSON form in its property list. -/
theorem snapshot_lookup (s : Snapshot) :
    mapGet s.toObject "randomize" = (s.randomize.map JsValue.bool)
      ∧ mapGet s.toObject "loadError" = (s.loadError.map JsValue.bool)
      ∧ mapGet s.toObject "smart" = (s.smart.map JsValue.bool)
      ∧ mapGet s.toObject "onlyOnError" = (s.onlyOnError.map JsValue.bool)
      ∧ mapGet s.toObject "stickyReload" = (s.stickyReload.map JsValue.bool)
      ∧ mapGet s.toObject "nocache" = (s.nocache.map JsValue.bool)
      ∧ mapGet s.toObject "remember" = (s.remember.map JsValue.bool)
      ∧ mapGet s.toObject "period" = (s.period.map JsValue.number)
      ∧ mapGet s.toObject "alarmName" = (s.alarmName.map JsValue.string)
      ∧ mapGet s.toObject "keepRefreshing" = (s.keepRefreshing.map JsValue.bool)
      ∧ mapGet s.toObject "freezeUntil" = (s.freezeUntil.map JsValue.number)
      ∧ mapGet s.toObject "tabId" = (s.tabId.map fun (t : Int) => JsValue.number (t : ℚ))
      ∧ mapGet s.toObject "reqMethod" = (s.reqMethod.map JsValue.string)
      ∧ mapGet s.toObject "postConfirmed" = (s.postConfirmed.map JsValue.bool)
      ∧ mapGet s.toObject "scrollX" = (s.scrollX.map JsValue.number)
      ∧ mapGet s.toObject "scrollY" = (s.scrollY.map JsValue.number)
      ∧ mapGet s.toObject "url" = (s.url.map JsValue.string)
      ∧ mapGet s.toObject "reloadByAddon" = (s.reloadByAddon.map JsValue.bool) := by
  refine ⟨?_, ?_, ?_, ?_, ?_, ?_, ?_, ?_, ?_, ?_, ?_, ?_, ?_, ?_, ?_, ?_, ?_, ?_⟩ <;> simp [Snapshot.toObject, mapGet_append, mapGet_optProp]

/-- The `formData` property of a record in JSON form in its property list. -/
theorem snapshot_formData (s : Snapshot) :
    mapGet s.toObject "formData"
      = s.formData.map fun f =>
          match f with
          | none => JsValue.null
          | some d => JsValue.form d := by
  simp [Snapshot.toObject, mapGet_append, mapGet_optProp]

/-- What `migratePropObj` writes under a name other than `tabId` and
`alarmName` that the new record has: the value of the old record when it has
the name, the new record's own value otherwise. -/
theorem migrate_field (n : TabProps) (s : Snapshot) (k : String)
    (hk1 : k ≠ "tabId") (hk2 : k ≠ "alarmName") (vOld : Option JsValue) (vNew : JsValue)
    (hold : mapGet s.toObject k = vOld) (hnew : mapGet n.toObject k = some vNew) :
    mapGet (Fields.migratePropObj n.toObject s.toObject).1 k = some (vOld.getD vNew) := by
  rw [(mapGet_migratePropObj _ _ k).2, clone_of_saved _ (snapshot_toObject_saved s)]
  have hmem : k ∈ keys n.toObject := by
    rw [mem_keys_iff]; unfold hasOwnProperty; rw [hnew]; rfl
  have htmp : mapGet (mapSet (mapSet s.toObject "tabId" (propGet n.toObject "tabId"))
      "alarmName" (propGet n.toObject "alarmName")) k = vOld := by
    rw [mapGet_mapSet_of_ne _ _ (fun h => hk2 h.symm),
      mapGet_mapSet_of_ne _ _ (fun h => hk1 h.symm), hold]
  cases vOld with
  | none =>
    have hno : ¬ (k ∈ keys n.toObject ∧ hasOwnProperty (mapSet (mapSet s.toObject "tabId"
        (propGet n.toObject "tabId")) "alarmName" (propGet n.toObject "alarmName")) k
        = true) := by
      intro h
      have := h.2
      unfold hasOwnProperty at this
      rw [htmp] at this
      exact Bool.false_ne_true this
    rw [if_neg hno, hnew]
    rfl
  | some v =>
    have hyes : hasOwnProperty (mapSet (mapSet s.toObject "tabId"
        (propGet n.toObject "tabId")) "alarmName" (propGet n.toObject "alarmName")) k
        = true := by
      unfold hasOwnProperty
      rw [htmp]
      rfl
    rw [if_pos ⟨hmem, hyes⟩]
    show some ((mapGet _ k).getD JsValue.undefined) = _
    rw [htmp]
    rfl

/-- The `tabId` that `migratePropObj` leaves in the new record is its own. -/
theorem migrate_tabId (newObj oldObj : JsObject) (h : hasOwnProperty newObj "tabId" = true) :
    mapGet (Fields.migratePropObj newObj oldObj).1 "tabId" = some (propGet newObj "tabId") := by
  have hne : "alarmName" ≠ "tabId" := by decide
  have hget : mapGet (mapSet (mapSet (Fields.clone oldObj) "tabId" (propGet newObj "tabId"))
      "alarmName" (propGet newObj "alarmName")) "tabId" = some (propGet newObj "tabId") := by
    rw [mapGet_mapSet_of_ne _ _ hne, mapGet_mapSet_self]
  have hhas : hasOwnProperty (mapSet (mapSet (Fields.clone oldObj) "tabId"
      (propGet newObj "tabId")) "alarmName" (propGet newObj "alarmName")) "tabId" = true := by
    unfold hasOwnProperty
    rw [hget]
    rfl
  rw [(mapGet_migratePropObj newObj oldObj "tabId").2,
    if_pos ⟨(mem_keys_iff newObj "tabId").mpr h, hhas⟩]
  show some ((mapGet _ "tabId").getD JsValue.undefined) = _
  rw [hget]
  rfl

/-- The `alarmName` that `migratePropObj` leaves in the new record is its own. -/
theorem migrate_alarmName (newObj oldObj : JsObject)
    (h : hasOwnProperty newObj "alarmName" = true) :
    mapGet (Fields.migratePropObj newObj oldObj).1 "alarmName"
      = some (propGet newObj "alarmName") := by
  have hget : mapGet (mapSet (mapSet (Fields.clone oldObj) "tabId" (propGet newObj "tabId"))
      "alarmName" (propGet newObj "alarmName")) "alarmName"
      = some (propGet newObj "alarmName") := mapGet_mapSet_self _ _ _
  have hhas : hasOwnProperty (mapSet (mapSet (Fields.clone oldObj) "tabId"
      (propGet newObj "tabId")) "alarmName" (propGet newObj "alarmName")) "alarmName"
      = true := by
    unfold hasOwnProperty
    rw [hget]
    rfl
  rw [(mapGet_migratePropObj newObj oldObj "alarmName").2,
    if_pos ⟨(mem_keys_iff newObj "alarmName").mpr h, hhas⟩]
  show some ((mapGet _ "alarmName").getD JsValue.undefined) = _
  rw [hget]
  rfl

/-- The two embeddings of `migratePropObj` agree: migrating the property lists
of a typed record and of a record in JSON form gives the property list of the
typed migration. -/
theorem migratePropObj_toObject (n : TabProps) (s : Snapshot) :
    (Fields.migratePropObj n.toObject s.toObject).1 = (migratePropObj n s).toObject := by
  apply list_eq_of_keys_mapGet
  · rw [(mapGet_migratePropObj _ _ "").1]
    cases hf : n.formData <;> rcases hs : s.formData with _ | _ | _ <;>
      simp [keys, TabProps.toObject, migratePropObj, hf, hs]
  · rw [(mapGet_migratePropObj _ _ "").1]
    cases hf : n.formData <;> simp [keys, TabProps.toObject, hf]
  · intro k hk
    rw [(mapGet_migratePropObj _ _ "").1] at hk
    cases hf : n.formData
    · simp only [keys, TabProps.toObject, hf, List.map_cons, List.map_nil, List.append_nil,
        List.mem_cons, List.mem_singleton, List.not_mem_nil, or_false] at hk
      rcases hk with rfl | rfl | rfl | rfl | rfl | rfl | rfl | rfl | rfl | rfl | rfl | rfl | rfl | rfl | rfl | rfl | rfl | rfl
      · rw [migrate_field n s "randomize" (by decide) (by decide) _ _ (snapshot_lookup s).1
            (toObject_lookup n).1, (toObject_lookup (migratePropObj n s)).1]
        cases hv : s.randomize <;> simp [migratePropObj, hv]
      · rw [migrate_field n s "loadError" (by decide) (by decide) _ _ (snapshot_lookup s).2.1
            (toObject_lookup n).2.1, (toObject_lookup (migratePropObj n s)).2.1]
        cases hv : s.loadError <;> simp [migratePropObj, hv]
      · rw [migrate_field n s "smart" (by decide) (by decide) _ _ (snapshot_lookup s).2.2.1
            (toObject_lookup n).2.2.1, (toObject_lookup (migratePropObj n s)).2.2.1]
        cases hv : s.smart <;> simp [migratePropObj, hv]
      · rw [migrate_field n s "onlyOnError" (by decide) (by decide) _ _ (snapshot_lookup s).2.2.2.1
            (toObject_lookup n).2.2.2.1, (toObject_lookup (migratePropObj n s)).2.2.2.1]
        cases hv : s.onlyOnError <;> simp [migratePropObj, hv]
      · rw [migrate_field n s "stickyReload" (by decide) (by decide) _ _ (snapshot_lookup s).2.2.2.2.1
            (toObject_lookup n).2.2.2.2.1, (toObject_lookup (migratePropObj n s)).2.2.2.2.1]
        cases hv : s.stickyReload <;> simp [migratePropObj, hv]
      · rw [migrate_field n s "nocache" (by decide) (by decide) _ _ (snapshot_lookup s).2.2.2.2.2.1
            (toObject_lookup n).2.2.2.2.2.1, (toObject_lookup (migratePropObj n s)).2.2.2.2.2.1]
        cases hv : s.nocache <;> simp [migratePropObj, hv]
      · rw [migrate_field n s "remember" (by decide) (by decide) _ _ (snapshot_lookup s).2.2.2.2.2.2.1
            (toObject_lookup n).2.2.2.2.2.2.1, (toObject_lookup (migratePropObj n s)).2.2.2.2.2.2.1]
        cases hv : s.remember <;> simp [migratePropObj, hv]
      · rw [migrate_field n s "period" (by decide) (by decide) _ _ (snapshot_lookup s).2.2.2.2.2.2.2.1
            (toObject_lookup n).2.2.2.2.2.2.2.1, (toObject_lookup (migratePropObj n s)).2.2.2.2.2.2.2.1]
        cases hv : s.period <;> simp [migratePropObj, hv]
      · rw [migrate_alarmName _ _ (by unfold hasOwnProperty; rw [(toObject_lookup n).2.2.2.2.2.2.2.2.1]; rfl),
          (toObject_lookup (migratePropObj n s)).2.2.2.2.2.2.2.2.1]
        show some ((mapGet n.toObject "alarmName").getD JsValue.undefined) = _
        rw [(toObject_lookup n).2.2.2.2.2.2.2.2.1]
        rfl
      · rw [migrate_field n s "keepRefreshing" (by decide) (by decide) _ _ (snapshot_lookup s).2.2.2.2.2.2.2.2.2.1
            (toObject_lookup n).2.2.2.2.2.2.2.2.2.1, (toObject_lookup (migratePropObj n s)).2.2.2.2.2.2.2.2.2.1]
        cases hv : s.keepRefreshing <;> simp [migratePropObj, hv]
      · rw [migrate_field n s "freezeUntil" (by decide) (by decide) _ _ (snapshot_lookup s).2.2.2.2.2.2.2.2.2.2.1
            (toObject_lookup n).2.2.2.2.2.2.2.2.2.2.1, (toObject_lookup (migratePropObj n s)).2.2.2.2.2.2.2.2.2.2.1]
        cases hv : s.freezeUntil <;> simp [migratePropObj, hv]
      · rw [migrate_tabId _ _ (by unfold hasOwnProperty; rw [(toObject_lookup n).2.2.2.2.2.2.2.2.2.2.2.1]; rfl),
          (toObject_lookup (migratePropObj n s)).2.2.2.2.2.2.2.2.2.2.2.1]
        show some ((mapGet n.toObject "tabId").getD JsValue.undefined) = _
        rw [(toObject_lookup n).2.2.2.2.2.2.2.2.2.2.2.1]
        rfl
      · rw [migrate_field n s "reqMethod" (by decide) (by decide) _ _ (snapshot_lookup s).2.2.2.2.2.2.2.2.2.2.2.2.1
            (toObject_lookup n).2.2.2.2.2.2.2.2.2.2.2.2.1, (toObject_lookup (migratePropObj n s)).2.2.2.2.2.2.2.2.2.2.2.2.1]
        cases hv : s.reqMethod <;> simp [migratePropObj, hv]
      · rw [migrate_field n s "postConfirmed" (by decide) (by decide) _ _ (snapshot_lookup s).2.2.2.2.2.2.2.2.2.2.2.2.2.1
            (toObject_lookup n).2.2.2.2.2.2.2.2.2.2.2.2.2.1, (toObject_lookup (migratePropObj n s)).2.2.2.2.2.2.2.2.2.2.2.2.2.1]
        cases hv : s.postConfirmed <;> simp [migratePropObj, hv]
      · rw [migrate_field n s "scrollX" (by decide) (by decide) _ _ (snapshot_lookup s).2.2.2.2.2.2.2.2.2.2.2.2.2.2.1
            (toObject_lookup n).2.2.2.2.2.2.2.2.2.2.2.2.2.2.1, (toObject_lookup (migratePropObj n s)).2.2.2.2.2.2.2.2.2.2.2.2.2.2.1]
        cases hv : s.scrollX <;> simp [migratePropObj, hv]
      · rw [migrate_field n s "scrollY" (by decide) (by decide) _ _ (snapshot_lookup s).2.2.2.2.2.2.2.2.2.2.2.2.2.2.2.1
            (toObject_lookup n).2.2.2.2.2.2.2.2.2.2.2.2.2.2.2.1, (toObject_lookup (migratePropObj n s)).2.2.2.2.2.2.2.2.2.2.2.2.2.2.2.1]
        cases hv : s.scrollY <;> simp [migratePropObj, hv]
      · rw [migrate_field n s "url" (by decide) (by decide) _ _ (snapshot_lookup s).2.2.2.2.2.2.2.2.2.2.2.2.2.2.2.2.1
            (toObject_lookup n).2.2.2.2.2.2.2.2.2.2.2.2.2.2.2.2.1, (toObject_lookup (migratePropObj n s)).2.2.2.2.2.2.2.2.2.2.2.2.2.2.2.2.1]
        cases hv : s.url <;> simp [migratePropObj, hv]
      · rw [migrate_field n s "reloadByAddon" (by decide) (by decide) _ _ (snapshot_lookup s).2.2.2.2.2.2.2.2.2.2.2.2.2.2.2.2.2
            (toObject_lookup n).2.2.2.2.2.2.2.2.2.2.2.2.2.2.2.2.2, (toObject_lookup (migratePropObj n s)).2.2.2.2.2.2.2.2.2.2.2.2.2.2.2.2.2]
        cases hv : s.reloadByAddon <;> simp [migratePropObj, hv]
    · simp only [keys, TabProps.toObject, hf, List.map_cons, List.map_nil, List.map_append,
        List.mem_append, List.mem_cons, List.mem_singleton, List.not_mem_nil, or_false,
        or_assoc] at hk
      rcases hk with rfl | rfl | rfl | rfl | rfl | rfl | rfl | rfl | rfl | rfl | rfl | rfl | rfl | rfl | rfl | rfl | rfl | rfl | rfl
      · rw [migrate_field n s "randomize" (by decide) (by decide) _ _ (snapshot_lookup s).1
            (toObject_lookup n).1, (toObject_lookup (migratePropObj n s)).1]
        cases hv : s.randomize <;> simp [migratePropObj, hv]
      · rw [migrate_field n s "loadError" (by decide) (by decide) _ _ (snapshot_lookup s).2.1
            (toObject_lookup n).2.1, (toObject_lookup (migratePropObj n s)).2.1]
        cases hv : s.loadError <;> simp [migratePropObj, hv]
      · rw [migrate_field n s "smart" (by decide) (by decide) _ _ (snapshot_lookup s).2.2.1
            (toObject_lookup n).2.2.1, (toObject_lookup (migratePropObj n s)).2.2.1]
        cases hv : s.smart <;> simp [migratePropObj, hv]
      · rw [migrate_field n s "onlyOnError" (by decide) (by decide) _ _ (snapshot_lookup s).2.2.2.1
            (toObject_lookup n).2.2.2.1, (toObject_lookup (migratePropObj n s)).2.2.2.1]
        cases hv : s.onlyOnError <;> simp [migratePropObj, hv]
      · rw [migrate_field n s "stickyReload" (by decide) (by decide) _ _ (snapshot_lookup s).2.2.2.2.1
            (toObject_lookup n).2.2.2.2.1, (toObject_lookup (migratePropObj n s)).2.2.2.2.1]
        cases hv : s.stickyReload <;> simp [migratePropObj, hv]
      · rw [migrate_field n s "nocache" (by decide) (by decide) _ _ (snapshot_lookup s).2.2.2.2.2.1
            (toObject_lookup n).2.2.2.2.2.1, (toObject_lookup (migratePropObj n s)).2.2.2.2.2.1]
        cases hv : s.nocache <;> simp [migratePropObj, hv]
      · rw [migrate_field n s "remember" (by decide) (by decide) _ _ (snapshot_lookup s).2.2.2.2.2.2.1
            (toObject_lookup n).2.2.2.2.2.2.1, (toObject_lookup (migratePropObj n s)).2.2.2.2.2.2.1]
        cases hv : s.remember <;> simp [migratePropObj, hv]
      · rw [migrate_field n s "period" (by decide) (by decide) _ _ (snapshot_lookup s).2.2.2.2.2.2.2.1
            (toObject_lookup n).2.2.2.2.2.2.2.1, (toObject_lookup (migratePropObj n s)).2.2.2.2.2.2.2.1]
        cases hv : s.period <;> simp [migratePropObj, hv]
      · rw [migrate_alarmName _ _ (by unfold hasOwnProperty; rw [(toObject_lookup n).2.2.2.2.2.2.2.2.1]; rfl),
          (toObject_lookup (migratePropObj n s)).2.2.2.2.2.2.2.2.1]
        show some ((mapGet n.toObject "alarmName").getD JsValue.undefined) = _
        rw [(toObject_lookup n).2.2.2.2.2.2.2.2.1]
        rfl
      · rw [migrate_field n s "keepRefreshing" (by decide) (by decide) _ _ (snapshot_lookup s).2.2.2.2.2.2.2.2.2.1
            (toObject_lookup n).2.2.2.2.2.2.2.2.2.1, (toObject_lookup (migratePropObj n s)).2.2.2.2.2.2.2.2.2.1]
        cases hv : s.keepRefreshing <;> simp [migratePropObj, hv]
      · rw [migrate_field n s "freezeUntil" (by decide) (by decide) _ _ (snapshot_lookup s).2.2.2.2.2.2.2.2.2.2.1
            (toObject_lookup n).2.2.2.2.2.2.2.2.2.2.1, (toObject_lookup (migratePropObj n s)).2.2.2.2.2.2.2.2.2.2.1]
        cases hv : s.freezeUntil <;> simp [migratePropObj, hv]
      · rw [migrate_tabId _ _ (by unfold hasOwnProperty; rw [(toObject_lookup n).2.2.2.2.2.2.2.2.2.2.2.1]; rfl),
          (toObject_lookup (migratePropObj n s)).2.2.2.2.2.2.2.2.2.2.2.1]
        show some ((mapGet n.toObject "tabId").getD JsValue.undefined) = _
        rw [(toObject_lookup n).2.2.2.2.2.2.2.2.2.2.2.1]
        rfl
      · rw [migrate_field n s "reqMethod" (by decide) (by decide) _ _ (snapshot_lookup s).2.2.2.2.2.2.2.2.2.2.2.2.1
            (toObject_lookup n).2.2.2.2.2.2.2.2.2.2.2.2.1, (toObject_lookup (migratePropObj n s)).2.2.2.2.2.2.2.2.2.2.2.2.1]
        cases hv : s.reqMethod <;> simp [migratePropObj, hv]
      · rw [migrate_field n s "postConfirmed" (by decide) (by decide) _ _ (snapshot_lookup s).2.2.2.2.2.2.2.2.2.2.2.2.2.1
            (toObject_lookup n).2.2.2.2.2.2.2.2.2.2.2.2.2.1, (toObject_lookup (migratePropObj n s)).2.2.2.2.2.2.2.2.2.2.2.2.2.1]
        cases hv : s.postConfirmed <;> simp [migratePropObj, hv]
      · rw [migrate_field n s "scrollX" (by decide) (by decide) _ _ (snapshot_lookup s).2.2.2.2.2.2.2.2.2.2.2.2.2.2.1
            (toObject_lookup n).2.2.2.2.2.2.2.2.2.2.2.2.2.2.1, (toObject_lookup (migratePropObj n s)).2.2.2.2.2.2.2.2.2.2.2.2.2.2.1]
        cases hv : s.scrollX <;> simp [migratePropObj, hv]
      · rw [migrate_field n s "scrollY" (by decide) (by decide) _ _ (snapshot_lookup s).2.2.2.2.2.2.2.2.2.2.2.2.2.2.2.1
            (toObject_lookup n).2.2.2.2.2.2.2.2.2.2.2.2.2.2.2.1, (toObject_lookup (migratePropObj n s)).2.2.2.2.2.2.2.2.2.2.2.2.2.2.2.1]
        cases hv : s.scrollY <;> simp [migratePropObj, hv]
      · rw [migrate_field n s "url" (by decide) (by decide) _ _ (snapshot_lookup s).2.2.2.2.2.2.2.2.2.2.2.2.2.2.2.2.1
            (toObject_lookup n).2.2.2.2.2.2.2.2.2.2.2.2.2.2.2.2.1, (toObject_lookup (migratePropObj n s)).2.2.2.2.2.2.2.2.2.2.2.2.2.2.2.2.1]
        cases hv : s.url <;> simp [migratePropObj, hv]
      · rw [migrate_field n s "reloadByAddon" (by decide) (by decide) _ _ (snapshot_lookup s).2.2.2.2.2.2.2.2.2.2.2.2.2.2.2.2.2
            (toObject_lookup n).2.2.2.2.2.2.2.2.2.2.2.2.2.2.2.2.2, (toObject_lookup (migratePropObj n s)).2.2.2.2.2.2.2.2.2.2.2.2.2.2.2.2.2]
        cases hv : s.reloadByAddon <;> simp [migratePropObj, hv]
      · rw [migrate_field n s "formData" (by decide) (by decide) _ _ (snapshot_formData s)
            (by rw [toObject_formData, hf]), toObject_formData]
        rcases hs : s.formData with _ | _ | _ <;> simp [migratePropObj, hf, hs]
    · simp only [keys, TabProps.toObject, hf, List.map_cons, List.map_nil, List.map_append,
        List.mem_append, List.mem_cons, List.mem_singleton, List.not_mem_nil, or_false,
        or_assoc] at hk
      rcases hk with rfl | rfl | rfl | rfl | rfl | rfl | rfl | rfl | rfl | rfl | rfl | rfl | rfl | rfl | rfl | rfl | rfl | rfl | rfl
      · rw [migrate_field n s "randomize" (by decide) (by decide) _ _ (snapshot_lookup s).1
            (toObject_lookup n).1, (toObject_lookup (migratePropObj n s)).1]
        cases hv : s.randomize <;> simp [migratePropObj, hv]
      · rw [migrate_field n s "loadError" (by decide) (by decide) _ _ (snapshot_lookup s).2.1
            (toObject_lookup n).2.1, (toObject_lookup (migratePropObj n s)).2.1]
        cases hv : s.loadError <;> simp [migratePropObj, hv]
      · rw [migrate_field n s "smart" (by decide) (by decide) _ _ (snapshot_lookup s).2.2.1
            (toObject_lookup n).2.2.1, (toObject_lookup (migratePropObj n s)).2.2.1]
        cases hv : s.smart <;> simp [migratePropObj, hv]
      · rw [migrate_field n s "onlyOnError" (by decide) (by decide) _ _ (snapshot_lookup s).2.2.2.1
            (toObject_lookup n).2.2.2.1, (toObject_lookup (migratePropObj n s)).2.2.2.1]
        cases hv : s.onlyOnError <;> simp [migratePropObj, hv]
      · rw [migrate_field n s "stickyReload" (by decide) (by decide) _ _ (snapshot_lookup s).2.2.2.2.1
            (toObject_lookup n).2.2.2.2.1, (toObject_lookup (migratePropObj n s)).2.2.2.2.1]
        cases hv : s.stickyReload <;> simp [migratePropObj, hv]
      · rw [migrate_field n s "nocache" (by decide) (by decide) _ _ (snapshot_lookup s).2.2.2.2.2.1
            (toObject_lookup n).2.2.2.2.2.1, (toObject_lookup (migratePropObj n s)).2.2.2.2.2.1]
        cases hv : s.nocache <;> simp [migratePropObj, hv]
      · rw [migrate_field n s "remember" (by decide) (by decide) _ _ (snapshot_lookup s).2.2.2.2.2.2.1
            (toObject_lookup n).2.2.2.2.2.2.1, (toObject_lookup (migratePropObj n s)).2.2.2.2.2.2.1]
        cases hv : s.remember <;> simp [migratePropObj, hv]
      · rw [migrate_field n s "period" (by decide) (by decide) _ _ (snapshot_lookup s).2.2.2.2.2.2.2.1
            (toObject_lookup n).2.2.2.2.2.2.2.1, (toObject_lookup (migratePropObj n s)).2.2.2.2.2.2.2.1]
        cases hv : s.period <;> simp [migratePropObj, hv]
      · rw [migrate_alarmName _ _ (by unfold hasOwnProperty; rw [(toObject_lookup n).2.2.2.2.2.2.2.2.1]; rfl),
          (toObject_lookup (migratePropObj n s)).2.2.2.2.2.2.2.2.1]
        show some ((mapGet n.toObject "alarmName").getD JsValue.undefined) = _
        rw [(toObject_lookup n).2.2.2.2.2.2.2.2.1]
        rfl
      · rw [migrate_field n s "keepRefreshing" (by decide) (by decide) _ _ (snapshot_lookup s).2.2.2.2.2.2.2.2.2.1
            (toObject_lookup n).2.2.2.2.2.2.2.2.2.1, (toObject_lookup (migratePropObj n s)).2.2.2.2.2.2.2.2.2.1]
        cases hv : s.keepRefreshing <;> simp [migratePropObj, hv]
      · rw [migrate_field n s "freezeUntil" (by decide) (by decide) _ _ (snapshot_lookup s).2.2.2.2.2.2.2.2.2.2.1
            (toObject_lookup n).2.2.2.2.2.2.2.2.2.2.1, (toObject_lookup (migratePropObj n s)).2.2.2.2.2.2.2.2.2.2.1]
        cases hv : s.freezeUntil <;> simp [migratePropObj, hv]
      · rw [migrate_tabId _ _ (by unfold hasOwnProperty; rw [(toObject_lookup n).2.2.2.2.2.2.2.2.2.2.2.1]; rfl),
          (toObject_lookup (migratePropObj n s)).2.2.2.2.2.2.2.2.2.2.2.1]
        show some ((mapGet n.toObject "tabId").getD JsValue.undefined) = _
        rw [(toObject_lookup n).2.2.2.2.2.2.2.2.2.2.2.1]
        rfl
      · rw [migrate_field n s "reqMethod" (by decide) (by decide) _ _ (snapshot_lookup s).2.2.2.2.2.2.2.2.2.2.2.2.1
            (toObject_lookup n).2.2.2.2.2.2.2.2.2.2.2.2.1, (toObject_lookup (migratePropObj n s)).2.2.2.2.2.2.2.2.2.2.2.2.1]
        cases hv : s.reqMethod <;> simp [migratePropObj, hv]
      · rw [migrate_field n s "postConfirmed" (by decide) (by decide) _ _ (snapshot_lookup s).2.2.2.2.2.2.2.2.2.2.2.2.2.1
            (toObject_lookup n).2.2.2.2.2.2.2.2.2.2.2.2.2.1, (toObject_lookup (migratePropObj n s)).2.2.2.2.2.2.2.2.2.2.2.2.2.1]
        cases hv : s.postConfirmed <;> simp [migratePropObj, hv]
      · rw [migrate_field n s "scrollX" (by decide) (by decide) _ _ (snapshot_lookup s).2.2.2.2.2.2.2.2.2.2.2.2.2.2.1
            (toObject_lookup n).2.2.2.2.2.2.2.2.2.2.2.2.2.2.1, (toObject_lookup (migratePropObj n s)).2.2.2.2.2.2.2.2.2.2.2.2.2.2.1]
        cases hv : s.scrollX <;> simp [migratePropObj, hv]
      · rw [migrate_field n s "scrollY" (by decide) (by decide) _ _ (snapshot_lookup s).2.2.2.2.2.2.2.2.2.2.2.2.2.2.2.1
            (toObject_lookup n).2.2.2.2.2.2.2.2.2.2.2.2.2.2.2.1, (toObject_lookup (migratePropObj n s)).2.2.2.2.2.2.2.2.2.2.2.2.2.2.2.1]
        cases hv : s.scrollY <;> simp [migratePropObj, hv]
      · rw [migrate_field n s "url" (by decide) (by decide) _ _ (snapshot_lookup s).2.2.2.2.2.2.2.2.2.2.2.2.2.2.2.2.1
            (toObject_lookup n).2.2.2.2.2.2.2.2.2.2.2.2.2.2.2.2.1, (toObject_lookup (migratePropObj n s)).2.2.2.2.2.2.2.2.2.2.2.2.2.2.2.2.1]
        cases hv : s.url <;> simp [migratePropObj, hv]
      · rw [migrate_field n s "reloadByAddon" (by decide) (by decide) _ _ (snapshot_lookup s).2.2.2.2.2.2.2.2.2.2.2.2.2.2.2.2.2
            (toObject_lookup n).2.2.2.2.2.2.2.2.2.2.2.2.2.2.2.2.2, (toObject_lookup (migratePropObj n s)).2.2.2.2.2.2.2.2.2.2.2.2.2.2.2.2.2]
        cases hv : s.reloadByAddon <;> simp [migratePropObj, hv]
      · rw [migrate_field n s "formData" (by decide) (by decide) _ _ (snapshot_formData s)
            (by rw [toObject_formData, hf]), toObject_formData]
        rcases hs : s.formData with _ | _ | _ <;> simp [migratePropObj, hf, hs]

/-- Cloning a clone changes nothing. -/
theorem clone_clone (o : JsObject) : Fields.clone (Fields.clone o) = Fields.clone o := by
  unfold Fields.clone
  rw [List.filter_filter]
  congr 1
  funext kv
  simp

/-- The same agreement when the old record is a live typed record, as in the
"enable all" command: the source clones it first. -/
theorem migratePropObj_live_toObject (n o : TabProps) :
    (Fields.migratePropObj n.toObject o.toObject).1 = (migratePropObj n (clone o)).toObject := by
  rw [← migratePropObj_toObject, ← clone_toObject]
  unfold Fields.migratePropObj
  simp only [clone_clone]

end ReloadMatic
